import Mathlib

/-!
# Barycentric coefficients and point location in a Delaunay triangulation

A shallow embedding of `gdal/alg/delaunay.c`:

* `GDALTriangulationComputeBarycentricCoefficients` (lines 301-351),
* `GDALTriangulationComputeBarycentricCoordinates` (lines 357-400),
* `GDALTriangulationFindFacetBruteForce` (lines 426-493),
* `GDALTriangulationFindFacetDirected` (lines 521-628).

Conventions of the embedding.

* A C `double` is an exact rational number (`ℚ`): a statement below is a statement in exact
  arithmetic, except in the section on the evaluation in double arithmetic, the only one in
  which rounding is modelled. `fabs` is the absolute value, the literals `1e-5` and `1e-10`
  are the rationals `1/100000` and `1/10000000000`.
* A C `int` is an `Int`; no operation of the four functions can overflow on an array that
  fits in memory (the only arithmetic on ints is `nFacetIdx++`, `k++` and `2 + nFacets / 4`).
* A C array is a `List`; a read at an index outside the list is undefined behaviour in C and is
  the result `none` of the function that performs it.
* A function that returns an `int` status and writes through output pointers returns the pair
  of the status and of the values written.
-/

namespace GDAL

/-! ## Data model -/

/-- Modelled from the spec: the declaration of the struct (`gdal_alg.h`) is not among the
sources. A triangle has exactly three vertex indices (into the point arrays) and exactly three
neighbor indices (into the facet array, negative when there is no neighbor), positionally
paired, as the fields `anVertexIdx[3]` and `anNeighborIdx[3]` are used in `delaunay.c`. -/
structure GDALTriFacet where
  anVertexIdx : Fin 3 → Int
  anNeighborIdx : Fin 3 → Int

/-- Modelled from the spec: the declaration of the struct (`gdal_alg.h`) is not among the
sources. Six scalars per triangle: two gradient pairs and one reference point, under the field
names used in `delaunay.c`. -/
structure GDALTriBarycentricCoefficients where
  dfMul1X : ℚ
  dfMul1Y : ℚ
  dfMul2X : ℚ
  dfMul2Y : ℚ
  dfCstX : ℚ
  dfCstY : ℚ
  deriving DecidableEq

/-- Modelled from the spec: the declaration of the struct (`gdal_alg.h`) is not among the
sources. A triangulation owns a sequence of triangles and an optional sequence of coefficients
(`pasFacetCoefficients`, `NULL` until computed). The facet array is allocated with exactly
`nFacets` entries (lines 212-221), so the field `nFacets` is the length of `pasFacets`. -/
structure GDALTriangulation where
  pasFacets : List GDALTriFacet
  pasFacetCoefficients : Option (List GDALTriBarycentricCoefficients)

/-- The number of triangles `psDT->nFacets` (written `J` in the specification). -/
def GDALTriangulation.nFacets (psDT : GDALTriangulation) : Int :=
  psDT.pasFacets.length

/-- Read of a C array at an `int` index; `none` is an access outside the array. -/
def readAt {α : Type} (xs : List α) (i : Int) : Option α :=
  if 0 ≤ i then xs[i.toNat]? else none

/-! ## GDALTriangulationComputeBarycentricCoefficients -/

/-- The coefficients stored for one triangle from the coordinates of its three vertices
(lines 329-348). -/
def computeCoefficients (dfX1 dfY1 dfX2 dfY2 dfX3 dfY3 : ℚ) :
    GDALTriBarycentricCoefficients :=
  let dfDenom := (dfY2 - dfY3) * (dfX1 - dfX3) + (dfX3 - dfX2) * (dfY1 - dfY3)
  if |dfDenom| < 1 / 100000 then
    { dfMul1X := 0, dfMul1Y := 0, dfMul2X := 0, dfMul2Y := 0, dfCstX := 0, dfCstY := 0 }
  else
    { dfMul1X := (dfY2 - dfY3) / dfDenom
      dfMul1Y := (dfX3 - dfX2) / dfDenom
      dfMul2X := (dfY3 - dfY1) / dfDenom
      dfMul2Y := (dfX1 - dfX3) / dfDenom
      dfCstX := dfX3
      dfCstY := dfY3 }

/-- One iteration of the loop of lines 318-349: the six reads of the point arrays
(lines 322-327) followed by the computation of the coefficients. -/
def computeFacetCoefficients (padfX padfY : List ℚ) (psFacet : GDALTriFacet) :
    Option GDALTriBarycentricCoefficients :=
  match readAt padfX (psFacet.anVertexIdx 0), readAt padfY (psFacet.anVertexIdx 0),
        readAt padfX (psFacet.anVertexIdx 1), readAt padfY (psFacet.anVertexIdx 1),
        readAt padfX (psFacet.anVertexIdx 2), readAt padfY (psFacet.anVertexIdx 2) with
  | some dfX1, some dfY1, some dfX2, some dfY2, some dfX3, some dfY3 =>
      some (computeCoefficients dfX1 dfY1 dfX2 dfY2 dfX3 dfY3)
  | _, _, _, _, _, _ => none

/-- The loop of lines 318-349 over the facets `0 .. nFacets-1`, in order. -/
def computeCoefficientsLoop (padfX padfY : List ℚ) :
    List GDALTriFacet → Option (List GDALTriBarycentricCoefficients)
  | [] => some []
  | psFacet :: rest =>
      match computeFacetCoefficients padfX padfY psFacet with
      | none => none
      | some psCoeffs =>
          match computeCoefficientsLoop padfX padfY rest with
          | none => none
          | some coeffs => some (psCoeffs :: coeffs)

/-- The function of lines 301-351. `bAllocated` says whether `VSI_MALLOC2_VERBOSE` (a macro
that is not among the sources) returned a buffer for the coefficient array. The result is the
returned status and the triangulation after the call. -/
def GDALTriangulationComputeBarycentricCoefficients (bAllocated : Bool)
    (psDT : GDALTriangulation) (padfX padfY : List ℚ) :
    Option (Bool × GDALTriangulation) :=
  match psDT.pasFacetCoefficients with
  | some _ => some (true, psDT)
  | none =>
      if bAllocated = false then some (false, psDT)
      else
        match computeCoefficientsLoop padfX padfY psDT.pasFacets with
        | none => none
        | some coeffs => some (true, { psDT with pasFacetCoefficients := some coeffs })

/-! ## GDALTriangulationComputeBarycentricCoordinates -/

/-- The macro `BARYC_COORD_L1` (lines 357-358). -/
def BARYC_COORD_L1 (psCoeffs : GDALTriBarycentricCoefficients) (dfX dfY : ℚ) : ℚ :=
  psCoeffs.dfMul1X * (dfX - psCoeffs.dfCstX) + psCoeffs.dfMul1Y * (dfY - psCoeffs.dfCstY)

/-- The macro `BARYC_COORD_L2` (lines 359-360). -/
def BARYC_COORD_L2 (psCoeffs : GDALTriBarycentricCoefficients) (dfX dfY : ℚ) : ℚ :=
  psCoeffs.dfMul2X * (dfX - psCoeffs.dfCstX) + psCoeffs.dfMul2Y * (dfY - psCoeffs.dfCstY)

/-- The macro `BARYC_COORD_L3` (line 361). -/
def BARYC_COORD_L3 (l1 l2 : ℚ) : ℚ :=
  1 - l1 - l2

/-- The function of lines 378-400. The result is the returned status and the three values
written through `pdfL1`, `pdfL2`, `pdfL3` (`none` when nothing is written). An index outside
`[0, nFacets)` violates the assertion of line 393 and is undefined. -/
def GDALTriangulationComputeBarycentricCoordinates (psDT : GDALTriangulation)
    (nFacetIdx : Int) (dfX dfY : ℚ) : Option (Bool × Option (ℚ × ℚ × ℚ)) :=
  match psDT.pasFacetCoefficients with
  | none => some (false, none)
  | some coeffs =>
      if 0 ≤ nFacetIdx ∧ nFacetIdx < psDT.nFacets then
        match readAt coeffs nFacetIdx with
        | none => none
        | some psCoeffs =>
            let l1 := BARYC_COORD_L1 psCoeffs dfX dfY
            let l2 := BARYC_COORD_L2 psCoeffs dfX dfY
            some (true, some (l1, l2, BARYC_COORD_L3 l1 l2))
      else none

/-! ## GDALTriangulationFindFacetBruteForce -/

/-- The constant `EPS` (line 406). -/
def EPS : ℚ := 1 / 10000000000

/-- The test of lines 444-445 and 548-549 that the locators use for a degenerate triangle. -/
def isDegenerate (psCoeffs : GDALTriBarycentricCoefficients) : Prop :=
  psCoeffs.dfMul1X = 0 ∧ psCoeffs.dfMul2X = 0 ∧ psCoeffs.dfMul1Y = 0 ∧ psCoeffs.dfMul2Y = 0

instance (psCoeffs : GDALTriBarycentricCoefficients) : Decidable (isDegenerate psCoeffs) := by
  unfold isDegenerate
  infer_instance

/-- The body of the scan loop for one triangle (lines 441-490): `none` is `continue`,
`some b` is `return b` after `*panOutputFacetIdx = nFacetIdx`. -/
def bruteForceBody (psCoeffs : GDALTriBarycentricCoefficients) (psFacet : GDALTriFacet)
    (dfX dfY : ℚ) : Option Bool :=
  if isDegenerate psCoeffs then none
  else
    let l1 := BARYC_COORD_L1 psCoeffs dfX dfY
    if l1 < -EPS then
      if psFacet.anNeighborIdx 0 < 0 then some false else none
    else if l1 > 1 + EPS then none
    else
      let l2 := BARYC_COORD_L2 psCoeffs dfX dfY
      if l2 < -EPS then
        if psFacet.anNeighborIdx 1 < 0 then some false else none
      else if l2 > 1 + EPS then none
      else
        let l3 := BARYC_COORD_L3 l1 l2
        if l3 < -EPS then
          if psFacet.anNeighborIdx 2 < 0 then some false else none
        else if l3 > 1 + EPS then none
        else some true

/-- The loop of lines 439-491 from index `nFacetIdx` with `n` triangles left before
`nFacetIdx` reaches `nFacets`; falling out of the loop is the `return FALSE` of line 492 with
the output index still `-1`. The facet `pasFacets[nFacetIdx]`, which the source reads at lines
453, 466 and 479, is inside the facet array whenever `nFacetIdx < nFacets`. -/
def bruteForceLoop (pasFacets : List GDALTriFacet)
    (coeffs : List GDALTriBarycentricCoefficients) (dfX dfY : ℚ) :
    Nat → Nat → Option (Bool × Int)
  | 0, _ => some (false, -1)
  | n + 1, nFacetIdx =>
      match coeffs[nFacetIdx]?, pasFacets[nFacetIdx]? with
      | some psCoeffs, some psFacet =>
          match bruteForceBody psCoeffs psFacet dfX dfY with
          | some b => some (b, (nFacetIdx : Int))
          | none => bruteForceLoop pasFacets coeffs dfX dfY n (nFacetIdx + 1)
      | _, _ => none

/-- The function of lines 426-493. The result is the returned status and the value of
`*panOutputFacetIdx`. -/
def GDALTriangulationFindFacetBruteForce (psDT : GDALTriangulation) (dfX dfY : ℚ) :
    Option (Bool × Int) :=
  match psDT.pasFacetCoefficients with
  | none => some (false, -1)
  | some coeffs => bruteForceLoop psDT.pasFacets coeffs dfX dfY psDT.pasFacets.length 0

/-! ## GDALTriangulationFindFacetDirected -/

/-- What one iteration of the walk (lines 543-623) does. -/
inductive WalkStep where
  /-- A `break` (lines 552 and 622). -/
  | brk : WalkStep
  /-- A `return` of the status after `*panOutputFacetIdx = nFacetIdx`. -/
  | ret : Bool → WalkStep
  /-- The assignment `nFacetIdx = neighbor; continue`. -/
  | move : Int → WalkStep
  deriving DecidableEq

/-- The body of the walk loop for the current triangle (lines 543-623). -/
def directedBody (psCoeffs : GDALTriBarycentricCoefficients) (psFacet : GDALTriFacet)
    (dfX dfY : ℚ) : WalkStep :=
  if isDegenerate psCoeffs then WalkStep.brk
  else
    let l1 := BARYC_COORD_L1 psCoeffs dfX dfY
    if l1 < -EPS then
      if psFacet.anNeighborIdx 0 < 0 then WalkStep.ret false
      else WalkStep.move (psFacet.anNeighborIdx 0)
    else
      let bMatch1 : Bool := if l1 > 1 + EPS then false else true
      let l2 := BARYC_COORD_L2 psCoeffs dfX dfY
      if l2 < -EPS then
        if psFacet.anNeighborIdx 1 < 0 then WalkStep.ret false
        else WalkStep.move (psFacet.anNeighborIdx 1)
      else
        let bMatch2 : Bool := if l2 > 1 + EPS then false else bMatch1
        let l3 := BARYC_COORD_L3 l1 l2
        if l3 < -EPS then
          if psFacet.anNeighborIdx 2 < 0 then WalkStep.ret false
          else WalkStep.move (psFacet.anNeighborIdx 2)
        else
          let bMatch3 : Bool := if l3 > 1 + EPS then false else bMatch2
          if bMatch3 then WalkStep.ret true else WalkStep.brk

/-- The loop of lines 541-624 with `n` iterations left before `k` reaches `nIterMax`, at the
current triangle `nFacetIdx`. Lines 545-547 take the addresses of entry `nFacetIdx` of the
facet array and of the coefficient array, so both entries are read at the top of the iteration.
The result `some none` is the exit of the loop (cap reached or `break`), `some (some r)` is a
`return` from inside the loop, `none` is a read outside the facet or coefficient array. -/
def directedLoop (pasFacets : List GDALTriFacet)
    (coeffs : List GDALTriBarycentricCoefficients) (dfX dfY : ℚ) :
    Nat → Int → Option (Option (Bool × Int))
  | 0, _ => some none
  | n + 1, nFacetIdx =>
      match readAt coeffs nFacetIdx, readAt pasFacets nFacetIdx with
      | some psCoeffs, some psFacet =>
          match directedBody psCoeffs psFacet dfX dfY with
          | WalkStep.brk => some none
          | WalkStep.ret b => some (some (b, nFacetIdx))
          | WalkStep.move neighbor => directedLoop pasFacets coeffs dfX dfY n neighbor
      | _, _ => none

/-- The function of lines 521-628. The result is the returned status and the value of
`*panOutputFacetIdx`. -/
def GDALTriangulationFindFacetDirected (psDT : GDALTriangulation) (nFacetIdx : Int)
    (dfX dfY : ℚ) : Option (Bool × Int) :=
  match psDT.pasFacetCoefficients with
  | none => some (false, -1)
  | some coeffs =>
      match directedLoop psDT.pasFacets coeffs dfX dfY (2 + psDT.pasFacets.length / 4)
          nFacetIdx with
      | none => none
      | some (some r) => some r
      | some none => GDALTriangulationFindFacetBruteForce psDT dfX dfY

/-! ## Preconditions and a concrete mesh -/

/-- Every vertex index of every triangle is the index of a point of both coordinate arrays
(the arrays passed are those the triangulation was built from). -/
def VertexIndicesInRange (psDT : GDALTriangulation) (padfX padfY : List ℚ) : Prop :=
  ∀ psFacet ∈ psDT.pasFacets, ∀ k : Fin 3,
    0 ≤ psFacet.anVertexIdx k ∧ psFacet.anVertexIdx k < padfX.length ∧
      psFacet.anVertexIdx k < padfY.length

/-- The determinant `dfDenom` of line 329. -/
def denom (dfX1 dfY1 dfX2 dfY2 dfX3 dfY3 : ℚ) : ℚ :=
  (dfY2 - dfY3) * (dfX1 - dfX3) + (dfX3 - dfX2) * (dfY1 - dfY3)

/-- The x coordinates of the unit square `(0,0), (1,0), (0,1), (1,1)`. -/
def squareX : List ℚ := [0, 1, 0, 1]

/-- The y coordinates of the unit square `(0,0), (1,0), (0,1), (1,1)`. -/
def squareY : List ℚ := [0, 0, 1, 1]

/-- The lower left triangle `(0,0), (1,0), (0,1)` of the unit square; its neighbor across the
diagonal (the edge opposite its first vertex) is triangle 1, its two other edges are on the
hull. -/
def squareFacet0 : GDALTriFacet :=
  { anVertexIdx := ![0, 1, 2], anNeighborIdx := ![1, -1, -1] }

/-- The upper right triangle `(1,1), (0,1), (1,0)` of the unit square; its neighbor across the
diagonal (the edge opposite its first vertex) is triangle 0, its two other edges are on the
hull. -/
def squareFacet1 : GDALTriFacet :=
  { anVertexIdx := ![3, 2, 1], anNeighborIdx := ![0, -1, -1] }

/-- The Delaunay triangulation of the unit square in two triangles, before its coefficients
are computed. -/
def squareMesh : GDALTriangulation :=
  { pasFacets := [squareFacet0, squareFacet1], pasFacetCoefficients := none }

/-- The coefficients of triangle 0 of `squareMesh`: `L1 = 1 - x - y`, `L2 = x`. -/
def squareCoeffs0 : GDALTriBarycentricCoefficients :=
  { dfMul1X := -1, dfMul1Y := -1, dfMul2X := 1, dfMul2Y := 0, dfCstX := 0, dfCstY := 1 }

/-- The coefficients of triangle 1 of `squareMesh`: `L1 = x + y - 1`, `L2 = 1 - x`. -/
def squareCoeffs1 : GDALTriBarycentricCoefficients :=
  { dfMul1X := 1, dfMul1Y := 1, dfMul2X := -1, dfMul2Y := 0, dfCstX := 1, dfCstY := 0 }

/-- The coefficients of the two triangles of `squareMesh`. -/
def squareCoeffs : List GDALTriBarycentricCoefficients :=
  [squareCoeffs0, squareCoeffs1]

/-- The triangulation of the unit square with its coefficients. -/
def squareMeshComputed : GDALTriangulation :=
  { pasFacets := [squareFacet0, squareFacet1], pasFacetCoefficients := some squareCoeffs }

/-- Three collinear points `(0,0), (1,0), (2,0)` as one facet without neighbors. -/
def collinearMesh : GDALTriangulation :=
  { pasFacets := [{ anVertexIdx := ![0, 1, 2], anNeighborIdx := ![-1, -1, -1] }],
    pasFacetCoefficients := none }

/-- The x coordinates of the points of `collinearMesh`. -/
def collinearX : List ℚ := [0, 1, 2]

/-- The y coordinates of the points of `collinearMesh`. -/
def collinearY : List ℚ := [0, 0, 0]

/-- The coordinate `1/2 + 1e-11`: the point `(nearDiagonal, nearDiagonal)` is strictly inside
the upper right triangle of the unit square, at less than `EPS` from the diagonal. -/
def nearDiagonal : ℚ := 50000000001 / 100000000000

/-! ## Predicates on the answers of the locators -/

/-- The tolerance test of the locators: the three coordinates of the point with respect to the
triangle lie in `[-EPS, 1+EPS]`. -/
def InTolerance (psCoeffs : GDALTriBarycentricCoefficients) (dfX dfY : ℚ) : Prop :=
  -EPS ≤ BARYC_COORD_L1 psCoeffs dfX dfY ∧ BARYC_COORD_L1 psCoeffs dfX dfY ≤ 1 + EPS ∧
  -EPS ≤ BARYC_COORD_L2 psCoeffs dfX dfY ∧ BARYC_COORD_L2 psCoeffs dfX dfY ≤ 1 + EPS ∧
  -EPS ≤ BARYC_COORD_L3 (BARYC_COORD_L1 psCoeffs dfX dfY) (BARYC_COORD_L2 psCoeffs dfX dfY) ∧
  BARYC_COORD_L3 (BARYC_COORD_L1 psCoeffs dfX dfY) (BARYC_COORD_L2 psCoeffs dfX dfY) ≤ 1 + EPS

/-- What the scan of `GDALTriangulationFindFacetBruteForce` does at triangle `j`: `none` is a
read outside the arrays, `some none` is `continue`, `some (some b)` is `return b`. -/
def scanAt (pasFacets : List GDALTriFacet) (coeffs : List GDALTriBarycentricCoefficients)
    (dfX dfY : ℚ) (j : Nat) : Option (Option Bool) :=
  match coeffs[j]?, pasFacets[j]? with
  | some psCoeffs, some psFacet => some (bruteForceBody psCoeffs psFacet dfX dfY)
  | _, _ => none

/-- What the walk of `GDALTriangulationFindFacetDirected` does at triangle `i`: `none` is a
read outside the arrays. -/
def walkAt (pasFacets : List GDALTriFacet) (coeffs : List GDALTriBarycentricCoefficients)
    (dfX dfY : ℚ) (i : Int) : Option WalkStep :=
  match readAt coeffs i, readAt pasFacets i with
  | some psCoeffs, some psFacet => some (directedBody psCoeffs psFacet dfX dfY)
  | _, _ => none

/-- The point is strictly inside the triangle: its three barycentric coordinates are strictly
between 0 and 1. -/
def StrictlyInside (psCoeffs : GDALTriBarycentricCoefficients) (dfX dfY : ℚ) : Prop :=
  0 < BARYC_COORD_L1 psCoeffs dfX dfY ∧ BARYC_COORD_L1 psCoeffs dfX dfY < 1 ∧
  0 < BARYC_COORD_L2 psCoeffs dfX dfY ∧ BARYC_COORD_L2 psCoeffs dfX dfY < 1 ∧
  0 < BARYC_COORD_L3 (BARYC_COORD_L1 psCoeffs dfX dfY) (BARYC_COORD_L2 psCoeffs dfX dfY) ∧
  BARYC_COORD_L3 (BARYC_COORD_L1 psCoeffs dfX dfY) (BARYC_COORD_L2 psCoeffs dfX dfY) < 1

/-- The point is beyond a hull edge of the triangle, as the scan tests it: the first of
`L1, L2, L3` outside `[-EPS, 1+EPS]` is below `-EPS` and the triangle has no neighbor across
the corresponding edge. -/
def HullExit (psCoeffs : GDALTriBarycentricCoefficients) (psFacet : GDALTriFacet)
    (dfX dfY : ℚ) : Prop :=
  (BARYC_COORD_L1 psCoeffs dfX dfY < -EPS ∧ psFacet.anNeighborIdx 0 < 0) ∨
  (-EPS ≤ BARYC_COORD_L1 psCoeffs dfX dfY ∧ BARYC_COORD_L1 psCoeffs dfX dfY ≤ 1 + EPS ∧
    BARYC_COORD_L2 psCoeffs dfX dfY < -EPS ∧ psFacet.anNeighborIdx 1 < 0) ∨
  (-EPS ≤ BARYC_COORD_L1 psCoeffs dfX dfY ∧ BARYC_COORD_L1 psCoeffs dfX dfY ≤ 1 + EPS ∧
    -EPS ≤ BARYC_COORD_L2 psCoeffs dfX dfY ∧ BARYC_COORD_L2 psCoeffs dfX dfY ≤ 1 + EPS ∧
    BARYC_COORD_L3 (BARYC_COORD_L1 psCoeffs dfX dfY) (BARYC_COORD_L2 psCoeffs dfX dfY) < -EPS ∧
    psFacet.anNeighborIdx 2 < 0)

/-- The triangle stops the scan: it is not flagged degenerate and the point is within the
tolerance of it or beyond one of its hull edges. -/
def Decisive (psCoeffs : GDALTriBarycentricCoefficients) (psFacet : GDALTriFacet)
    (dfX dfY : ℚ) : Prop :=
  ¬ isDegenerate psCoeffs ∧ (InTolerance psCoeffs dfX dfY ∨ HullExit psCoeffs psFacet dfX dfY)

/-- The point is beyond a hull edge of the triangle, as the walk tests it: the first of
`L1, L2, L3` below `-EPS` belongs to an edge across which the triangle has no neighbor (an
earlier coordinate may be above `1+EPS`). -/
def WalkHullExit (psCoeffs : GDALTriBarycentricCoefficients) (psFacet : GDALTriFacet)
    (dfX dfY : ℚ) : Prop :=
  (BARYC_COORD_L1 psCoeffs dfX dfY < -EPS ∧ psFacet.anNeighborIdx 0 < 0) ∨
  (-EPS ≤ BARYC_COORD_L1 psCoeffs dfX dfY ∧ BARYC_COORD_L2 psCoeffs dfX dfY < -EPS ∧
    psFacet.anNeighborIdx 1 < 0) ∨
  (-EPS ≤ BARYC_COORD_L1 psCoeffs dfX dfY ∧ -EPS ≤ BARYC_COORD_L2 psCoeffs dfX dfY ∧
    BARYC_COORD_L3 (BARYC_COORD_L1 psCoeffs dfX dfY) (BARYC_COORD_L2 psCoeffs dfX dfY) < -EPS ∧
    psFacet.anNeighborIdx 2 < 0)

/-- Every neighbor index of every triangle is below the number of triangles (a negative one
says that there is no neighbor). -/
def NeighborIndicesInRange (psDT : GDALTriangulation) : Prop :=
  ∀ psFacet ∈ psDT.pasFacets, ∀ k : Fin 3, psFacet.anNeighborIdx k < psDT.nFacets

/-- The triangle stops the walk: it is not flagged degenerate and the point is within the
tolerance of it or beyond one of its hull edges as the walk tests it. -/
def WalkDecisive (psCoeffs : GDALTriBarycentricCoefficients) (psFacet : GDALTriFacet)
    (dfX dfY : ℚ) : Prop :=
  ¬ isDegenerate psCoeffs ∧
    (InTolerance psCoeffs dfX dfY ∨ WalkHullExit psCoeffs psFacet dfX dfY)

instance (psCoeffs : GDALTriBarycentricCoefficients) (dfX dfY : ℚ) :
    Decidable (InTolerance psCoeffs dfX dfY) := by
  unfold InTolerance
  infer_instance

instance (psCoeffs : GDALTriBarycentricCoefficients) (dfX dfY : ℚ) :
    Decidable (StrictlyInside psCoeffs dfX dfY) := by
  unfold StrictlyInside
  infer_instance

instance (psCoeffs : GDALTriBarycentricCoefficients) (psFacet : GDALTriFacet) (dfX dfY : ℚ) :
    Decidable (HullExit psCoeffs psFacet dfX dfY) := by
  unfold HullExit
  infer_instance

instance (psCoeffs : GDALTriBarycentricCoefficients) (psFacet : GDALTriFacet) (dfX dfY : ℚ) :
    Decidable (WalkHullExit psCoeffs psFacet dfX dfY) := by
  unfold WalkHullExit
  infer_instance

instance (psCoeffs : GDALTriBarycentricCoefficients) (psFacet : GDALTriFacet) (dfX dfY : ℚ) :
    Decidable (Decisive psCoeffs psFacet dfX dfY) := by
  unfold Decisive
  infer_instance

instance (psCoeffs : GDALTriBarycentricCoefficients) (psFacet : GDALTriFacet) (dfX dfY : ℚ) :
    Decidable (WalkDecisive psCoeffs psFacet dfX dfY) := by
  unfold WalkDecisive
  infer_instance

instance (psDT : GDALTriangulation) (padfX padfY : List ℚ) :
    Decidable (VertexIndicesInRange psDT padfX padfY) := by
  unfold VertexIndicesInRange
  infer_instance

instance (psDT : GDALTriangulation) : Decidable (NeighborIndicesInRange psDT) := by
  unfold NeighborIndicesInRange
  infer_instance

/-! ## The returned `int` of the locators -/

/-- The C value of the status a function returns: the macros `TRUE` and `FALSE` of
`cpl_port.h`, a header that is not among the sources, are the C truth values 1 and 0. -/
def statusValue (b : Bool) : Int :=
  if b then 1 else 0

/-- The `int` that `GDALTriangulationFindFacetBruteForce` returns (lines 437, 457, 470, 483,
490, 492), without the value written through `panOutputFacetIdx`. -/
def bruteForceReturnValue (psDT : GDALTriangulation) (dfX dfY : ℚ) : Option Int :=
  match GDALTriangulationFindFacetBruteForce psDT dfX dfY with
  | none => none
  | some r => some (statusValue r.1)

/-! ## GDALTriangulationCreateDelaunay -/

/-- Modelled from the spec: the backend's facet type (`facetT` of `libqhull_r.h`) is not among
the sources. A facet of the backend has an identifier, a flag that says on which of the two
envelopes it lies, a vertex set and a neighbor set. The vertex set is given by the point
identifier `qh_pointid` of each of its entries `e[0], e[1], ...`, the neighbor set by the
identifier of each of its entries. -/
structure facetT where
  id : Nat
  upperdelaunay : Bool
  vertices : List Int
  neighbors : List Nat

/-- Modelled from the spec: the backend's state (`qhT` of `libqhull_r.h`) is not among the
sources. What `qh_new_qhull` leaves behind: the bound `facet_id` on the facet identifiers,
the envelope flag `UPPERdelaunay`, and the linked list of facets that starts at `facet_list`
and follows `next` up to the facet whose `next` is `NULL`. -/
structure qhT where
  facet_id : Nat
  facet_list : List facetT
  UPPERdelaunay : Bool

/-- The facets that the loops of lines 191-193 and 224-226 visit: the loop condition
`facet != NULL && facet->next != NULL` leaves out the last facet of the list. -/
def visitedFacets (qh : qhT) : List facetT :=
  qh.facet_list.dropLast

/-- The first loop (lines 191-210) from the facet list `facets` on, with the map
`panMapQHFacetIdToFacetIdx` and the counter `j`. The result `some none` is the `goto end` of
line 205 (the function returns `NULL`), `none` is a write outside the map (the assertion of
line 208 is violated). -/
def mapLoop (qh : qhT) : List facetT → List Int → Nat → Option (Option (List Int × Nat))
  | [], panMap, j => some (some (panMap, j))
  | facet :: rest, panMap, j =>
      if facet.upperdelaunay ≠ qh.UPPERdelaunay then mapLoop qh rest panMap j
      else if facet.vertices.length ≠ 3 ∨ facet.neighbors.length ≠ 3 then some none
      else if facet.id < panMap.length then
        mapLoop qh rest (panMap.set facet.id (j : Int)) (j + 1)
      else none

/-- The triangle stored for a facet (lines 232-243): its three vertices and the entries of the
map for its three neighbors; `none` is a read outside a set or outside the map. -/
def buildFacet (panMap : List Int) (facet : facetT) : Option GDALTriFacet :=
  match facet.vertices[0]?, facet.vertices[1]?, facet.vertices[2]?,
        facet.neighbors[0]?, facet.neighbors[1]?, facet.neighbors[2]? with
  | some v0, some v1, some v2, some n0, some n1, some n2 =>
      match panMap[n0]?, panMap[n1]?, panMap[n2]? with
      | some k0, some k1, some k2 =>
          some { anVertexIdx := ![v0, v1, v2], anNeighborIdx := ![k0, k1, k2] }
      | _, _, _ => none
  | _, _, _, _, _, _ => none

/-- The second loop (lines 224-244) from the facet list `facets` on; an entry `none` of
`pasFacets` is an entry of the allocated array that has not been written yet. -/
def facetLoop (qh : qhT) (panMap : List Int) :
    List facetT → List (Option GDALTriFacet) → Option (List (Option GDALTriFacet))
  | [], pasFacets => some pasFacets
  | facet :: rest, pasFacets =>
      if facet.upperdelaunay ≠ qh.UPPERdelaunay then facetLoop qh panMap rest pasFacets
      else
        match panMap[facet.id]?, buildFacet panMap facet with
        | some k, some psFacet =>
            if 0 ≤ k ∧ k < pasFacets.length then
              facetLoop qh panMap rest (pasFacets.set k.toNat (some psFacet))
            else none
        | _, _ => none

/-- The facet array once every entry has been written; `none` when an entry has not. -/
def writtenFacets : List (Option GDALTriFacet) → Option (List GDALTriFacet)
  | [] => some []
  | none :: _ => none
  | some psFacet :: rest =>
      match writtenFacets rest with
      | none => none
      | some pasFacets => some (psFacet :: pasFacets)

/-- The function of lines 115-264, built with the backend (`HAVE_INTERNAL_OR_EXTERNAL_QHULL`).
The backend is a black box: `ret` and `qh` are the status that `qh_new_qhull` returns for the
points and the state it leaves. `bPointsAllocated`, `bMapAllocated` and `bFacetsAllocated` say
whether `VSI_MALLOC2_VERBOSE` (a macro that is not among the sources) returned a buffer at
lines 135, 184 and 212. The result `some none` is the return of `NULL`, `some (some psDT)` the
return of a triangulation, `none` an access outside the map or a set, or a facet array of
which an entry was never written. The map starts as `facet_id` entries `-1` (the `memset` of
line 189 sets every byte to `0xFF`); the triangulation comes from `CPLCalloc`, so it has no
coefficients. -/
def GDALTriangulationCreateDelaunay (bPointsAllocated : Bool) (ret : Int) (qh : qhT)
    (bMapAllocated bFacetsAllocated : Bool) : Option (Option GDALTriangulation) :=
  if bPointsAllocated = false then some none
  else if ret ≠ 0 then some none
  else if bMapAllocated = false then some none
  else
    match mapLoop qh (visitedFacets qh) (List.replicate qh.facet_id (-1)) 0 with
    | none => none
    | some none => some none
    | some (some (panMap, j)) =>
        if bFacetsAllocated = false then some none
        else
          match facetLoop qh panMap (visitedFacets qh) (List.replicate j none) with
          | none => none
          | some pasFacets =>
              match writtenFacets pasFacets with
              | none => none
              | some facets => some (some { pasFacets := facets, pasFacetCoefficients := none })

/-- The retained facets: the visited facets that lie on the envelope the backend uses for the
triangulation, in the order of the list. -/
def retainedFacets (qh : qhT) : List facetT :=
  (visitedFacets qh).filter (fun facet => facet.upperdelaunay = qh.UPPERdelaunay)

/-- The dense index of a backend facet identifier: the position of the retained facet with
that identifier, `-1` when no retained facet has it. -/
def denseIndex (retained : List facetT) (id : Nat) : Int :=
  if id ∈ retained.map facetT.id then ((retained.map facetT.id).indexOf id : Int) else -1

/-- What the backend guarantees about the identifiers: those of the retained facets are below
`facet_id` and pairwise distinct, and those of the neighbors of the retained facets are below
`facet_id`. -/
def BackendIdsValid (qh : qhT) : Prop :=
  (∀ facet ∈ retainedFacets qh, facet.id < qh.facet_id) ∧
  ((retainedFacets qh).map facetT.id).Nodup ∧
  (∀ facet ∈ retainedFacets qh, ∀ n ∈ facet.neighbors, n < qh.facet_id)

/-- Every retained facet has exactly 3 vertices and exactly 3 neighbors. -/
def RetainedTriangular (qh : qhT) : Prop :=
  ∀ facet ∈ retainedFacets qh, facet.vertices.length = 3 ∧ facet.neighbors.length = 3

/-- A state of the backend for the unit square: the facets 1 and 3 are the two triangles of
`squareMesh`, the facet 2 lies on the other envelope and has four vertices, the facet 4 ends
the list. -/
def squareBackend : qhT :=
  { facet_id := 5
    UPPERdelaunay := false
    facet_list :=
      [ { id := 1, upperdelaunay := false, vertices := [0, 1, 2], neighbors := [3, 2, 2] },
        { id := 2, upperdelaunay := true, vertices := [3, 2, 1, 0], neighbors := [1, 3] },
        { id := 3, upperdelaunay := false, vertices := [3, 2, 1], neighbors := [1, 2, 2] },
        { id := 4, upperdelaunay := false, vertices := [], neighbors := [] } ] }

/-! ## The reference linear scan -/

/-- The three barycentric coordinates `L1, L2, L3` of a point with respect to a triangle, by
the number of the vertex. -/
def barycentric (psCoeffs : GDALTriBarycentricCoefficients) (dfX dfY : ℚ) : Fin 3 → ℚ :=
  ![BARYC_COORD_L1 psCoeffs dfX dfY, BARYC_COORD_L2 psCoeffs dfX dfY,
    BARYC_COORD_L3 (BARYC_COORD_L1 psCoeffs dfX dfY) (BARYC_COORD_L2 psCoeffs dfX dfY)]

/-- A coordinate is out of range when it is outside `[-EPS, 1+EPS]`. -/
def OutOfRange (l : ℚ) : Prop :=
  l < -EPS ∨ 1 + EPS < l

instance (l : ℚ) : Decidable (OutOfRange l) := by
  unfold OutOfRange
  infer_instance

/-- The first out-of-range coordinate, testing `L1, L2, L3` in that order. -/
def firstOutOfRange (psCoeffs : GDALTriBarycentricCoefficients) (dfX dfY : ℚ) :
    Option (Fin 3) :=
  ([0, 1, 2] : List (Fin 3)).find? (fun k => decide (OutOfRange (barycentric psCoeffs dfX dfY k)))

/-- The verdict of the reference scan on one triangle: `some true` when the triangle is
decisive as an inside case (not flagged degenerate, no coordinate out of range), `some false`
when it is decisive as a hull exit (not flagged degenerate, the first out-of-range coordinate
`Lk` is below `-EPS` and `neighbor[k]` is absent), `none` when it is not decisive. -/
def referenceVerdict (psCoeffs : GDALTriBarycentricCoefficients) (psFacet : GDALTriFacet)
    (dfX dfY : ℚ) : Option Bool :=
  if isDegenerate psCoeffs then none
  else
    match firstOutOfRange psCoeffs dfX dfY with
    | none => some true
    | some k =>
        if barycentric psCoeffs dfX dfY k < -EPS ∧ psFacet.anNeighborIdx k < 0 then some false
        else none

/-- The verdict of the reference scan on triangle `i` of a mesh. -/
def referenceVerdictAt (pasFacets : List GDALTriFacet)
    (coeffs : List GDALTriBarycentricCoefficients) (dfX dfY : ℚ) (i : Nat) : Option Bool :=
  match coeffs[i]?, pasFacets[i]? with
  | some psCoeffs, some psFacet => referenceVerdict psCoeffs psFacet dfX dfY
  | _, _ => none

/-- The reference linear scan: the lowest-index decisive triangle with `found = true` for an
inside case and `found = false` for a hull exit, and `(found = false, index -1)` when no
triangle is decisive. -/
def referenceScan (pasFacets : List GDALTriFacet)
    (coeffs : List GDALTriBarycentricCoefficients) (dfX dfY : ℚ) : Bool × Int :=
  match (List.range pasFacets.length).find?
      (fun i => (referenceVerdictAt pasFacets coeffs dfX dfY i).isSome) with
  | none => (false, -1)
  | some i =>
      match referenceVerdictAt pasFacets coeffs dfX dfY i with
      | some found => (found, (i : Int))
      | none => (false, -1)

/-- An empty triangulation with a computed, empty, coefficient array. -/
def emptyMeshComputed : GDALTriangulation :=
  { pasFacets := [], pasFacetCoefficients := some [] }

/-! ## The triangles that the walk inspects -/

/-- The values that `nFacetIdx` takes at the start of the iterations of the loop of lines
541-624 (the triangles whose facet and coefficients lines 545-547 address), in order, with `n`
iterations left and the current triangle `nFacetIdx`. -/
def directedVisits (pasFacets : List GDALTriFacet)
    (coeffs : List GDALTriBarycentricCoefficients) (dfX dfY : ℚ) : Nat → Int → List Int
  | 0, _ => []
  | n + 1, nFacetIdx =>
      nFacetIdx ::
        match readAt coeffs nFacetIdx, readAt pasFacets nFacetIdx with
        | some psCoeffs, some psFacet =>
            match directedBody psCoeffs psFacet dfX dfY with
            | WalkStep.move neighbor => directedVisits pasFacets coeffs dfX dfY n neighbor
            | _ => []
        | _, _ => []

/-- Two copies of the lower left triangle of the unit square, each one the neighbor of the
other across its first edge: a mesh with inconsistent links, on which a walk without a cap
would go back and forth for ever for a point beyond that edge. -/
def cyclicMeshComputed : GDALTriangulation :=
  { pasFacets := [squareFacet0, { anVertexIdx := ![0, 1, 2], anNeighborIdx := ![0, -1, -1] }],
    pasFacetCoefficients := some [squareCoeffs0, squareCoeffs0] }

/-- The unit square with the upper right triangle first, listed as `(1,0), (1,1), (0,1)`: its
first edge is the top edge of the square, on the hull; its second edge is the diagonal. -/
def cornerMeshComputed : GDALTriangulation :=
  { pasFacets :=
      [ { anVertexIdx := ![1, 3, 2], anNeighborIdx := ![-1, 1, -1] },
        { anVertexIdx := ![0, 1, 2], anNeighborIdx := ![0, -1, -1] } ]
    pasFacetCoefficients :=
      some [ { dfMul1X := 0, dfMul1Y := -1, dfMul2X := 1, dfMul2Y := 1, dfCstX := 0, dfCstY := 1 },
             squareCoeffs0 ] }

/-- The triangulation `cornerMeshComputed` before its coefficients are computed. -/
def cornerMesh : GDALTriangulation :=
  { pasFacets :=
      [ { anVertexIdx := ![1, 3, 2], anNeighborIdx := ![-1, 1, -1] },
        { anVertexIdx := ![0, 1, 2], anNeighborIdx := ![0, -1, -1] } ]
    pasFacetCoefficients := none }

/-- The lower left triangle of the unit square with a neighbor across its first edge (the
diagonal) and another one across its second edge (the left edge). -/
def fanFacet : GDALTriFacet :=
  { anVertexIdx := ![0, 1, 2], anNeighborIdx := ![1, 2, -1] }

/-! ## The line string check of the DB2 geometry validator (`ogrdb2geometryvalidator.cpp`) -/

/-- A point of the geometry library, with its three coordinates; a C `double` is a rational
number, so `==` is exact equality. The point class is declared outside the embedded
sources. -/
structure OGRPoint where
  x : ℚ
  y : ℚ
  z : ℚ
  deriving DecidableEq

/-- A line string: the list of its vertices, `getNumPoints()` being the length and `getPoint(i)`
the entry `i`. -/
abbrev OGRLineString := List OGRPoint

/-- The geometries that the member `poValidGeometry` of the validator holds in this check. -/
inductive ValidGeometry where
  | point (p : OGRPoint)
  | lineString (pts : OGRLineString)
  deriving DecidableEq

/-- The loop of lines 86-101 of `ValidateLineString`, on the vertices not yet visited and the
current `poPoint0` (`none` is `NULL`). The first vertex visited is copied into `poPoint0`
(lines 88-93); a later vertex with the same `x` and `y` is skipped (lines 95-97); the first
one that differs sets `bResult = TRUE` and leaves the loop (lines 99-100). The result is
`bResult` with `poPoint0` after the loop. -/
def validateLineStringLoop : List OGRPoint → Option OGRPoint → Bool × Option OGRPoint
  | [], poPoint0 => (false, poPoint0)
  | pt :: rest, none => validateLineStringLoop rest (some pt)
  | pt :: rest, some poPoint0 =>
      if poPoint0.x = pt.x ∧ poPoint0.y = pt.y then
        validateLineStringLoop rest (some poPoint0)
      else (true, some poPoint0)

/-- `OGRDB2GeometryValidator::ValidateLineString` (lines 80-133), as the returned `bResult`
with the member `poValidGeometry` after the call. When `bResult` is false the old
`poValidGeometry` is deleted and replaced by `poPoint0`, if there is one, and by `NULL`
otherwise (lines 103-127); when it is true the member is left as it was. -/
def ValidateLineString (poValidGeometry : Option ValidGeometry) (poGeom : OGRLineString) :
    Bool × Option ValidGeometry :=
  match validateLineStringLoop poGeom none with
  | (false, some poPoint0) => (false, some (ValidGeometry.point poPoint0))
  | (false, none) => (false, none)
  | (true, _) => (true, poValidGeometry)

/-! ## Argument validation of `LayerFields::reorder` (`layer_fields.cpp`) -/

/-- A value of the scripting engine as `reorder` looks at it: a number (`IsNumber()` holds),
with its finite value, or anything else. -/
inductive JSValue where
  | number (v : ℚ)
  | other
  deriving DecidableEq

/-- The conversion `Nan::To<int64_t>` of a number: the value truncated towards zero, kept within
the range of `int64_t`. The conversion belongs to the engine, outside the embedded sources. -/
def toInt64 (v : ℚ) : Int :=
  max (-(2 : Int) ^ 63) (min ((2 : Int) ^ 63 - 1) (v.num.tdiv v.den))

/-- The conversion of an integer to the 32-bit C `int`, which keeps the low 32 bits in two's
complement. -/
def toInt (v : Int) : Int :=
  (v + 2 ^ 31) % 2 ^ 32 - 2 ^ 31

/-- What a call of `reorder` does: it throws before `ReorderFields` is called, with the given
message; or the macro `NODE_ARG_ARRAY` rejects the argument and throws (the macro is defined
outside the embedded sources, so its message is not modelled); or `ReorderFields` is called
with `field_map_array`, and `err` is what it returns (line 380), an error being thrown
afterwards when `err` is not zero (lines 384-387). -/
inductive ReorderOutcome where
  | threw (message : String)
  | argRejected
  | called (field_map_array : List Int) (err : Int)
  deriving DecidableEq

/-- The loop of lines 362-378 on the elements not yet visited, `acc` being the part of
`field_map_array` already written. An element that is not a number throws (lines 364-368);
otherwise `key` is the element converted to `int64_t` and then stored in an `int` (line 370),
and it throws when `key < 0 || key >= n` (lines 371-375). -/
def reorderLoop (n : Int) : List JSValue → List Int → Except String (List Int)
  | [], acc => Except.ok acc
  | JSValue.other :: _, _ => Except.error "Array must only contain integers"
  | JSValue.number v :: rest, acc =>
      let key := toInt (toInt64 v)
      if key < 0 ∨ key ≥ n then Except.error "Values must be between 0 and field count - 1"
      else reorderLoop n rest (acc ++ [key])

/-- `LayerFields::reorder` (lines 333-389). `isAlive` is `layer->isAlive()`, `hasDefn` tells
whether `GetLayerDefn()` is not null, `arg0` is the first argument when it is an array (`none`
when `NODE_ARG_ARRAY` rejects it), `n` is `def->GetFieldCount()` and `ReorderFields` is the
method of the layer, as the error code it returns for an array. The loop visits the elements
`0 .. n - 1` of the array, whose length is `n` once line 355 is passed. -/
def reorder (isAlive hasDefn : Bool) (arg0 : Option (List JSValue)) (n : Int)
    (ReorderFields : List Int → Int) : ReorderOutcome :=
  if !isAlive then ReorderOutcome.threw "Layer object already destroyed"
  else if !hasDefn then ReorderOutcome.threw "Layer has no layer definition set"
  else
    match arg0 with
    | none => ReorderOutcome.argRejected
    | some field_map =>
        if toInt (field_map.length : Int) ≠ n then
          ReorderOutcome.threw "Array length must match field count"
        else
          match reorderLoop n (field_map.take n.toNat) [] with
          | Except.error message => ReorderOutcome.threw message
          | Except.ok field_map_array =>
              ReorderOutcome.called field_map_array (ReorderFields field_map_array)

/-! ## Splitting of a VFK record (`vfkfeature.cpp`)

A C string is the list of its characters, read up to the first `NUL` character or to the end
of the list; a pointer into the string is the position it points at. -/

/-- The terminating character of a C string. -/
def NUL : Char := Char.ofNat 0

/-- The double quote character. -/
def QUOTE : Char := Char.ofNat 34

/-- The character `*(s + p)` of a C string: the terminator is read at the end of the list. -/
def charAt (s : List Char) (p : Nat) : Char := s.getD p NUL

/-- The loop of line 379 of `SetProperties`: the position of the first character of the line
that is the terminator or `;`. -/
def skipName : List Char → Nat
  | [] => 0
  | c :: cs => if c = NUL ∨ c = ';' then 0 else skipName cs + 1

/-- The number of double quotes that a string starts with. -/
def countQuotes : List Char → Nat
  | [] => 0
  | c :: cs => if c = QUOTE then countQuotes cs + 1 else 0

/-- The loop of lines 390-414, which copies the line into `osLine` and drops extra quotes, at
the position `poChar`. At a quote, `nQuotes` is the length of the run of quotes that starts
there and the pointer is moved behind the run (lines 393-395); it is then moved back by one
when `nQuotes` is odd (line 399), by two for an empty value (lines 402-407), and the loop is
left at the end of the line (line 409); line 413 appends the character under the pointer.
The first argument bounds the number of iterations, `none` being the bound reached. -/
def stripLoop (s : List Char) : Nat → Nat → List Char → Option (List Char)
  | 0, _, _ => none
  | fuel + 1, poChar, osLine =>
      if charAt s poChar = NUL then some osLine
      else if charAt s poChar = QUOTE then
        let nQuotes := 1 + countQuotes (s.drop (poChar + 1))
        let p := poChar + nQuotes
        if nQuotes % 2 ≠ 0 then
          stripLoop s fuel p (osLine ++ [charAt s (p - 1)])
        else if (charAt s p = ';' ∨ charAt s p = NUL) ∧ charAt s (p - nQuotes - 1) = ';' then
          stripLoop s fuel (p - 1) (osLine ++ [charAt s (p - 2)])
        else if charAt s p = NUL then some osLine
        else stripLoop s fuel (p + 1) (osLine ++ [charAt s p])
      else stripLoop s fuel (poChar + 1) (osLine ++ [charAt s poChar])

/-- The variables of the loop of lines 425-477 that reads the properties. -/
structure ParseState where
  poChar : Nat
  poProp : Nat
  nLength : Nat
  nQuotes : Nat
  inString : Bool
  oPropList : List (List Char)
  deriving DecidableEq

/-- The string pushed to `oPropList` at lines 457-462 and 482-486: `nLength` characters copied
by `strncpy` from the position `poProp`, as a C string. -/
def copyProp (o : List Char) (poProp nLength : Nat) : List Char :=
  ((o.drop poProp).take nLength).takeWhile fun c => c ≠ NUL

/-- Lines 427-454 of the loop: the start or the end of a quoted string. The result tells
whether the loop is left by the `break` of line 452. -/
def parseQuote (o : List Char) (st : ParseState) : Bool × ParseState :=
  if (st.inString = false ∧ charAt o st.poChar = QUOTE) ∨
      (st.inString = true ∧ charAt o st.poChar = QUOTE ∧ st.nQuotes = 1 ∧
        (charAt o (st.poChar + 1) = ';' ∨ charAt o (st.poChar + 1) = NUL)) then
    let poChar := st.poChar + 1
    let st1 : ParseState :=
      if (!st.inString) = true then
        if charAt o poChar = QUOTE ∧
            (charAt o (poChar + 1) = ';' ∨ charAt o (poChar + 1) = NUL) then
          { st with poChar := poChar + 1, inString := false, nQuotes := 1, poProp := poChar }
        else
          let k := countQuotes (o.drop poChar)
          { st with poChar := poChar + k, inString := true, nQuotes := 1 + k,
                    nLength := st.nLength + k, poProp := poChar }
      else { st with poChar := poChar, inString := false }
    (decide (charAt o st1.poChar = NUL), st1)
  else (false, st)

/-- Lines 455-476 of the loop: at a `;` outside a string the property read so far is pushed
and the next one starts behind the `;`; any other character is added to the property. -/
def parseChar (o : List Char) (st : ParseState) : ParseState :=
  if charAt o st.poChar = ';' ∧ st.inString = false then
    { st with oPropList := st.oPropList ++ [copyProp o st.poProp st.nLength],
              poProp := st.poChar + 1, poChar := st.poChar + 1, nLength := 0, nQuotes := 0 }
  else
    { st with nQuotes := if charAt o st.poChar = QUOTE ∧ st.nQuotes > 1 then st.nQuotes - 1
                         else st.nQuotes,
              poChar := st.poChar + 1, nLength := st.nLength + 1 }

/-- The loop of lines 425-477 on the string `o` (the stripped line). The first argument bounds
the number of iterations, `none` being the bound reached. -/
def parseLoop (o : List Char) : Nat → ParseState → Option ParseState
  | 0, _ => none
  | fuel + 1, st =>
      if charAt o st.poChar = NUL then some st
      else
        match parseQuote o st with
        | (true, st1) => some st1
        | (false, st1) => parseLoop o fuel (parseChar o st1)

/-- Lines 378-486 of `VFKFeature::SetProperties`: the list `oPropList` of the property values
read from the line. The inner `none` is the `return false` of line 383, for a line in which
no `;` follows the data block name. Each iteration of the two loops moves its pointer forward
in a string that it does not leave, so the bounds given to them are not reached. -/
def SetPropertiesParse (pszLine : List Char) : Option (Option (List (List Char))) :=
  let poChar := skipName pszLine
  if charAt pszLine poChar = NUL then some none
  else
    match stripLoop pszLine (pszLine.length + 1) (poChar + 1) [] with
    | none => none
    | some osLine =>
        match parseLoop osLine (osLine.length + 1)
            { poChar := 0, poProp := 0, nLength := 0, nQuotes := 0, inString := false,
              oPropList := [] } with
        | none => none
        | some st =>
            let nLength := if st.inString = true ∧ st.nLength > 0 then st.nLength - 1
              else st.nLength
            some (some (st.oPropList ++ [copyProp osLine st.poProp nLength]))

/-- `VFKFeature::SetProperties` (lines 376-525) for a data block with `nPropertyCount`
properties: the returned value with the calls `SetProperty(iIndex, value)` made at line 502,
in order. The count, an `int`, is compared as a `size_t` with the size of the list
(line 489), so a negative count equals no size. -/
def SetProperties (pszLine : List Char) (nPropertyCount : Int) :
    Option (Bool × List (Nat × List Char)) :=
  match SetPropertiesParse pszLine with
  | none => none
  | some none => some (false, [])
  | some (some oPropList) =>
      if (oPropList.length : Int) ≠ nPropertyCount then some (false, [])
      else some (true, oPropList.enum)

/-! ## The Geomedia blob decoder (`ogrgeomediageometry.cpp`)

The buffer is the list of its bytes and a pointer into it is an offset; reading a byte outside
the list gives no result. Beside the geometry, the decoder returns the list of what it did to
the buffer: the offsets it read and the slices it called itself on. -/

/-- A byte of the blob. -/
abbrev GByte := Fin 256

def GEOMEDIA_POINT : Int := 0xC0
def GEOMEDIA_ORIENTED_POINT : Int := 0xC8
def GEOMEDIA_POLYLINE : Int := 0xC2
def GEOMEDIA_POLYGON : Int := 0xC3
def GEOMEDIA_BOUNDARY : Int := 0xC5
def GEOMEDIA_COLLECTION : Int := 0xC6
def GEOMEDIA_MULTILINE : Int := 0xCB
def GEOMEDIA_MULTIPOLYGON : Int := 0xCC

/-- The largest C `int`. -/
def INT_MAX : Int := 2147483647

/-- Three coordinates as they are copied from the blob: each `double` is kept as the 64-bit
pattern of its eight bytes, least significant byte first, no arithmetic being done on it. -/
structure RawPoint where
  x : Nat
  y : Nat
  z : Nat
  deriving DecidableEq

/-- The geometries that the decoder builds. The geometry classes are declared outside the
embedded sources; a polygon is the list of its rings, the exterior ring first. -/
inductive OGRGeometry where
  | point (p : RawPoint)
  | lineString (pts : List RawPoint)
  | polygon (rings : List (List RawPoint))
  | multiLineString (parts : List OGRGeometry)
  | multiPolygon (parts : List OGRGeometry)
  | geometryCollection (parts : List OGRGeometry)

/-- What the decoder does to the buffer: it reads the byte at an offset, or it calls itself on
the slice of `nBytes` bytes that starts at an offset. -/
inductive Event where
  | read (offset : Int)
  | call (offset nBytes : Int)
  deriving DecidableEq

/-- The result of a call: the events of the call, those of the calls nested in it included,
and the geometry left in `*ppoGeom`. The geometry is null (`none`) exactly when the call
returns `OGRERR_FAILURE`: line 52 sets it to null and it is assigned only right before a
`return OGRERR_NONE`. -/
structure Decoded where
  trace : List Event
  poGeom : Option OGRGeometry

/-- The reads of `n` consecutive bytes from the offset `off`. -/
def readEvents (off : Int) (n : Nat) : List Event :=
  (List.range n).map fun i : Nat => Event.read (off + (i : Int))

/-- The value of `n` bytes copied from the offset `off`, least significant byte first
(`memcpy` followed by `CPL_LSBPTR32` or `CPL_LSBPTR64`). -/
def readLE (buf : List GByte) (off : Int) : Nat → Option Nat
  | 0 => some 0
  | n + 1 =>
      match readAt buf off, readLE buf (off + 1) n with
      | some b, some v => some (b.val + 256 * v)
      | _, _ => none

/-- A C `int` copied from four bytes of the blob. -/
def readInt32 (buf : List GByte) (off : Int) : Option Int :=
  (readLE buf off 4).map fun u => if u < 2 ^ 31 then (u : Int) else (u : Int) - 2 ^ 32

/-- The three `double`s of a point, at the offsets `off`, `off + 8` and `off + 16`. -/
def readPoint (buf : List GByte) (off : Int) : Option RawPoint :=
  match readLE buf off 8, readLE buf (off + 8) 8, readLE buf (off + 16) 8 with
  | some x, some y, some z => some { x := x, y := y, z := z }
  | _, _, _ => none

/-- The loops of lines 101-116 and 139-152: `nPoints` points of 24 bytes each, the pointer
moving on by 24 after each. -/
def readPoints (buf : List GByte) : Nat → Int → Option (List RawPoint)
  | 0, _ => some []
  | n + 1, pabyGeom =>
      match readPoint buf pabyGeom, readPoints buf n (pabyGeom + 24) with
      | some pt, some pts => some (pt :: pts)
      | _, _ => none

/-- The test `pabyGeom[1] == 0xFF && pabyGeom[2] == 0xD2 && pabyGeom[3] == 0x0F` of lines 57
and 293, with the bytes it reads: a byte is read only when the bytes before it match. -/
def checkSignature (buf : List GByte) (pabyGeom : Int) : Option (Bool × List Event) :=
  match readAt buf (pabyGeom + 1) with
  | none => none
  | some b1 =>
      if b1 ≠ 0xFF then some (false, [Event.read (pabyGeom + 1)])
      else
        match readAt buf (pabyGeom + 2) with
        | none => none
        | some b2 =>
            if b2 ≠ 0xD2 then
              some (false, [Event.read (pabyGeom + 1), Event.read (pabyGeom + 2)])
            else
              match readAt buf (pabyGeom + 3) with
              | none => none
              | some b3 =>
                  some (decide (b3 = 0x0F),
                    [Event.read (pabyGeom + 1), Event.read (pabyGeom + 2),
                     Event.read (pabyGeom + 3)])

/-- Lines 86-116 of the polyline branch, which lines 124-152 of the polygon branch repeat: the
point count, its check against the bytes left, and the points. The second component is `none`
for a `return OGRERR_FAILURE`. -/
def decodePointList (buf : List GByte) (pabyGeom nBytes : Int) :
    Option (List Event × Option (List RawPoint)) :=
  if nBytes < 4 then some ([], none)
  else
    match readInt32 buf pabyGeom with
    | none => none
    | some nPoints =>
        if nPoints < 0 ∨ nPoints > INT_MAX / 24 ∨ nBytes - 4 < nPoints * 24 then
          some (readEvents pabyGeom 4, none)
        else
          match readPoints buf nPoints.toNat (pabyGeom + 4) with
          | none => none
          | some pts =>
              some (readEvents pabyGeom 4 ++ readEvents (pabyGeom + 4) (24 * nPoints.toNat),
                some pts)

/-- The exterior rings of the polygons of a list of geometries (line 227). -/
def exteriorRings : List OGRGeometry → List (List RawPoint)
  | [] => []
  | OGRGeometry.polygon rings :: rest => rings.head?.toList ++ exteriorRings rest
  | _ :: rest => exteriorRings rest

/-- Lines 160-241, the boundary branch, behind the 16 bytes of the header: `hdr` holds the
events of the header, `pabyGeom` and `nBytes` are the pointer and the count after lines 61-62,
and `decodeSub` is the decoder that the two recursive calls of lines 176 and 209 go to. -/
def decodeBoundary (decodeSub : Int → Int → Option Decoded) (buf : List GByte)
    (hdr : List Event) (pabyGeom nBytes : Int) : Option Decoded :=
  if nBytes < 4 then some { trace := hdr, poGeom := none }
  else
    match readInt32 buf pabyGeom with
    | none => none
    | some nExteriorSize =>
        let tr1 := hdr ++ readEvents pabyGeom 4
        if nBytes - 4 < nExteriorSize then some { trace := tr1, poGeom := none }
        else
          match decodeSub (pabyGeom + 4) nExteriorSize with
          | none => none
          | some poExterior =>
              let tr2 := tr1 ++ Event.call (pabyGeom + 4) nExteriorSize :: poExterior.trace
              match poExterior.poGeom with
              | some (OGRGeometry.polygon rings) =>
                  let pabyGeom2 := pabyGeom + 4 + nExteriorSize
                  let nBytes2 := nBytes - 4 - nExteriorSize
                  if nBytes2 < 4 then some { trace := tr2, poGeom := none }
                  else
                    match readInt32 buf pabyGeom2 with
                    | none => none
                    | some nInteriorSize =>
                        let tr3 := tr2 ++ readEvents pabyGeom2 4
                        if nBytes2 - 4 < nInteriorSize then
                          some { trace := tr3, poGeom := none }
                        else
                          match decodeSub (pabyGeom2 + 4) nInteriorSize with
                          | none => none
                          | some poInterior =>
                              let tr4 := tr3 ++
                                Event.call (pabyGeom2 + 4) nInteriorSize :: poInterior.trace
                              match poInterior.poGeom with
                              | some (OGRGeometry.polygon interior) =>
                                  some { trace := tr4,
                                         poGeom := some (OGRGeometry.polygon
                                           (rings ++ interior.head?.toList)) }
                              | some (OGRGeometry.multiPolygon parts) =>
                                  some { trace := tr4,
                                         poGeom := some (OGRGeometry.polygon
                                           (rings ++ exteriorRings parts)) }
                              | _ => some { trace := tr4, poGeom := none }
              | _ => some { trace := tr2, poGeom := none }

/-- The loop of lines 269-305, which looks at the header of each part of a collection, with
`k` parts left. The second component is `none` for a `return OGRERR_FAILURE` and holds
`bAllPolyline` and `bAllPolygon` otherwise. -/
def scanParts (buf : List GByte) :
    Nat → Int → Int → Bool → Bool → Option (List Event × Option (Bool × Bool))
  | 0, _, _, bAllPolyline, bAllPolygon => some ([], some (bAllPolyline, bAllPolygon))
  | k + 1, pabyGeom, nBytes, bAllPolyline, bAllPolygon =>
      if nBytes < 4 then some ([], none)
      else
        match readInt32 buf pabyGeom with
        | none => none
        | some nSubBytes =>
            if nSubBytes < 0 then some (readEvents pabyGeom 4, none)
            else if nBytes - 4 < nSubBytes then some (readEvents pabyGeom 4, none)
            else if nSubBytes < 16 then some (readEvents pabyGeom 4, none)
            else
              match checkSignature buf (pabyGeom + 4) with
              | none => none
              | some (false, ev) => some (readEvents pabyGeom 4 ++ ev, none)
              | some (true, ev) =>
                  match readAt buf (pabyGeom + 4) with
                  | none => none
                  | some t =>
                      let nSubGeomType : Int := t.val
                      match scanParts buf k (pabyGeom + 4 + nSubBytes)
                          (nBytes - 4 - nSubBytes)
                          (bAllPolyline && decide (nSubGeomType = GEOMEDIA_POLYLINE))
                          (bAllPolygon && decide (nSubGeomType = GEOMEDIA_POLYGON)) with
                      | none => none
                      | some (ev2, r) =>
                          some (readEvents pabyGeom 4 ++ ev ++ [Event.read (pabyGeom + 4)]
                            ++ ev2, r)

/-- Lines 351-365: a decoded part is added to the collection of type `nGeomType`. In a
multipolygon a line string is first turned into a polygon with that ring. A multi line string
takes only line strings and a multipolygon only polygons, a part that `addGeometryDirectly`
refuses being deleted. -/
def addPart (nGeomType : Int) (parts : List OGRGeometry) (poSubGeom : OGRGeometry) :
    List OGRGeometry :=
  if nGeomType = GEOMEDIA_MULTILINE then
    match poSubGeom with
    | OGRGeometry.lineString _ => parts ++ [poSubGeom]
    | _ => parts
  else if nGeomType = GEOMEDIA_MULTIPOLYGON then
    match poSubGeom with
    | OGRGeometry.lineString pts => parts ++ [OGRGeometry.polygon [pts]]
    | OGRGeometry.polygon _ => parts ++ [poSubGeom]
    | _ => parts
  else parts ++ [poSubGeom]

/-- The loop of lines 321-370, which decodes the parts of a collection, with `k` parts left;
`parts` holds the parts added so far. A part that fails to decode is skipped (line 348). The
second component is `none` for a `return OGRERR_FAILURE`. -/
def partsLoop (decodeSub : Int → Int → Option Decoded) (buf : List GByte) (nGeomType : Int) :
    Nat → Int → Int → List OGRGeometry → Option (List Event × Option (List OGRGeometry))
  | 0, _, _, parts => some ([], some parts)
  | k + 1, pabyGeom, nBytes, parts =>
      if nBytes < 4 then some ([], none)
      else
        match readInt32 buf pabyGeom with
        | none => none
        | some nSubBytes =>
            if nSubBytes < 0 then some (readEvents pabyGeom 4, none)
            else if nBytes - 4 < nSubBytes then some (readEvents pabyGeom 4, none)
            else
              match decodeSub (pabyGeom + 4) nSubBytes with
              | none => none
              | some poSub =>
                  let parts1 :=
                    match poSub.poGeom with
                    | some poSubGeom => addPart nGeomType parts poSubGeom
                    | none => parts
                  match partsLoop decodeSub buf nGeomType k (pabyGeom + 4 + nSubBytes)
                      (nBytes - 4 - nSubBytes) parts1 with
                  | none => none
                  | some (ev, r) =>
                      some (readEvents pabyGeom 4 ++
                        Event.call (pabyGeom + 4) nSubBytes :: poSub.trace ++ ev, r)

/-- Lines 242-375, the branch of the collections, behind the 16 bytes of the header. -/
def decodeCollection (decodeSub : Int → Int → Option Decoded) (buf : List GByte)
    (nGeomType : Int) (hdr : List Event) (pabyGeom nBytes : Int) : Option Decoded :=
  if nBytes < 4 then some { trace := hdr, poGeom := none }
  else
    match readInt32 buf pabyGeom with
    | none => none
    | some nParts =>
        let tr1 := hdr ++ readEvents pabyGeom 4
        if nParts < 0 ∨ nParts > INT_MAX / (4 + 16) ∨ nBytes - 4 < nParts * (4 + 16) then
          some { trace := tr1, poGeom := none }
        else
          let scanned : Option (List Event × Option Int) :=
            if nGeomType = GEOMEDIA_COLLECTION then
              match scanParts buf nParts.toNat (pabyGeom + 4) (nBytes - 4) true true with
              | none => none
              | some (ev, none) => some (ev, none)
              | some (ev, some (bAllPolyline, bAllPolygon)) =>
                  some (ev, some (if bAllPolyline = true then GEOMEDIA_MULTILINE
                    else if bAllPolygon = true then GEOMEDIA_MULTIPOLYGON else nGeomType))
            else some ([], some nGeomType)
          match scanned with
          | none => none
          | some (ev, none) => some { trace := tr1 ++ ev, poGeom := none }
          | some (ev, some nGeomType1) =>
              match partsLoop decodeSub buf nGeomType1 nParts.toNat (pabyGeom + 4)
                  (nBytes - 4) [] with
              | none => none
              | some (ev2, none) => some { trace := tr1 ++ ev ++ ev2, poGeom := none }
              | some (ev2, some parts) =>
                  some { trace := tr1 ++ ev ++ ev2,
                         poGeom := some
                           (if nGeomType1 = GEOMEDIA_MULTILINE then
                              OGRGeometry.multiLineString parts
                            else if nGeomType1 = GEOMEDIA_MULTIPOLYGON then
                              OGRGeometry.multiPolygon parts
                            else OGRGeometry.geometryCollection parts) }

/-- The body of `OGRCreateFromGeomedia` (lines 52-381) on the `nBytes` bytes at the offset
`pabyGeom`, its recursive calls going to `decodeSub`. -/
def decodeBody (decodeSub : Int → Int → Option Decoded) (buf : List GByte)
    (pabyGeom nBytes : Int) : Option Decoded :=
  if nBytes < 16 then some { trace := [], poGeom := none }
  else
    match checkSignature buf pabyGeom with
    | none => none
    | some (false, ev) => some { trace := ev, poGeom := none }
    | some (true, ev) =>
        match readAt buf pabyGeom with
        | none => none
        | some t =>
            let nGeomType : Int := t.val
            let hdr := ev ++ [Event.read pabyGeom]
            if nGeomType = GEOMEDIA_POINT ∨ nGeomType = GEOMEDIA_ORIENTED_POINT then
              if nBytes - 16 < 3 * 8 then some { trace := hdr, poGeom := none }
              else
                match readPoint buf (pabyGeom + 16) with
                | none => none
                | some pt =>
                    some { trace := hdr ++ readEvents (pabyGeom + 16) 24,
                           poGeom := some (OGRGeometry.point pt) }
            else if nGeomType = GEOMEDIA_POLYLINE then
              match decodePointList buf (pabyGeom + 16) (nBytes - 16) with
              | none => none
              | some (ev2, none) => some { trace := hdr ++ ev2, poGeom := none }
              | some (ev2, some pts) =>
                  some { trace := hdr ++ ev2, poGeom := some (OGRGeometry.lineString pts) }
            else if nGeomType = GEOMEDIA_POLYGON then
              match decodePointList buf (pabyGeom + 16) (nBytes - 16) with
              | none => none
              | some (ev2, none) => some { trace := hdr ++ ev2, poGeom := none }
              | some (ev2, some pts) =>
                  some { trace := hdr ++ ev2, poGeom := some (OGRGeometry.polygon [pts]) }
            else if nGeomType = GEOMEDIA_BOUNDARY then
              decodeBoundary decodeSub buf hdr (pabyGeom + 16) (nBytes - 16)
            else if nGeomType = GEOMEDIA_COLLECTION ∨ nGeomType = GEOMEDIA_MULTILINE ∨
                nGeomType = GEOMEDIA_MULTIPOLYGON then
              decodeCollection decodeSub buf nGeomType hdr (pabyGeom + 16) (nBytes - 16)
            else some { trace := hdr, poGeom := none }

/-- The decoder with a bound on the depth of its recursive calls: `none` is the bound reached,
or a read outside the buffer. -/
def decodeDepth (buf : List GByte) : Nat → Int → Int → Option Decoded
  | 0, _, _ => none
  | depth + 1, pabyGeom, nBytes => decodeBody (decodeDepth buf depth) buf pabyGeom nBytes

/-- `OGRCreateFromGeomedia` (lines 47-382) on the `nBytes` bytes at the offset `pabyGeom` of
the buffer. Each recursive call is on fewer bytes than its caller has, so the depth of the
calls is at most `nBytes`. -/
def OGRCreateFromGeomedia (buf : List GByte) (pabyGeom nBytes : Int) : Option Decoded :=
  decodeDepth buf (nBytes.toNat + 1) pabyGeom nBytes

/-- An event stays inside the slice `[lo, hi)`: a read is at an offset of the slice, and a
recursive call is on a slice that starts at or after `lo`, ends at or before `hi` and has
fewer than `size` bytes. -/
def EventOK (lo hi size : Int) : Event → Prop
  | Event.read offset => lo ≤ offset ∧ offset < hi
  | Event.call offset nBytes => lo ≤ offset ∧ offset + nBytes ≤ hi ∧ nBytes < size

/-- A decoder returns on the slice of `nBytes` bytes at `pabyGeom`, every event of the call
stays inside the slice, each recursive call being on fewer than `nBytes` bytes, and the
geometry is null when `nBytes < 16`. -/
def DecodesSafely (f : Int → Int → Option Decoded) (pabyGeom nBytes : Int) : Prop :=
  ∃ d, f pabyGeom nBytes = some d ∧
    (∀ e ∈ d.trace, EventOK pabyGeom (pabyGeom + nBytes) nBytes e) ∧
    (nBytes < 16 → d.poGeom = none)

/-- A polygon blob with no point: the header of type `0xC3` and the point count 0. -/
def emptyPolygonBlob : List GByte :=
  [0xC3, 0xFF, 0xD2, 0x0F] ++ List.replicate 12 0 ++ [0, 0, 0, 0]

/-- A boundary blob of 64 bytes: the header of type `0xC5`, then the size 20 and the polygon
blob of the exterior, then the size 20 and the polygon blob of the interior. -/
def boundaryBlob : List GByte :=
  [0xC5, 0xFF, 0xD2, 0x0F] ++ List.replicate 12 0 ++ [20, 0, 0, 0] ++ emptyPolygonBlob ++
    [20, 0, 0, 0] ++ emptyPolygonBlob

/-- The slices of the recursive calls in a list of events, in order. -/
def callsOf : List Event → List (Int × Int)
  | [] => []
  | Event.call offset nBytes :: rest => (offset, nBytes) :: callsOf rest
  | Event.read _ :: rest => callsOf rest

/-! ## The evaluation in double arithmetic

The three macros with every operation rounded as the C code rounds it: a `double` is a rational
number that the format holds (IEEE 754 binary64, a significand of 53 bits), and the result of
an operation is the value of the format nearest to the exact result, the one with an even
significand at a tie. Each operation is rounded on its own (no fused multiplication and
addition); overflow to an infinity is not modelled. -/

/-- The integer nearest to a rational number, the even one of the two at a tie. -/
def roundHalfEven (q : ℚ) : Int :=
  if q - ⌊q⌋ < 1 / 2 then ⌊q⌋
  else if 1 / 2 < q - ⌊q⌋ then ⌊q⌋ + 1
  else if ⌊q⌋ % 2 = 0 then ⌊q⌋ else ⌊q⌋ + 1

/-- The exponent of the spacing of the doubles around `q`: 52 below the binary exponent of
`q`, and `-1074` for the subnormal numbers. -/
def ulpExponent (q : ℚ) : Int :=
  max (Int.log 2 |q| - 52) (-1074)

/-- The double nearest to `q`. -/
def roundDouble (q : ℚ) : ℚ :=
  (roundHalfEven (q / 2 ^ ulpExponent q) : ℚ) * 2 ^ ulpExponent q

/-- The macro `BARYC_COORD_L1` (lines 357-358) on doubles: two subtractions, two products and
a sum, each rounded. -/
def BARYC_COORD_L1_double (psCoeffs : GDALTriBarycentricCoefficients) (dfX dfY : ℚ) : ℚ :=
  roundDouble
    (roundDouble (psCoeffs.dfMul1X * roundDouble (dfX - psCoeffs.dfCstX)) +
      roundDouble (psCoeffs.dfMul1Y * roundDouble (dfY - psCoeffs.dfCstY)))

/-- The macro `BARYC_COORD_L2` (lines 359-360) on doubles. -/
def BARYC_COORD_L2_double (psCoeffs : GDALTriBarycentricCoefficients) (dfX dfY : ℚ) : ℚ :=
  roundDouble
    (roundDouble (psCoeffs.dfMul2X * roundDouble (dfX - psCoeffs.dfCstX)) +
      roundDouble (psCoeffs.dfMul2Y * roundDouble (dfY - psCoeffs.dfCstY)))

/-- The macro `BARYC_COORD_L3` (line 361) on doubles: `1 - (l1) - (l2)` is two subtractions,
from the left, each rounded. -/
def BARYC_COORD_L3_double (l1 l2 : ℚ) : ℚ :=
  roundDouble (roundDouble (1 - l1) - l2)

/-- The function of lines 378-400 on doubles: as `GDALTriangulationComputeBarycentricCoordinates`
with the three macros evaluated in double arithmetic. The coefficients and the point are
doubles. -/
def GDALTriangulationComputeBarycentricCoordinatesDouble (psDT : GDALTriangulation)
    (nFacetIdx : Int) (dfX dfY : ℚ) : Option (Bool × Option (ℚ × ℚ × ℚ)) :=
  match psDT.pasFacetCoefficients with
  | none => some (false, none)
  | some coeffs =>
      if 0 ≤ nFacetIdx ∧ nFacetIdx < psDT.nFacets then
        match readAt coeffs nFacetIdx with
        | none => none
        | some psCoeffs =>
            let l1 := BARYC_COORD_L1_double psCoeffs dfX dfY
            let l2 := BARYC_COORD_L2_double psCoeffs dfX dfY
            some (true, some (l1, l2, BARYC_COORD_L3_double l1 l2))
      else none

/-- The double nearest to `0.31`. -/
def double031 : ℚ := 5584463537939415 / 18014398509481984

/-- The double nearest to `0.59`. -/
def double059 : ℚ := 5314247560297185 / 9007199254740992

/-! ## Reads -/

theorem readAt_natCast {α : Type} (xs : List α) (n : Nat) : readAt xs (n : Int) = xs[n]? := by
  simp [readAt]

theorem readAt_eq_some {α : Type} {xs : List α} {i : Int} {a : α} (h : readAt xs i = some a) :
    0 ≤ i ∧ i < xs.length ∧ xs[i.toNat]? = some a := by
  unfold readAt at h
  split at h
  · rename_i h0
    refine ⟨h0, ?_, h⟩
    have hlt : i.toNat < xs.length := (List.getElem?_eq_some.1 h).1
    omega
  · cases h

theorem readAt_isSome {α : Type} (xs : List α) {i : Int} (h0 : 0 ≤ i) (h1 : i < xs.length) :
    ∃ a, readAt xs i = some a := by
  have hlt : i.toNat < xs.length := by omega
  exact ⟨xs[i.toNat], by simp [readAt, h0, List.getElem?_eq_getElem hlt]⟩

/-! ## The coefficient loop -/

theorem computeCoefficients_of_le {x1 y1 x2 y2 x3 y3 : ℚ}
    (h : 1 / 100000 ≤ |denom x1 y1 x2 y2 x3 y3|) :
    computeCoefficients x1 y1 x2 y2 x3 y3 =
      { dfMul1X := (y2 - y3) / denom x1 y1 x2 y2 x3 y3
        dfMul1Y := (x3 - x2) / denom x1 y1 x2 y2 x3 y3
        dfMul2X := (y3 - y1) / denom x1 y1 x2 y2 x3 y3
        dfMul2Y := (x1 - x3) / denom x1 y1 x2 y2 x3 y3
        dfCstX := x3
        dfCstY := y3 } := by
  unfold denom at h
  dsimp only [computeCoefficients, denom]
  rw [if_neg (not_lt.2 h)]

theorem computeCoefficients_of_lt {x1 y1 x2 y2 x3 y3 : ℚ}
    (h : |denom x1 y1 x2 y2 x3 y3| < 1 / 100000) :
    computeCoefficients x1 y1 x2 y2 x3 y3 =
      { dfMul1X := 0, dfMul1Y := 0, dfMul2X := 0, dfMul2Y := 0, dfCstX := 0, dfCstY := 0 } := by
  unfold denom at h
  dsimp only [computeCoefficients]
  rw [if_pos h]

theorem computeFacetCoefficients_eq_some {padfX padfY : List ℚ} {psFacet : GDALTriFacet}
    {psCoeffs : GDALTriBarycentricCoefficients}
    (h : computeFacetCoefficients padfX padfY psFacet = some psCoeffs) :
    ∃ dfX1 dfY1 dfX2 dfY2 dfX3 dfY3,
      readAt padfX (psFacet.anVertexIdx 0) = some dfX1 ∧
      readAt padfY (psFacet.anVertexIdx 0) = some dfY1 ∧
      readAt padfX (psFacet.anVertexIdx 1) = some dfX2 ∧
      readAt padfY (psFacet.anVertexIdx 1) = some dfY2 ∧
      readAt padfX (psFacet.anVertexIdx 2) = some dfX3 ∧
      readAt padfY (psFacet.anVertexIdx 2) = some dfY3 ∧
      psCoeffs = computeCoefficients dfX1 dfY1 dfX2 dfY2 dfX3 dfY3 := by
  unfold computeFacetCoefficients at h
  split at h
  · rename_i x1 y1 x2 y2 x3 y3 h1 h2 h3 h4 h5 h6
    exact ⟨x1, y1, x2, y2, x3, y3, h1, h2, h3, h4, h5, h6, (Option.some.inj h).symm⟩
  · cases h

theorem computeFacetCoefficients_isSome {padfX padfY : List ℚ} {psFacet : GDALTriFacet}
    (h : ∀ k : Fin 3, 0 ≤ psFacet.anVertexIdx k ∧ psFacet.anVertexIdx k < padfX.length ∧
      psFacet.anVertexIdx k < padfY.length) :
    ∃ psCoeffs, computeFacetCoefficients padfX padfY psFacet = some psCoeffs := by
  obtain ⟨x1, hx1⟩ := readAt_isSome padfX (h 0).1 (h 0).2.1
  obtain ⟨y1, hy1⟩ := readAt_isSome padfY (h 0).1 (h 0).2.2
  obtain ⟨x2, hx2⟩ := readAt_isSome padfX (h 1).1 (h 1).2.1
  obtain ⟨y2, hy2⟩ := readAt_isSome padfY (h 1).1 (h 1).2.2
  obtain ⟨x3, hx3⟩ := readAt_isSome padfX (h 2).1 (h 2).2.1
  obtain ⟨y3, hy3⟩ := readAt_isSome padfY (h 2).1 (h 2).2.2
  exact ⟨computeCoefficients x1 y1 x2 y2 x3 y3,
    by simp [computeFacetCoefficients, hx1, hy1, hx2, hy2, hx3, hy3]⟩

theorem computeCoefficientsLoop_isSome (padfX padfY : List ℚ) :
    ∀ pasFacets : List GDALTriFacet,
      (∀ psFacet ∈ pasFacets, ∀ k : Fin 3, 0 ≤ psFacet.anVertexIdx k ∧
        psFacet.anVertexIdx k < padfX.length ∧ psFacet.anVertexIdx k < padfY.length) →
      ∃ coeffs, computeCoefficientsLoop padfX padfY pasFacets = some coeffs
  | [], _ => ⟨[], rfl⟩
  | psFacet :: rest, h => by
      obtain ⟨c, hc⟩ := computeFacetCoefficients_isSome (h psFacet (List.mem_cons_self _ _))
      obtain ⟨cs, hcs⟩ := computeCoefficientsLoop_isSome padfX padfY rest
        (fun f hf => h f (List.mem_cons_of_mem _ hf))
      exact ⟨c :: cs, by simp [computeCoefficientsLoop, hc, hcs]⟩

theorem computeCoefficientsLoop_length (padfX padfY : List ℚ) :
    ∀ (pasFacets : List GDALTriFacet) (coeffs : List GDALTriBarycentricCoefficients),
      computeCoefficientsLoop padfX padfY pasFacets = some coeffs →
      coeffs.length = pasFacets.length
  | [], coeffs, h => by
      simp [computeCoefficientsLoop] at h
      subst h
      rfl
  | psFacet :: rest, coeffs, h => by
      unfold computeCoefficientsLoop at h
      split at h
      · cases h
      · split at h
        · cases h
        · rename_i cs hcs
          cases h
          simp [computeCoefficientsLoop_length padfX padfY rest cs hcs]

theorem computeCoefficientsLoop_getElem (padfX padfY : List ℚ) :
    ∀ (pasFacets : List GDALTriFacet) (coeffs : List GDALTriBarycentricCoefficients),
      computeCoefficientsLoop padfX padfY pasFacets = some coeffs →
      ∀ (i : Nat) (psFacet : GDALTriFacet), pasFacets[i]? = some psFacet →
        ∃ psCoeffs, computeFacetCoefficients padfX padfY psFacet = some psCoeffs ∧
          coeffs[i]? = some psCoeffs
  | [], _, _, i, psFacet, hi => by simp at hi
  | f :: rest, coeffs, h, i, psFacet, hi => by
      unfold computeCoefficientsLoop at h
      split at h
      · cases h
      · rename_i c hc
        split at h
        · cases h
        · rename_i cs hcs
          cases h
          cases i with
          | zero =>
              simp at hi
              subst hi
              exact ⟨c, hc, by simp⟩
          | succ j =>
              simp at hi
              obtain ⟨c2, h1, h2⟩ :=
                computeCoefficientsLoop_getElem padfX padfY rest cs hcs j psFacet hi
              exact ⟨c2, h1, by simpa using h2⟩

/-- The call on a triangulation without coefficients, when the coefficient array could be
allocated and the vertex indices are those of points: the status is `TRUE`, one coefficient
record is stored per triangle, and the record of a triangle is the one computed from its three
vertices. -/
theorem compute_spec (psDT : GDALTriangulation) (padfX padfY : List ℚ)
    (hNone : psDT.pasFacetCoefficients = none)
    (hIdx : VertexIndicesInRange psDT padfX padfY) :
    ∃ coeffs,
      GDALTriangulationComputeBarycentricCoefficients true psDT padfX padfY
        = some (true, { psDT with pasFacetCoefficients := some coeffs }) ∧
      coeffs.length = psDT.pasFacets.length ∧
      ∀ (i : Nat) (psFacet : GDALTriFacet), psDT.pasFacets[i]? = some psFacet →
        ∃ psCoeffs, computeFacetCoefficients padfX padfY psFacet = some psCoeffs ∧
          coeffs[i]? = some psCoeffs := by
  obtain ⟨coeffs, hc⟩ := computeCoefficientsLoop_isSome padfX padfY psDT.pasFacets hIdx
  refine ⟨coeffs, ?_, computeCoefficientsLoop_length _ _ _ _ hc,
    computeCoefficientsLoop_getElem _ _ _ _ hc⟩
  simp [GDALTriangulationComputeBarycentricCoefficients, hNone, hc]

theorem squareMesh_indices : VertexIndicesInRange squareMesh squareX squareY := by
  unfold VertexIndicesInRange squareMesh squareX squareY squareFacet0 squareFacet1
  decide

theorem squareMesh_compute :
    GDALTriangulationComputeBarycentricCoefficients true squareMesh squareX squareY
      = some (true, squareMeshComputed) := by
  simp [GDALTriangulationComputeBarycentricCoefficients, squareMesh, computeCoefficientsLoop,
    computeFacetCoefficients, squareFacet0, squareFacet1, readAt, squareX, squareY,
    computeCoefficients, squareMeshComputed, squareCoeffs, squareCoeffs0, squareCoeffs1]
  norm_num

/-! ## Claims on GDALTriangulationComputeBarycentricCoefficients -/

/-- C1: on a triangulation that has no coefficients yet (the coefficient array being
allocated, the vertex indices being indices of points), the call succeeds, the coefficient
sequence has one entry per triangle, and for every triangle `i` whose stored vertices
`P1, P2, P3` give `|denom| >= 1e-5` the entry `i` is exactly
`mul1x = (y2-y3)/denom, mul1y = (x3-x2)/denom, mul2x = (y3-y1)/denom, mul2y = (x1-x3)/denom,
cstX = x3, cstY = y3`. -/
theorem C1_coefficients_nondegenerate (psDT : GDALTriangulation) (padfX padfY : List ℚ)
    (hNone : psDT.pasFacetCoefficients = none)
    (hIdx : VertexIndicesInRange psDT padfX padfY) :
    ∃ coeffs,
      GDALTriangulationComputeBarycentricCoefficients true psDT padfX padfY
        = some (true, { psDT with pasFacetCoefficients := some coeffs }) ∧
      (coeffs.length : Int) = psDT.nFacets ∧
      ∀ (i : Nat) (psFacet : GDALTriFacet) (x1 y1 x2 y2 x3 y3 : ℚ),
        psDT.pasFacets[i]? = some psFacet →
        readAt padfX (psFacet.anVertexIdx 0) = some x1 →
        readAt padfY (psFacet.anVertexIdx 0) = some y1 →
        readAt padfX (psFacet.anVertexIdx 1) = some x2 →
        readAt padfY (psFacet.anVertexIdx 1) = some y2 →
        readAt padfX (psFacet.anVertexIdx 2) = some x3 →
        readAt padfY (psFacet.anVertexIdx 2) = some y3 →
        1 / 100000 ≤ |denom x1 y1 x2 y2 x3 y3| →
        coeffs[i]? = some
          { dfMul1X := (y2 - y3) / denom x1 y1 x2 y2 x3 y3
            dfMul1Y := (x3 - x2) / denom x1 y1 x2 y2 x3 y3
            dfMul2X := (y3 - y1) / denom x1 y1 x2 y2 x3 y3
            dfMul2Y := (x1 - x3) / denom x1 y1 x2 y2 x3 y3
            dfCstX := x3
            dfCstY := y3 } := by
  obtain ⟨coeffs, hRun, hLen, hGet⟩ := compute_spec psDT padfX padfY hNone hIdx
  refine ⟨coeffs, hRun, by simp [GDALTriangulation.nFacets, hLen], ?_⟩
  intro i psFacet x1 y1 x2 y2 x3 y3 hF h1 h2 h3 h4 h5 h6 hDen
  obtain ⟨c, hc, hci⟩ := hGet i psFacet hF
  obtain ⟨a1, b1, a2, b2, a3, b3, g1, g2, g3, g4, g5, g6, hEq⟩ :=
    computeFacetCoefficients_eq_some hc
  rw [h1] at g1; rw [h2] at g2; rw [h3] at g3; rw [h4] at g4; rw [h5] at g5; rw [h6] at g6
  cases g1; cases g2; cases g3; cases g4; cases g5; cases g6
  rw [hci, hEq, computeCoefficients_of_le hDen]

/-- C1, on the unit square: both triangles have `|denom| = 1`. -/
theorem C1_coefficients_nondegenerate_witness :
    ∃ coeffs,
      GDALTriangulationComputeBarycentricCoefficients true squareMesh squareX squareY
        = some (true, { squareMesh with pasFacetCoefficients := some coeffs }) ∧
      (coeffs.length : Int) = squareMesh.nFacets ∧
      ∀ (i : Nat) (psFacet : GDALTriFacet) (x1 y1 x2 y2 x3 y3 : ℚ),
        squareMesh.pasFacets[i]? = some psFacet →
        readAt squareX (psFacet.anVertexIdx 0) = some x1 →
        readAt squareY (psFacet.anVertexIdx 0) = some y1 →
        readAt squareX (psFacet.anVertexIdx 1) = some x2 →
        readAt squareY (psFacet.anVertexIdx 1) = some y2 →
        readAt squareX (psFacet.anVertexIdx 2) = some x3 →
        readAt squareY (psFacet.anVertexIdx 2) = some y3 →
        1 / 100000 ≤ |denom x1 y1 x2 y2 x3 y3| →
        coeffs[i]? = some
          { dfMul1X := (y2 - y3) / denom x1 y1 x2 y2 x3 y3
            dfMul1Y := (x3 - x2) / denom x1 y1 x2 y2 x3 y3
            dfMul2X := (y3 - y1) / denom x1 y1 x2 y2 x3 y3
            dfMul2Y := (x1 - x3) / denom x1 y1 x2 y2 x3 y3
            dfCstX := x3
            dfCstY := y3 } :=
  C1_coefficients_nondegenerate squareMesh squareX squareY rfl squareMesh_indices

/-- C2: on a triangulation that has no coefficients yet (the coefficient array being
allocated, the vertex indices being indices of points), the call succeeds and for every
triangle `i` whose stored vertices give `|denom| < 1e-5` the entry `i` is the zero sentinel:
all six coefficients are 0. -/
theorem C2_coefficients_degenerate (psDT : GDALTriangulation) (padfX padfY : List ℚ)
    (hNone : psDT.pasFacetCoefficients = none)
    (hIdx : VertexIndicesInRange psDT padfX padfY) :
    ∃ coeffs,
      GDALTriangulationComputeBarycentricCoefficients true psDT padfX padfY
        = some (true, { psDT with pasFacetCoefficients := some coeffs }) ∧
      ∀ (i : Nat) (psFacet : GDALTriFacet) (x1 y1 x2 y2 x3 y3 : ℚ),
        psDT.pasFacets[i]? = some psFacet →
        readAt padfX (psFacet.anVertexIdx 0) = some x1 →
        readAt padfY (psFacet.anVertexIdx 0) = some y1 →
        readAt padfX (psFacet.anVertexIdx 1) = some x2 →
        readAt padfY (psFacet.anVertexIdx 1) = some y2 →
        readAt padfX (psFacet.anVertexIdx 2) = some x3 →
        readAt padfY (psFacet.anVertexIdx 2) = some y3 →
        |denom x1 y1 x2 y2 x3 y3| < 1 / 100000 →
        coeffs[i]? = some
          { dfMul1X := 0, dfMul1Y := 0, dfMul2X := 0, dfMul2Y := 0, dfCstX := 0, dfCstY := 0 } := by
  obtain ⟨coeffs, hRun, _, hGet⟩ := compute_spec psDT padfX padfY hNone hIdx
  refine ⟨coeffs, hRun, ?_⟩
  intro i psFacet x1 y1 x2 y2 x3 y3 hF h1 h2 h3 h4 h5 h6 hDen
  obtain ⟨c, hc, hci⟩ := hGet i psFacet hF
  obtain ⟨a1, b1, a2, b2, a3, b3, g1, g2, g3, g4, g5, g6, hEq⟩ :=
    computeFacetCoefficients_eq_some hc
  rw [h1] at g1; rw [h2] at g2; rw [h3] at g3; rw [h4] at g4; rw [h5] at g5; rw [h6] at g6
  cases g1; cases g2; cases g3; cases g4; cases g5; cases g6
  rw [hci, hEq, computeCoefficients_of_lt hDen]

/-- C2, on three collinear points: the call succeeds and the only triangle, whose `denom` is
0, gets the zero sentinel. -/
theorem C2_coefficients_degenerate_witness :
    ∃ coeffs,
      GDALTriangulationComputeBarycentricCoefficients true collinearMesh collinearX collinearY
        = some (true, { collinearMesh with pasFacetCoefficients := some coeffs }) ∧
      coeffs[0]? = some
        { dfMul1X := 0, dfMul1Y := 0, dfMul2X := 0, dfMul2Y := 0, dfCstX := 0, dfCstY := 0 } := by
  obtain ⟨coeffs, hRun, hAll⟩ :=
    C2_coefficients_degenerate collinearMesh collinearX collinearY rfl
      (by unfold VertexIndicesInRange collinearMesh collinearX collinearY; decide)
  refine ⟨coeffs, hRun, ?_⟩
  exact hAll 0 _ 0 0 1 0 2 0 rfl rfl rfl rfl rfl rfl rfl (by norm_num [denom])

/-! ## Claims on GDALTriangulationComputeBarycentricCoordinates -/

theorem coordinates_eq (psDT : GDALTriangulation)
    (coeffs : List GDALTriBarycentricCoefficients)
    (hC : psDT.pasFacetCoefficients = some coeffs) (i : Nat) (hi : i < psDT.pasFacets.length)
    (psCoeffs : GDALTriBarycentricCoefficients) (hc : coeffs[i]? = some psCoeffs)
    (dfX dfY : ℚ) :
    GDALTriangulationComputeBarycentricCoordinates psDT (i : Int) dfX dfY
      = some (true, some (BARYC_COORD_L1 psCoeffs dfX dfY, BARYC_COORD_L2 psCoeffs dfX dfY,
          BARYC_COORD_L3 (BARYC_COORD_L1 psCoeffs dfX dfY) (BARYC_COORD_L2 psCoeffs dfX dfY))) := by
  have hi2 : (i : Int) < psDT.nFacets := by
    unfold GDALTriangulation.nFacets
    exact_mod_cast hi
  simp [GDALTriangulationComputeBarycentricCoordinates, hC, hi2, readAt_natCast, hc]

/-- C3: after the coefficients are computed, the coordinates `(L1, L2, L3)` returned for a
triangle with `|denom| >= 1e-5` and vertices `P1, P2, P3` express every query point as the
weighted combination of the vertices, `x = L1*x1 + L2*x2 + L3*x3` and
`y = L1*y1 + L2*y2 + L3*y3`, and the coordinates of `P1, P2, P3` themselves are `(1,0,0)`,
`(0,1,0)`, `(0,0,1)`. -/
theorem C3_weighted_combination (psDT : GDALTriangulation) (padfX padfY : List ℚ)
    (hNone : psDT.pasFacetCoefficients = none)
    (hIdx : VertexIndicesInRange psDT padfX padfY)
    (i : Nat) (psFacet : GDALTriFacet) (x1 y1 x2 y2 x3 y3 : ℚ)
    (hF : psDT.pasFacets[i]? = some psFacet)
    (h1 : readAt padfX (psFacet.anVertexIdx 0) = some x1)
    (h2 : readAt padfY (psFacet.anVertexIdx 0) = some y1)
    (h3 : readAt padfX (psFacet.anVertexIdx 1) = some x2)
    (h4 : readAt padfY (psFacet.anVertexIdx 1) = some y2)
    (h5 : readAt padfX (psFacet.anVertexIdx 2) = some x3)
    (h6 : readAt padfY (psFacet.anVertexIdx 2) = some y3)
    (hDen : 1 / 100000 ≤ |denom x1 y1 x2 y2 x3 y3|) :
    ∃ psDT2,
      GDALTriangulationComputeBarycentricCoefficients true psDT padfX padfY
        = some (true, psDT2) ∧
      (∀ x y : ℚ, ∃ L1 L2 L3 : ℚ,
        GDALTriangulationComputeBarycentricCoordinates psDT2 (i : Int) x y
          = some (true, some (L1, L2, L3)) ∧
        x = L1 * x1 + L2 * x2 + L3 * x3 ∧ y = L1 * y1 + L2 * y2 + L3 * y3) ∧
      GDALTriangulationComputeBarycentricCoordinates psDT2 (i : Int) x1 y1
        = some (true, some (1, 0, 0)) ∧
      GDALTriangulationComputeBarycentricCoordinates psDT2 (i : Int) x2 y2
        = some (true, some (0, 1, 0)) ∧
      GDALTriangulationComputeBarycentricCoordinates psDT2 (i : Int) x3 y3
        = some (true, some (0, 0, 1)) := by
  obtain ⟨coeffs, hRun, _, hGet⟩ := compute_spec psDT padfX padfY hNone hIdx
  obtain ⟨c, hc, hci⟩ := hGet i psFacet hF
  obtain ⟨a1, b1, a2, b2, a3, b3, g1, g2, g3, g4, g5, g6, hEq⟩ :=
    computeFacetCoefficients_eq_some hc
  rw [h1] at g1; rw [h2] at g2; rw [h3] at g3; rw [h4] at g4; rw [h5] at g5; rw [h6] at g6
  cases g1; cases g2; cases g3; cases g4; cases g5; cases g6
  rw [computeCoefficients_of_le hDen] at hEq
  have hi : i < psDT.pasFacets.length := (List.getElem?_eq_some.1 hF).1
  have hd : denom x1 y1 x2 y2 x3 y3 ≠ 0 := by
    intro h0
    rw [h0] at hDen
    norm_num at hDen
  have hEval := coordinates_eq { psDT with pasFacetCoefficients := some coeffs } coeffs rfl i hi
    c hci
  refine ⟨_, hRun, ?_, ?_, ?_, ?_⟩
  · intro x y
    refine ⟨_, _, _, hEval x y, ?_, ?_⟩
    · subst hEq
      simp only [BARYC_COORD_L1, BARYC_COORD_L2, BARYC_COORD_L3]
      field_simp
      unfold denom
      ring
    · subst hEq
      simp only [BARYC_COORD_L1, BARYC_COORD_L2, BARYC_COORD_L3]
      field_simp
      unfold denom
      ring
  · rw [hEval x1 y1]
    subst hEq
    have e1 : (y2 - y3) / denom x1 y1 x2 y2 x3 y3 * (x1 - x3)
        + (x3 - x2) / denom x1 y1 x2 y2 x3 y3 * (y1 - y3) = 1 := by
      field_simp
      unfold denom
      ring
    have e2 : (y3 - y1) / denom x1 y1 x2 y2 x3 y3 * (x1 - x3)
        + (x1 - x3) / denom x1 y1 x2 y2 x3 y3 * (y1 - y3) = 0 := by
      field_simp
      ring
    simp [BARYC_COORD_L1, BARYC_COORD_L2, BARYC_COORD_L3, e1, e2]
  · rw [hEval x2 y2]
    subst hEq
    have e1 : (y2 - y3) / denom x1 y1 x2 y2 x3 y3 * (x2 - x3)
        + (x3 - x2) / denom x1 y1 x2 y2 x3 y3 * (y2 - y3) = 0 := by
      field_simp
      ring
    have e2 : (y3 - y1) / denom x1 y1 x2 y2 x3 y3 * (x2 - x3)
        + (x1 - x3) / denom x1 y1 x2 y2 x3 y3 * (y2 - y3) = 1 := by
      field_simp
      unfold denom
      ring
    simp [BARYC_COORD_L1, BARYC_COORD_L2, BARYC_COORD_L3, e1, e2]
  · rw [hEval x3 y3]
    subst hEq
    simp [BARYC_COORD_L1, BARYC_COORD_L2, BARYC_COORD_L3]

/-- C3, on the lower left triangle `(0,0), (1,0), (0,1)` of the unit square. -/
theorem C3_weighted_combination_witness :
    ∃ psDT2,
      GDALTriangulationComputeBarycentricCoefficients true squareMesh squareX squareY
        = some (true, psDT2) ∧
      (∀ x y : ℚ, ∃ L1 L2 L3 : ℚ,
        GDALTriangulationComputeBarycentricCoordinates psDT2 0 x y
          = some (true, some (L1, L2, L3)) ∧
        x = L1 * 0 + L2 * 1 + L3 * 0 ∧ y = L1 * 0 + L2 * 0 + L3 * 1) ∧
      GDALTriangulationComputeBarycentricCoordinates psDT2 0 0 0
        = some (true, some (1, 0, 0)) ∧
      GDALTriangulationComputeBarycentricCoordinates psDT2 0 1 0
        = some (true, some (0, 1, 0)) ∧
      GDALTriangulationComputeBarycentricCoordinates psDT2 0 0 1
        = some (true, some (0, 0, 1)) :=
  C3_weighted_combination squareMesh squareX squareY rfl squareMesh_indices 0 squareFacet0
    0 0 1 0 0 1 rfl rfl rfl rfl rfl rfl rfl (by norm_num [denom])

/-- C5: the call is idempotent. On a triangulation whose coefficients already exist, a further
call returns success and leaves the triangulation, hence every stored coefficient, unchanged,
whatever point arrays are passed (and whatever the allocator would answer); hence after a call
that succeeded, a second call returns success with the same coefficients as the first. -/
theorem C5_idempotent (psDT : GDALTriangulation) :
    (∀ coeffs, psDT.pasFacetCoefficients = some coeffs →
      ∀ (bAllocated : Bool) (padfX padfY : List ℚ),
        GDALTriangulationComputeBarycentricCoefficients bAllocated psDT padfX padfY
          = some (true, psDT)) ∧
    (∀ (bAllocated1 : Bool) (padfX1 padfY1 : List ℚ) (psDT1 : GDALTriangulation),
      GDALTriangulationComputeBarycentricCoefficients bAllocated1 psDT padfX1 padfY1
        = some (true, psDT1) →
      ∀ (bAllocated2 : Bool) (padfX2 padfY2 : List ℚ),
        GDALTriangulationComputeBarycentricCoefficients bAllocated2 psDT1 padfX2 padfY2
          = some (true, psDT1)) := by
  constructor
  · intro coeffs hC bAllocated padfX padfY
    simp [GDALTriangulationComputeBarycentricCoefficients, hC]
  · intro b1 X1 Y1 psDT1 hRun b2 X2 Y2
    unfold GDALTriangulationComputeBarycentricCoefficients at hRun
    split at hRun
    · rename_i c hc
      cases hRun
      simp [GDALTriangulationComputeBarycentricCoefficients, hc]
    · split at hRun
      · cases hRun
      · split at hRun
        · cases hRun
        · cases hRun
          simp [GDALTriangulationComputeBarycentricCoefficients]

/-- C5, on the unit square: the first call computes the coefficients, and a second call with
other (here empty) point arrays returns success and the same triangulation. -/
theorem C5_idempotent_witness :
    GDALTriangulationComputeBarycentricCoefficients true squareMesh squareX squareY
      = some (true, squareMeshComputed) ∧
    GDALTriangulationComputeBarycentricCoefficients false squareMeshComputed [] []
      = some (true, squareMeshComputed) :=
  ⟨squareMesh_compute,
    (C5_idempotent squareMesh).2 true squareX squareY squareMeshComputed squareMesh_compute
      false [] []⟩

/-! ## Claims on the precondition of the queries -/

/-- C6: on a triangulation whose coefficients have not been computed, the three queries fail
for every input: the evaluation returns `FALSE` and writes no coordinate, and the two locators
return `FALSE` with the output index `-1`. -/
theorem C6_precondition (psDT : GDALTriangulation)
    (hNone : psDT.pasFacetCoefficients = none) (nFacetIdx : Int) (dfX dfY : ℚ) :
    GDALTriangulationComputeBarycentricCoordinates psDT nFacetIdx dfX dfY
      = some (false, none) ∧
    GDALTriangulationFindFacetBruteForce psDT dfX dfY = some (false, -1) ∧
    GDALTriangulationFindFacetDirected psDT nFacetIdx dfX dfY = some (false, -1) := by
  simp [GDALTriangulationComputeBarycentricCoordinates, GDALTriangulationFindFacetBruteForce,
    GDALTriangulationFindFacetDirected, hNone]

/-- C6, on the unit square before its coefficients are computed, at the centre. -/
theorem C6_precondition_witness :
    GDALTriangulationComputeBarycentricCoordinates squareMesh 0 (1 / 2) (1 / 2)
      = some (false, none) ∧
    GDALTriangulationFindFacetBruteForce squareMesh (1 / 2) (1 / 2) = some (false, -1) ∧
    GDALTriangulationFindFacetDirected squareMesh 0 (1 / 2) (1 / 2) = some (false, -1) :=
  C6_precondition squareMesh rfl 0 (1 / 2) (1 / 2)

/-! ## The two locators -/

theorem bruteForceBody_eq_true_iff (psCoeffs : GDALTriBarycentricCoefficients)
    (psFacet : GDALTriFacet) (dfX dfY : ℚ) :
    bruteForceBody psCoeffs psFacet dfX dfY = some true ↔
      ¬ isDegenerate psCoeffs ∧ InTolerance psCoeffs dfX dfY := by
  unfold bruteForceBody InTolerance
  constructor
  · intro h
    dsimp only at h
    split_ifs at h <;> simp_all
  · rintro ⟨hd, h1, h2, h3, h4, h5, h6⟩
    dsimp only
    rw [if_neg hd, if_neg (not_lt.2 h1), if_neg (not_lt.2 h2), if_neg (not_lt.2 h3),
      if_neg (not_lt.2 h4), if_neg (not_lt.2 h5), if_neg (not_lt.2 h6)]

theorem directedBody_eq_ret_true_iff (psCoeffs : GDALTriBarycentricCoefficients)
    (psFacet : GDALTriFacet) (dfX dfY : ℚ) :
    directedBody psCoeffs psFacet dfX dfY = WalkStep.ret true ↔
      ¬ isDegenerate psCoeffs ∧ InTolerance psCoeffs dfX dfY := by
  unfold directedBody InTolerance
  constructor
  · intro h
    dsimp only at h
    split_ifs at h <;> simp_all
  · rintro ⟨hd, h1, h2, h3, h4, h5, h6⟩
    dsimp only
    rw [if_neg hd, if_neg (not_lt.2 h1), if_neg (not_lt.2 h2), if_neg (not_lt.2 h3),
      if_neg (not_lt.2 h4), if_neg (not_lt.2 h5), if_neg (not_lt.2 h6)]
    rfl

theorem scanAt_eq_some {pasFacets : List GDALTriFacet}
    {coeffs : List GDALTriBarycentricCoefficients} {dfX dfY : ℚ} {j : Nat} {r : Option Bool}
    (h : scanAt pasFacets coeffs dfX dfY j = some r) :
    ∃ psCoeffs psFacet, coeffs[j]? = some psCoeffs ∧ pasFacets[j]? = some psFacet ∧
      bruteForceBody psCoeffs psFacet dfX dfY = r := by
  unfold scanAt at h
  split at h
  · rename_i c f hc hf
    exact ⟨c, f, hc, hf, Option.some.inj h⟩
  · cases h

theorem walkAt_eq_some {pasFacets : List GDALTriFacet}
    {coeffs : List GDALTriBarycentricCoefficients} {dfX dfY : ℚ} {i : Int} {w : WalkStep}
    (h : walkAt pasFacets coeffs dfX dfY i = some w) :
    ∃ psCoeffs psFacet, readAt coeffs i = some psCoeffs ∧ readAt pasFacets i = some psFacet ∧
      directedBody psCoeffs psFacet dfX dfY = w := by
  unfold walkAt at h
  split at h
  · rename_i c f hc hf
    exact ⟨c, f, hc, hf, Option.some.inj h⟩
  · cases h

theorem bruteForceLoop_succ (pasFacets : List GDALTriFacet)
    (coeffs : List GDALTriBarycentricCoefficients) (dfX dfY : ℚ) (n nFacetIdx : Nat) :
    bruteForceLoop pasFacets coeffs dfX dfY (n + 1) nFacetIdx =
      match scanAt pasFacets coeffs dfX dfY nFacetIdx with
      | none => none
      | some (some b) => some (b, (nFacetIdx : Int))
      | some none => bruteForceLoop pasFacets coeffs dfX dfY n (nFacetIdx + 1) := by
  rw [bruteForceLoop]
  unfold scanAt
  cases hc : coeffs[nFacetIdx]? with
  | none => rfl
  | some c =>
      cases hf : pasFacets[nFacetIdx]? with
      | none => rfl
      | some f =>
          dsimp only
          cases bruteForceBody c f dfX dfY <;> rfl

theorem directedLoop_succ (pasFacets : List GDALTriFacet)
    (coeffs : List GDALTriBarycentricCoefficients) (dfX dfY : ℚ) (n : Nat) (nFacetIdx : Int) :
    directedLoop pasFacets coeffs dfX dfY (n + 1) nFacetIdx =
      match walkAt pasFacets coeffs dfX dfY nFacetIdx with
      | none => none
      | some WalkStep.brk => some none
      | some (WalkStep.ret b) => some (some (b, nFacetIdx))
      | some (WalkStep.move neighbor) => directedLoop pasFacets coeffs dfX dfY n neighbor := by
  rw [directedLoop]
  unfold walkAt
  cases hc : readAt coeffs nFacetIdx with
  | none => rfl
  | some c =>
      cases hf : readAt pasFacets nFacetIdx with
      | none => rfl
      | some f =>
          dsimp only
          cases directedBody c f dfX dfY <;> rfl

/-- The scan that skips every triangle ends with `FALSE` and the index `-1`. -/
theorem bruteForceLoop_skip (pasFacets : List GDALTriFacet)
    (coeffs : List GDALTriBarycentricCoefficients) (dfX dfY : ℚ) :
    ∀ (n nFacetIdx : Nat),
      (∀ j, nFacetIdx ≤ j → j < nFacetIdx + n →
        scanAt pasFacets coeffs dfX dfY j = some none) →
      bruteForceLoop pasFacets coeffs dfX dfY n nFacetIdx = some (false, -1)
  | 0, _, _ => rfl
  | n + 1, nFacetIdx, h => by
      rw [bruteForceLoop_succ, h nFacetIdx (le_refl _) (by omega)]
      exact bruteForceLoop_skip pasFacets coeffs dfX dfY n (nFacetIdx + 1)
        (fun j h1 h2 => h j (by omega) (by omega))

/-- The scan returns at the first triangle that it does not skip. -/
theorem bruteForceLoop_stop (pasFacets : List GDALTriFacet)
    (coeffs : List GDALTriBarycentricCoefficients) (dfX dfY : ℚ) (t : Nat) (b : Bool)
    (hStop : scanAt pasFacets coeffs dfX dfY t = some (some b)) :
    ∀ (n nFacetIdx : Nat), nFacetIdx ≤ t → t < nFacetIdx + n →
      (∀ j, nFacetIdx ≤ j → j < t → scanAt pasFacets coeffs dfX dfY j = some none) →
      bruteForceLoop pasFacets coeffs dfX dfY n nFacetIdx = some (b, (t : Int))
  | 0, nFacetIdx, h1, h2, _ => by omega
  | n + 1, nFacetIdx, h1, h2, h => by
      rw [bruteForceLoop_succ]
      rcases Nat.eq_or_lt_of_le h1 with heq | hlt
      · subst heq
        rw [hStop]
      · rw [h nFacetIdx (le_refl _) hlt]
        exact bruteForceLoop_stop pasFacets coeffs dfX dfY t b hStop n (nFacetIdx + 1)
          (by omega) (by omega) (fun j h3 h4 => h j (by omega) h4)

/-- What a result of the scan says: either every triangle was skipped and the result is
`FALSE` with the index `-1`, or the index is that of the first triangle that is not skipped
and the status is the one returned there. -/
theorem bruteForceLoop_inv (pasFacets : List GDALTriFacet)
    (coeffs : List GDALTriBarycentricCoefficients) (dfX dfY : ℚ) (b : Bool) (T : Int) :
    ∀ (n nFacetIdx : Nat),
      bruteForceLoop pasFacets coeffs dfX dfY n nFacetIdx = some (b, T) →
      (b = false ∧ T = -1 ∧ ∀ j, nFacetIdx ≤ j → j < nFacetIdx + n →
          scanAt pasFacets coeffs dfX dfY j = some none) ∨
      (∃ t : Nat, T = (t : Int) ∧ nFacetIdx ≤ t ∧ t < nFacetIdx + n ∧
          scanAt pasFacets coeffs dfX dfY t = some (some b) ∧
          ∀ j, nFacetIdx ≤ j → j < t → scanAt pasFacets coeffs dfX dfY j = some none)
  | 0, nFacetIdx, h => by
      simp [bruteForceLoop] at h
      exact Or.inl ⟨h.1, h.2.symm, fun j h1 h2 => by omega⟩
  | n + 1, nFacetIdx, h => by
      rw [bruteForceLoop_succ] at h
      cases hs : scanAt pasFacets coeffs dfX dfY nFacetIdx with
      | none => rw [hs] at h; cases h
      | some r =>
          cases r with
          | some b2 =>
              rw [hs] at h
              simp at h
              obtain ⟨rfl, rfl⟩ := h
              exact Or.inr ⟨nFacetIdx, rfl, le_refl _, by omega, hs, fun j h1 h2 => by omega⟩
          | none =>
              rw [hs] at h
              rcases bruteForceLoop_inv pasFacets coeffs dfX dfY b T n (nFacetIdx + 1) h with
                ⟨h1, h2, h3⟩ | ⟨t, h1, h2, h3, h4, h5⟩
              · refine Or.inl ⟨h1, h2, fun j g1 g2 => ?_⟩
                rcases Nat.eq_or_lt_of_le g1 with heq | hlt
                · subst heq; exact hs
                · exact h3 j (by omega) (by omega)
              · refine Or.inr ⟨t, h1, by omega, by omega, h4, fun j g1 g2 => ?_⟩
                rcases Nat.eq_or_lt_of_le g1 with heq | hlt
                · subst heq; exact hs
                · exact h5 j (by omega) g2

/-- A `return` from inside the walk happens at the triangle whose index is reported, and is the
`return` of the body of the loop there. -/
theorem directedLoop_ret (pasFacets : List GDALTriFacet)
    (coeffs : List GDALTriBarycentricCoefficients) (dfX dfY : ℚ) (b : Bool) (T : Int) :
    ∀ (n : Nat) (nFacetIdx : Int),
      directedLoop pasFacets coeffs dfX dfY n nFacetIdx = some (some (b, T)) →
      walkAt pasFacets coeffs dfX dfY T = some (WalkStep.ret b)
  | 0, _, h => by simp [directedLoop] at h
  | n + 1, nFacetIdx, h => by
      rw [directedLoop_succ] at h
      cases hw : walkAt pasFacets coeffs dfX dfY nFacetIdx with
      | none => rw [hw] at h; cases h
      | some w =>
          rw [hw] at h
          cases w with
          | brk => simp at h
          | ret b2 =>
              simp at h
              obtain ⟨rfl, rfl⟩ := h
              exact hw
          | move neighbor => exact directedLoop_ret pasFacets coeffs dfX dfY b T n neighbor h

/-- The result of the directed search is a `return` of the walk or the result of the scan. -/
theorem directed_cases (psDT : GDALTriangulation)
    (coeffs : List GDALTriBarycentricCoefficients)
    (hC : psDT.pasFacetCoefficients = some coeffs) (nFacetIdx : Int) (dfX dfY : ℚ)
    (r : Bool × Int)
    (h : GDALTriangulationFindFacetDirected psDT nFacetIdx dfX dfY = some r) :
    directedLoop psDT.pasFacets coeffs dfX dfY (2 + psDT.pasFacets.length / 4) nFacetIdx
        = some (some r) ∨
    (directedLoop psDT.pasFacets coeffs dfX dfY (2 + psDT.pasFacets.length / 4) nFacetIdx
        = some none ∧
      GDALTriangulationFindFacetBruteForce psDT dfX dfY = some r) := by
  unfold GDALTriangulationFindFacetDirected at h
  rw [hC] at h
  dsimp only at h
  split at h
  · cases h
  · rename_i r2 hr
    cases h
    exact Or.inl hr
  · rename_i hr
    exact Or.inr ⟨hr, h⟩

/-- A positive answer of the scan, read off the coefficients. -/
theorem bruteForce_true_sound (psDT : GDALTriangulation)
    (coeffs : List GDALTriBarycentricCoefficients)
    (hC : psDT.pasFacetCoefficients = some coeffs) (dfX dfY : ℚ) (T : Int)
    (h : GDALTriangulationFindFacetBruteForce psDT dfX dfY = some (true, T)) :
    0 ≤ T ∧ T < psDT.nFacets ∧
      ∃ psCoeffs, readAt coeffs T = some psCoeffs ∧ ¬ isDegenerate psCoeffs ∧
        InTolerance psCoeffs dfX dfY := by
  unfold GDALTriangulationFindFacetBruteForce at h
  rw [hC] at h
  rcases bruteForceLoop_inv _ _ _ _ _ _ _ _ h with ⟨h1, _, _⟩ | ⟨t, h1, _, h3, h4, _⟩
  · cases h1
  · obtain ⟨c, f, hc, _, hb⟩ := scanAt_eq_some h4
    subst h1
    refine ⟨by omega, ?_, c, by rw [readAt_natCast]; exact hc,
      (bruteForceBody_eq_true_iff c f dfX dfY).1 hb⟩
    unfold GDALTriangulation.nFacets
    omega

/-- A positive answer of the walk, read off the coefficients. -/
theorem directedLoop_true_sound (psDT : GDALTriangulation)
    (coeffs : List GDALTriBarycentricCoefficients) (dfX dfY : ℚ) (T : Int) (n : Nat)
    (nFacetIdx : Int)
    (h : directedLoop psDT.pasFacets coeffs dfX dfY n nFacetIdx = some (some (true, T))) :
    0 ≤ T ∧ T < psDT.nFacets ∧
      ∃ psCoeffs, readAt coeffs T = some psCoeffs ∧ ¬ isDegenerate psCoeffs ∧
        InTolerance psCoeffs dfX dfY := by
  obtain ⟨c, f, hc, hf, hb⟩ := walkAt_eq_some (directedLoop_ret _ _ _ _ _ _ _ _ h)
  obtain ⟨h0, h1, _⟩ := readAt_eq_some hf
  exact ⟨h0, h1, c, hc, (directedBody_eq_ret_true_iff c f dfX dfY).1 hb⟩

/-! ## Claims on the answers of the locators -/

theorem square_bruteForce_centre :
    GDALTriangulationFindFacetBruteForce squareMeshComputed (1 / 2) (1 / 2) = some (true, 0) := by
  simp [GDALTriangulationFindFacetBruteForce, squareMeshComputed, squareCoeffs, squareCoeffs0, squareCoeffs1, bruteForceLoop,
    bruteForceBody, isDegenerate, BARYC_COORD_L1, BARYC_COORD_L2, BARYC_COORD_L3, EPS]
  norm_num

theorem square_directed_centre_from_1 :
    GDALTriangulationFindFacetDirected squareMeshComputed 1 (1 / 2) (1 / 2) = some (true, 1) := by
  simp [GDALTriangulationFindFacetDirected, squareMeshComputed, squareCoeffs, squareCoeffs0, squareCoeffs1, directedLoop,
    directedBody, isDegenerate, BARYC_COORD_L1, BARYC_COORD_L2, BARYC_COORD_L3, EPS, readAt,
    squareFacet0, squareFacet1]
  norm_num

theorem strictlyInside_inTolerance {psCoeffs : GDALTriBarycentricCoefficients} {dfX dfY : ℚ}
    (h : StrictlyInside psCoeffs dfX dfY) :
    ¬ isDegenerate psCoeffs ∧ InTolerance psCoeffs dfX dfY := by
  obtain ⟨h1, h2, h3, h4, h5, h6⟩ := h
  constructor
  · rintro ⟨d1, _, d3, _⟩
    simp [BARYC_COORD_L1, d1, d3] at h1
  · unfold InTolerance
    unfold EPS
    refine ⟨?_, ?_, ?_, ?_, ?_, ?_⟩ <;> linarith

theorem bruteForceBody_eq_false_iff (psCoeffs : GDALTriBarycentricCoefficients)
    (psFacet : GDALTriFacet) (dfX dfY : ℚ) :
    bruteForceBody psCoeffs psFacet dfX dfY = some false ↔
      ¬ isDegenerate psCoeffs ∧ HullExit psCoeffs psFacet dfX dfY := by
  unfold bruteForceBody HullExit
  dsimp only
  constructor
  · intro h
    split_ifs at h <;> simp_all
  · rintro ⟨hd, h | h | h⟩
    · rw [if_neg hd, if_pos h.1, if_pos h.2]
    · rw [if_neg hd, if_neg (not_lt.2 h.1), if_neg (not_lt.2 h.2.1), if_pos h.2.2.1,
        if_pos h.2.2.2]
    · rw [if_neg hd, if_neg (not_lt.2 h.1), if_neg (not_lt.2 h.2.1), if_neg (not_lt.2 h.2.2.1),
        if_neg (not_lt.2 h.2.2.2.1), if_pos h.2.2.2.2.1, if_pos h.2.2.2.2.2]

theorem bruteForceBody_eq_none_iff (psCoeffs : GDALTriBarycentricCoefficients)
    (psFacet : GDALTriFacet) (dfX dfY : ℚ) :
    bruteForceBody psCoeffs psFacet dfX dfY = none ↔ ¬ Decisive psCoeffs psFacet dfX dfY := by
  unfold Decisive
  constructor
  · rintro h ⟨hd, hIn | hEx⟩
    · rw [(bruteForceBody_eq_true_iff psCoeffs psFacet dfX dfY).2 ⟨hd, hIn⟩] at h
      cases h
    · rw [(bruteForceBody_eq_false_iff psCoeffs psFacet dfX dfY).2 ⟨hd, hEx⟩] at h
      cases h
  · intro h
    cases hb : bruteForceBody psCoeffs psFacet dfX dfY with
    | none => rfl
    | some b =>
        exfalso
        apply h
        cases b with
        | true =>
            have := (bruteForceBody_eq_true_iff psCoeffs psFacet dfX dfY).1 hb
            exact ⟨this.1, Or.inl this.2⟩
        | false =>
            have := (bruteForceBody_eq_false_iff psCoeffs psFacet dfX dfY).1 hb
            exact ⟨this.1, Or.inr this.2⟩

theorem scanAt_of_not_decisive {pasFacets : List GDALTriFacet}
    {coeffs : List GDALTriBarycentricCoefficients} {dfX dfY : ℚ} {j : Nat}
    (hc : j < coeffs.length) (hf : j < pasFacets.length)
    (h : ∀ psCoeffs psFacet, coeffs[j]? = some psCoeffs → pasFacets[j]? = some psFacet →
      ¬ Decisive psCoeffs psFacet dfX dfY) :
    scanAt pasFacets coeffs dfX dfY j = some none := by
  have e1 : coeffs[j]? = some coeffs[j] := List.getElem?_eq_getElem hc
  have e2 : pasFacets[j]? = some pasFacets[j] := List.getElem?_eq_getElem hf
  unfold scanAt
  rw [e1, e2]
  dsimp only
  rw [(bruteForceBody_eq_none_iff _ _ dfX dfY).2 (h _ _ e1 e2)]

theorem scanAt_of_inTolerance {pasFacets : List GDALTriFacet}
    {coeffs : List GDALTriBarycentricCoefficients} {dfX dfY : ℚ} {j : Nat}
    {psCoeffs : GDALTriBarycentricCoefficients}
    (hc : coeffs[j]? = some psCoeffs) (hf : j < pasFacets.length)
    (h : ¬ isDegenerate psCoeffs ∧ InTolerance psCoeffs dfX dfY) :
    scanAt pasFacets coeffs dfX dfY j = some (some true) := by
  have e2 : pasFacets[j]? = some pasFacets[j] := List.getElem?_eq_getElem hf
  unfold scanAt
  rw [hc, e2]
  dsimp only
  rw [(bruteForceBody_eq_true_iff _ _ dfX dfY).2 h]

/-- The scan returns `TRUE` at the first triangle that stops it when the point is within the
tolerance of that triangle. -/
theorem bruteForce_first_inTolerance (psDT : GDALTriangulation)
    (coeffs : List GDALTriBarycentricCoefficients)
    (hC : psDT.pasFacetCoefficients = some coeffs)
    (T : Nat) (hT : T < psDT.pasFacets.length)
    (psCoeffs : GDALTriBarycentricCoefficients) (hcT : coeffs[T]? = some psCoeffs)
    (dfX dfY : ℚ) (hIn : ¬ isDegenerate psCoeffs ∧ InTolerance psCoeffs dfX dfY)
    (hBefore : ∀ j, j < T → ∀ cj fj, coeffs[j]? = some cj → psDT.pasFacets[j]? = some fj →
      ¬ Decisive cj fj dfX dfY) :
    GDALTriangulationFindFacetBruteForce psDT dfX dfY = some (true, (T : Int)) := by
  have hTc : T < coeffs.length := (List.getElem?_eq_some.1 hcT).1
  unfold GDALTriangulationFindFacetBruteForce
  rw [hC]
  exact bruteForceLoop_stop _ _ _ _ T true (scanAt_of_inTolerance hcT hT hIn) _ 0
    (Nat.zero_le _) (by omega)
    (fun j _ hj => scanAt_of_not_decisive (by omega) (by omega) (hBefore j hj))

/-- The scan returns `FALSE` at the first triangle that stops it when the point is beyond a
hull edge of that triangle. -/
theorem bruteForce_first_hullExit (psDT : GDALTriangulation)
    (coeffs : List GDALTriBarycentricCoefficients)
    (hC : psDT.pasFacetCoefficients = some coeffs)
    (T : Nat) (psCoeffs : GDALTriBarycentricCoefficients) (psFacet : GDALTriFacet)
    (hcT : coeffs[T]? = some psCoeffs) (hfT : psDT.pasFacets[T]? = some psFacet)
    (dfX dfY : ℚ) (hEx : ¬ isDegenerate psCoeffs ∧ HullExit psCoeffs psFacet dfX dfY)
    (hBefore : ∀ j, j < T → ∀ cj fj, coeffs[j]? = some cj → psDT.pasFacets[j]? = some fj →
      ¬ Decisive cj fj dfX dfY) :
    GDALTriangulationFindFacetBruteForce psDT dfX dfY = some (false, (T : Int)) := by
  have hTc : T < coeffs.length := (List.getElem?_eq_some.1 hcT).1
  have hT : T < psDT.pasFacets.length := (List.getElem?_eq_some.1 hfT).1
  have hs : scanAt psDT.pasFacets coeffs dfX dfY T = some (some false) := by
    unfold scanAt
    rw [hcT, hfT]
    dsimp only
    rw [(bruteForceBody_eq_false_iff _ _ dfX dfY).2 hEx]
  unfold GDALTriangulationFindFacetBruteForce
  rw [hC]
  exact bruteForceLoop_stop _ _ _ _ T false hs _ 0 (Nat.zero_le _) (by omega)
    (fun j _ hj => scanAt_of_not_decisive (by omega) (by omega) (hBefore j hj))

/-- C8, as amended: on a triangulation with computed coefficients, for a point strictly inside
the triangle `T` (its three barycentric coordinates with respect to `T` strictly between 0 and
1), the brute-force scan returns `T` with `TRUE` provided no triangle of lower index stops the
scan first, that is, none of them is both not flagged degenerate and either within the
tolerance `EPS` of the point or with the point beyond one of its hull edges. -/
theorem C8_bruteForce_containment (psDT : GDALTriangulation)
    (coeffs : List GDALTriBarycentricCoefficients)
    (hC : psDT.pasFacetCoefficients = some coeffs)
    (T : Nat) (hT : T < psDT.pasFacets.length)
    (psCoeffs : GDALTriBarycentricCoefficients) (hcT : coeffs[T]? = some psCoeffs)
    (dfX dfY : ℚ) (hIn : StrictlyInside psCoeffs dfX dfY)
    (hBefore : ∀ j, j < T → ∀ cj fj, coeffs[j]? = some cj → psDT.pasFacets[j]? = some fj →
      ¬ Decisive cj fj dfX dfY) :
    GDALTriangulationFindFacetBruteForce psDT dfX dfY = some (true, (T : Int)) :=
  bruteForce_first_inTolerance psDT coeffs hC T hT psCoeffs hcT dfX dfY
    (strictlyInside_inTolerance hIn) hBefore

/-- C8 as stated fails on the Delaunay triangulation of the unit square: the point
`(1/2 + 1e-11, 1/2 + 1e-11)` is strictly inside triangle 1, and the scan returns triangle 0,
which contains it within the tolerance `EPS`. -/
theorem C8_counterexample :
    GDALTriangulationComputeBarycentricCoefficients true squareMesh squareX squareY
      = some (true, squareMeshComputed) ∧
    (∃ psCoeffs, squareCoeffs[1]? = some psCoeffs ∧
      StrictlyInside psCoeffs nearDiagonal nearDiagonal) ∧
    GDALTriangulationFindFacetBruteForce squareMeshComputed nearDiagonal nearDiagonal
      = some (true, 0) ∧
    GDALTriangulationFindFacetBruteForce squareMeshComputed nearDiagonal nearDiagonal
      ≠ some (true, 1) := by
  have hB : GDALTriangulationFindFacetBruteForce squareMeshComputed nearDiagonal nearDiagonal
      = some (true, 0) := by
    simp [GDALTriangulationFindFacetBruteForce, squareMeshComputed, squareCoeffs,
      squareCoeffs0, squareCoeffs1, bruteForceLoop, bruteForceBody, isDegenerate, BARYC_COORD_L1, BARYC_COORD_L2,
      BARYC_COORD_L3, EPS, nearDiagonal]
    norm_num
  refine ⟨squareMesh_compute, ⟨squareCoeffs1, rfl, ?_⟩, hB, ?_⟩
  · norm_num [StrictlyInside, BARYC_COORD_L1, BARYC_COORD_L2, BARYC_COORD_L3, nearDiagonal,
      squareCoeffs1]
  · rw [hB]
    decide

/-- C8 as amended, on the unit square: the centroid `(2/3, 2/3)` of triangle 1 is beyond the
diagonal of triangle 0, which has a neighbor across it, and the scan returns triangle 1. -/
theorem C8_bruteForce_containment_witness :
    GDALTriangulationFindFacetBruteForce squareMeshComputed (2 / 3) (2 / 3)
      = some (true, ((1 : Nat) : Int)) :=
  C8_bruteForce_containment squareMeshComputed squareCoeffs rfl 1 (by decide) squareCoeffs1 rfl
    (2 / 3) (2 / 3)
    (by norm_num [StrictlyInside, BARYC_COORD_L1, BARYC_COORD_L2, BARYC_COORD_L3,
      squareCoeffs1])
    (by
      intro j hj cj fj hcj hfj
      have hj0 : j = 0 := by omega
      subst hj0
      simp [squareCoeffs] at hcj
      simp [squareMeshComputed] at hfj
      subst hcj
      subst hfj
      norm_num [Decisive, InTolerance, HullExit, isDegenerate, BARYC_COORD_L1,
        BARYC_COORD_L2, BARYC_COORD_L3, EPS, squareFacet0, squareCoeffs0])

/-! ## The body of the walk -/

theorem directedBody_eq_ret_false_iff (psCoeffs : GDALTriBarycentricCoefficients)
    (psFacet : GDALTriFacet) (dfX dfY : ℚ) :
    directedBody psCoeffs psFacet dfX dfY = WalkStep.ret false ↔
      ¬ isDegenerate psCoeffs ∧ WalkHullExit psCoeffs psFacet dfX dfY := by
  unfold directedBody WalkHullExit
  dsimp only
  constructor
  · intro h
    split_ifs at h <;> simp_all
  · rintro ⟨hd, h | h | h⟩
    · rw [if_neg hd, if_pos h.1, if_pos h.2]
    · rw [if_neg hd, if_neg (not_lt.2 h.1), if_pos h.2.1, if_pos h.2.2]
    · rw [if_neg hd, if_neg (not_lt.2 h.1), if_neg (not_lt.2 h.2.1), if_pos h.2.2.1,
        if_pos h.2.2.2]

theorem directedBody_eq_move (psCoeffs : GDALTriBarycentricCoefficients)
    (psFacet : GDALTriFacet) (dfX dfY : ℚ) (neighbor : Int)
    (h : directedBody psCoeffs psFacet dfX dfY = WalkStep.move neighbor) :
    0 ≤ neighbor ∧ ∃ k : Fin 3, psFacet.anNeighborIdx k = neighbor := by
  unfold directedBody at h
  dsimp only at h
  split_ifs at h <;> simp_all
  · exact ⟨0, h⟩
  · exact ⟨1, h⟩
  · exact ⟨2, h⟩

theorem hullExit_walkHullExit {psCoeffs : GDALTriBarycentricCoefficients}
    {psFacet : GDALTriFacet} {dfX dfY : ℚ} (h : HullExit psCoeffs psFacet dfX dfY) :
    WalkHullExit psCoeffs psFacet dfX dfY := by
  rcases h with h | h | h
  · exact Or.inl h
  · exact Or.inr (Or.inl ⟨h.1, h.2.2.1, h.2.2.2⟩)
  · exact Or.inr (Or.inr ⟨h.1, h.2.2.1, h.2.2.2.2.1, h.2.2.2.2.2⟩)

/-! ## The locators return -/

theorem bruteForceLoop_isSome (pasFacets : List GDALTriFacet)
    (coeffs : List GDALTriBarycentricCoefficients) (hLen : coeffs.length = pasFacets.length)
    (dfX dfY : ℚ) :
    ∀ (n nFacetIdx : Nat), nFacetIdx + n ≤ pasFacets.length →
      ∃ r, bruteForceLoop pasFacets coeffs dfX dfY n nFacetIdx = some r
  | 0, _, _ => ⟨(false, -1), rfl⟩
  | n + 1, nFacetIdx, h => by
      have h1 : nFacetIdx < pasFacets.length := by omega
      have e1 : coeffs[nFacetIdx]? = some coeffs[nFacetIdx] :=
        List.getElem?_eq_getElem (by omega)
      have e2 : pasFacets[nFacetIdx]? = some pasFacets[nFacetIdx] :=
        List.getElem?_eq_getElem h1
      rw [bruteForceLoop_succ]
      unfold scanAt
      rw [e1, e2]
      dsimp only
      cases bruteForceBody coeffs[nFacetIdx] pasFacets[nFacetIdx] dfX dfY with
      | none =>
          exact bruteForceLoop_isSome pasFacets coeffs hLen dfX dfY n (nFacetIdx + 1) (by omega)
      | some b => exact ⟨_, rfl⟩

theorem directedLoop_isSome (pasFacets : List GDALTriFacet)
    (coeffs : List GDALTriBarycentricCoefficients) (hLen : coeffs.length = pasFacets.length)
    (hNb : ∀ psFacet ∈ pasFacets, ∀ k : Fin 3, psFacet.anNeighborIdx k < pasFacets.length)
    (dfX dfY : ℚ) :
    ∀ (n : Nat) (nFacetIdx : Int), 0 ≤ nFacetIdx → nFacetIdx < pasFacets.length →
      ∃ r, directedLoop pasFacets coeffs dfX dfY n nFacetIdx = some r
  | 0, _, _, _ => ⟨none, rfl⟩
  | n + 1, nFacetIdx, h0, h1 => by
      obtain ⟨c, hc⟩ := readAt_isSome coeffs h0 (by rw [hLen]; exact h1)
      obtain ⟨f, hf⟩ := readAt_isSome pasFacets h0 h1
      have hmem : f ∈ pasFacets := List.getElem?_mem (readAt_eq_some hf).2.2
      rw [directedLoop_succ]
      unfold walkAt
      rw [hc, hf]
      dsimp only
      cases hb : directedBody c f dfX dfY with
      | brk => exact ⟨_, rfl⟩
      | ret b => exact ⟨_, rfl⟩
      | move neighbor =>
          obtain ⟨g0, k, gk⟩ := directedBody_eq_move c f dfX dfY neighbor hb
          exact directedLoop_isSome pasFacets coeffs hLen hNb dfX dfY n neighbor g0
            (by rw [← gk]; exact hNb f hmem k)

/-- On a triangulation with one coefficient record per triangle and neighbor indices below the
number of triangles, the directed search from a valid start index returns. -/
theorem directed_isSome (psDT : GDALTriangulation)
    (coeffs : List GDALTriBarycentricCoefficients)
    (hC : psDT.pasFacetCoefficients = some coeffs)
    (hLen : coeffs.length = psDT.pasFacets.length) (hNb : NeighborIndicesInRange psDT)
    (nFacetIdx : Int) (h0 : 0 ≤ nFacetIdx) (h1 : nFacetIdx < psDT.nFacets) (dfX dfY : ℚ) :
    ∃ r, GDALTriangulationFindFacetDirected psDT nFacetIdx dfX dfY = some r := by
  obtain ⟨w, hw⟩ := directedLoop_isSome psDT.pasFacets coeffs hLen hNb dfX dfY
    (2 + psDT.pasFacets.length / 4) nFacetIdx h0 h1
  unfold GDALTriangulationFindFacetDirected
  rw [hC]
  dsimp only
  rw [hw]
  cases w with
  | some r => exact ⟨r, rfl⟩
  | none =>
      dsimp only
      unfold GDALTriangulationFindFacetBruteForce
      rw [hC]
      exact bruteForceLoop_isSome psDT.pasFacets coeffs hLen dfX dfY _ 0 (by omega)

theorem decisive_walkDecisive {psCoeffs : GDALTriBarycentricCoefficients}
    {psFacet : GDALTriFacet} {dfX dfY : ℚ} (h : Decisive psCoeffs psFacet dfX dfY) :
    WalkDecisive psCoeffs psFacet dfX dfY := by
  rcases h with ⟨hd, h | h⟩
  · exact ⟨hd, Or.inl h⟩
  · exact ⟨hd, Or.inr (hullExit_walkHullExit h)⟩

theorem strictlyInside_not_walkHullExit {psCoeffs : GDALTriBarycentricCoefficients}
    {psFacet : GDALTriFacet} {dfX dfY : ℚ} (h : StrictlyInside psCoeffs dfX dfY) :
    ¬ WalkHullExit psCoeffs psFacet dfX dfY := by
  obtain ⟨h1, _, h3, _, h5, _⟩ := h
  have hE : (0 : ℚ) < EPS := by norm_num [EPS]
  rintro (g | g | g)
  · linarith [g.1]
  · linarith [g.2.1]
  · linarith [g.2.2.1]

theorem walkHullExit_hullExit {psCoeffs : GDALTriBarycentricCoefficients}
    {psFacet : GDALTriFacet} {dfX dfY : ℚ} (h : WalkHullExit psCoeffs psFacet dfX dfY)
    (h1 : BARYC_COORD_L1 psCoeffs dfX dfY ≤ 1 + EPS)
    (h2 : BARYC_COORD_L2 psCoeffs dfX dfY ≤ 1 + EPS) :
    HullExit psCoeffs psFacet dfX dfY := by
  rcases h with g | g | g
  · exact Or.inl g
  · exact Or.inr (Or.inl ⟨g.1, h1, g.2.1, g.2.2⟩)
  · exact Or.inr (Or.inr ⟨g.1, h1, g.2.1, h2, g.2.2.1, g.2.2.2⟩)

/-- A `return` from inside the walk, read off the arrays: the reported index is that of a
triangle that stops the walk, with `TRUE` when the point is within its tolerance and `FALSE`
when the point is beyond one of its hull edges. -/
theorem directedLoop_ret_spec (pasFacets : List GDALTriFacet)
    (coeffs : List GDALTriBarycentricCoefficients) (dfX dfY : ℚ) (b : Bool) (T : Int)
    (n : Nat) (nFacetIdx : Int)
    (h : directedLoop pasFacets coeffs dfX dfY n nFacetIdx = some (some (b, T))) :
    ∃ (t : Nat) (psCoeffs : GDALTriBarycentricCoefficients) (psFacet : GDALTriFacet),
      T = (t : Int) ∧ coeffs[t]? = some psCoeffs ∧ pasFacets[t]? = some psFacet ∧
      ¬ isDegenerate psCoeffs ∧
      (b = true → InTolerance psCoeffs dfX dfY) ∧
      (b = false → WalkHullExit psCoeffs psFacet dfX dfY) := by
  obtain ⟨c, f, hc, hf, hb⟩ := walkAt_eq_some (directedLoop_ret _ _ _ _ _ _ _ _ h)
  obtain ⟨h0, _, hc2⟩ := readAt_eq_some hc
  obtain ⟨_, _, hf2⟩ := readAt_eq_some hf
  refine ⟨T.toNat, c, f, by omega, hc2, hf2, ?_, ?_, ?_⟩
  · cases b with
    | true => exact ((directedBody_eq_ret_true_iff c f dfX dfY).1 hb).1
    | false => exact ((directedBody_eq_ret_false_iff c f dfX dfY).1 hb).1
  · intro hb2
    subst hb2
    exact ((directedBody_eq_ret_true_iff c f dfX dfY).1 hb).2
  · intro hb2
    subst hb2
    exact ((directedBody_eq_ret_false_iff c f dfX dfY).1 hb).2

/-- C9, as amended: on a triangulation with computed coefficients (one per triangle) whose
neighbor indices are below `J`, for a point strictly inside the triangle `T` and every start
index in `[0, J)`, the directed search returns `T` with `TRUE` provided no other triangle stops
the search, that is, none of them is both not flagged degenerate and either within the
tolerance `EPS` of the point or with the point beyond one of its hull edges. -/
theorem C9_directed_containment (psDT : GDALTriangulation)
    (coeffs : List GDALTriBarycentricCoefficients)
    (hC : psDT.pasFacetCoefficients = some coeffs)
    (hLen : coeffs.length = psDT.pasFacets.length) (hNb : NeighborIndicesInRange psDT)
    (T : Nat) (hT : T < psDT.pasFacets.length)
    (psCoeffs : GDALTriBarycentricCoefficients) (hcT : coeffs[T]? = some psCoeffs)
    (dfX dfY : ℚ) (hIn : StrictlyInside psCoeffs dfX dfY)
    (hOther : ∀ j, j ≠ T → ∀ cj fj, coeffs[j]? = some cj → psDT.pasFacets[j]? = some fj →
      ¬ WalkDecisive cj fj dfX dfY)
    (nFacetIdx : Int) (h0 : 0 ≤ nFacetIdx) (h1 : nFacetIdx < psDT.nFacets) :
    GDALTriangulationFindFacetDirected psDT nFacetIdx dfX dfY = some (true, (T : Int)) := by
  have hBF : GDALTriangulationFindFacetBruteForce psDT dfX dfY = some (true, (T : Int)) :=
    bruteForce_first_inTolerance psDT coeffs hC T hT psCoeffs hcT dfX dfY
      (strictlyInside_inTolerance hIn)
      (fun j hj cj fj hcj hfj hdec =>
        hOther j (by omega) cj fj hcj hfj (decisive_walkDecisive hdec))
  obtain ⟨⟨b, T2⟩, hr⟩ := directed_isSome psDT coeffs hC hLen hNb nFacetIdx h0 h1 dfX dfY
  rw [hr]
  rcases directed_cases psDT coeffs hC nFacetIdx dfX dfY _ hr with hw | ⟨_, hb⟩
  · obtain ⟨t, c, f, hT2, hc, hf, hd, hTrue, hFalse⟩ :=
      directedLoop_ret_spec _ _ _ _ _ _ _ _ hw
    have htT : t = T := by
      by_contra hne
      apply hOther t hne c f hc hf
      cases b with
      | true => exact ⟨hd, Or.inl (hTrue rfl)⟩
      | false => exact ⟨hd, Or.inr (hFalse rfl)⟩
    subst htT
    rw [hcT] at hc
    cases hc
    cases b with
    | true => rw [hT2]
    | false => exact absurd (hFalse rfl) (strictlyInside_not_walkHullExit hIn)
  · rw [← hb, hBF]

/-- C9 as stated fails on the Delaunay triangulation of the unit square: the point
`(1/2 + 1e-11, 1/2 + 1e-11)` is strictly inside triangle 1, and the directed search started at
triangle 0 returns triangle 0, which contains it within the tolerance `EPS`. -/
theorem C9_counterexample :
    GDALTriangulationComputeBarycentricCoefficients true squareMesh squareX squareY
      = some (true, squareMeshComputed) ∧
    (∃ psCoeffs, squareCoeffs[1]? = some psCoeffs ∧
      StrictlyInside psCoeffs nearDiagonal nearDiagonal) ∧
    GDALTriangulationFindFacetDirected squareMeshComputed 0 nearDiagonal nearDiagonal
      = some (true, 0) ∧
    GDALTriangulationFindFacetDirected squareMeshComputed 0 nearDiagonal nearDiagonal
      ≠ some (true, 1) := by
  have hD : GDALTriangulationFindFacetDirected squareMeshComputed 0 nearDiagonal nearDiagonal
      = some (true, 0) := by
    simp [GDALTriangulationFindFacetDirected, squareMeshComputed, squareCoeffs,
      squareCoeffs0, squareCoeffs1, directedLoop, directedBody, isDegenerate, BARYC_COORD_L1,
      BARYC_COORD_L2, BARYC_COORD_L3, EPS, nearDiagonal, readAt, squareFacet0, squareFacet1]
    norm_num
  refine ⟨squareMesh_compute, ⟨squareCoeffs1, rfl, ?_⟩, hD, ?_⟩
  · norm_num [StrictlyInside, BARYC_COORD_L1, BARYC_COORD_L2, BARYC_COORD_L3, nearDiagonal,
      squareCoeffs1]
  · rw [hD]
    decide

theorem squareMesh_neighbors : NeighborIndicesInRange squareMeshComputed := by
  unfold NeighborIndicesInRange squareMeshComputed squareFacet0 squareFacet1
    GDALTriangulation.nFacets
  decide

/-- C9 as amended, on the unit square: the directed search started at triangle 0 answers the
centroid `(2/3, 2/3)` of triangle 1 with `TRUE` and the index 1. -/
theorem C9_directed_containment_witness :
    GDALTriangulationFindFacetDirected squareMeshComputed 0 (2 / 3) (2 / 3)
      = some (true, ((1 : Nat) : Int)) :=
  C9_directed_containment squareMeshComputed squareCoeffs rfl rfl squareMesh_neighbors 1
    (by decide) squareCoeffs1 rfl (2 / 3) (2 / 3)
    (by norm_num [StrictlyInside, BARYC_COORD_L1, BARYC_COORD_L2, BARYC_COORD_L3,
      squareCoeffs1])
    (by
      intro j hj cj fj hcj hfj
      have hlt : j < squareCoeffs.length := (List.getElem?_eq_some.1 hcj).1
      have hj0 : j = 0 := by
        simp [squareCoeffs] at hlt
        omega
      subst hj0
      simp [squareCoeffs] at hcj
      simp [squareMeshComputed] at hfj
      subst hcj
      subst hfj
      norm_num [WalkDecisive, InTolerance, WalkHullExit, isDegenerate, BARYC_COORD_L1,
        BARYC_COORD_L2, BARYC_COORD_L3, EPS, squareFacet0, squareCoeffs0])
    0 (by decide) (by decide)

/-! ## Agreement of the two locators -/

/-- C10, as amended: on a triangulation with computed coefficients (one per triangle) whose
neighbor indices are below `J`, for every query point and every start index in `[0, J)`, the
directed search returns a status and an index `T`, and the brute-force scan returns the same
status and the same index provided (a) no triangle of index below `T` stops the scan (none is
both not flagged degenerate and either within the tolerance `EPS` of the point or with the
point beyond one of its hull edges) and (b) neither `L1` nor `L2` of the point with respect to
`T` is above `1+EPS`. -/
theorem C10_directed_agrees_with_bruteForce (psDT : GDALTriangulation)
    (coeffs : List GDALTriBarycentricCoefficients)
    (hC : psDT.pasFacetCoefficients = some coeffs)
    (hLen : coeffs.length = psDT.pasFacets.length) (hNb : NeighborIndicesInRange psDT)
    (nFacetIdx : Int) (h0 : 0 ≤ nFacetIdx) (h1 : nFacetIdx < psDT.nFacets) (dfX dfY : ℚ) :
    ∃ (b : Bool) (T : Int),
      GDALTriangulationFindFacetDirected psDT nFacetIdx dfX dfY = some (b, T) ∧
      ((∀ j : Nat, (j : Int) < T → ∀ cj fj, coeffs[j]? = some cj →
          psDT.pasFacets[j]? = some fj → ¬ Decisive cj fj dfX dfY) →
        (∀ psCoeffs, readAt coeffs T = some psCoeffs →
          BARYC_COORD_L1 psCoeffs dfX dfY ≤ 1 + EPS ∧
          BARYC_COORD_L2 psCoeffs dfX dfY ≤ 1 + EPS) →
        GDALTriangulationFindFacetBruteForce psDT dfX dfY = some (b, T)) := by
  obtain ⟨⟨b, T⟩, hr⟩ := directed_isSome psDT coeffs hC hLen hNb nFacetIdx h0 h1 dfX dfY
  refine ⟨b, T, hr, ?_⟩
  intro hBefore hOver
  rcases directed_cases psDT coeffs hC nFacetIdx dfX dfY _ hr with hw | ⟨_, hb⟩
  · obtain ⟨t, c, f, hT, hc, hf, hd, hTrue, hFalse⟩ :=
      directedLoop_ret_spec _ _ _ _ _ _ _ _ hw
    subst hT
    have hBefore2 : ∀ j, j < t → ∀ cj fj, coeffs[j]? = some cj →
        psDT.pasFacets[j]? = some fj → ¬ Decisive cj fj dfX dfY :=
      fun j hj => hBefore j (by exact_mod_cast hj)
    cases b with
    | true =>
        exact bruteForce_first_inTolerance psDT coeffs hC t (List.getElem?_eq_some.1 hf).1 c hc
          dfX dfY ⟨hd, hTrue rfl⟩ hBefore2
    | false =>
        obtain ⟨g1, g2⟩ := hOver c (by rw [readAt_natCast]; exact hc)
        exact bruteForce_first_hullExit psDT coeffs hC t c f hc hf dfX dfY
          ⟨hd, walkHullExit_hullExit (hFalse rfl) g1 g2⟩ hBefore2
  · exact hb

/-- C10 as stated fails on the Delaunay triangulation of the unit square, which has no
degenerate triangle. At the point `(2, 2)`, outside the square, the directed search started at
triangle 0 returns `FALSE` with the nearest triangle 1, and the scan returns `FALSE` with the
index `-1`. At the centre `(1/2, 1/2)`, on the common edge of the two triangles, the directed
search started at triangle 1 returns triangle 1 and the scan returns triangle 0. -/
theorem C10_counterexample :
    GDALTriangulationComputeBarycentricCoefficients true squareMesh squareX squareY
      = some (true, squareMeshComputed) ∧
    (∀ psCoeffs ∈ squareCoeffs, ¬ isDegenerate psCoeffs) ∧
    GDALTriangulationFindFacetDirected squareMeshComputed 0 2 2 = some (false, 1) ∧
    GDALTriangulationFindFacetBruteForce squareMeshComputed 2 2 = some (false, -1) ∧
    GDALTriangulationFindFacetDirected squareMeshComputed 1 (1 / 2) (1 / 2) = some (true, 1) ∧
    GDALTriangulationFindFacetBruteForce squareMeshComputed (1 / 2) (1 / 2) = some (true, 0) := by
  refine ⟨squareMesh_compute, ?_, ?_, ?_, square_directed_centre_from_1,
    square_bruteForce_centre⟩
  · simp [squareCoeffs, squareCoeffs0, squareCoeffs1, isDegenerate]
  · simp [GDALTriangulationFindFacetDirected, squareMeshComputed, squareCoeffs,
      squareCoeffs0, squareCoeffs1, directedLoop, directedBody, isDegenerate, BARYC_COORD_L1,
      BARYC_COORD_L2, BARYC_COORD_L3, EPS, readAt, squareFacet0, squareFacet1]
    norm_num
  · simp [GDALTriangulationFindFacetBruteForce, squareMeshComputed, squareCoeffs,
      squareCoeffs0, squareCoeffs1, bruteForceLoop, bruteForceBody, isDegenerate,
      BARYC_COORD_L1, BARYC_COORD_L2, BARYC_COORD_L3, EPS, squareFacet0, squareFacet1]
    norm_num

/-- C10 as amended, on the unit square: the directed search started at triangle 0 and the scan
both answer the centroid `(2/3, 2/3)` of triangle 1 with `TRUE` and the index 1. -/
theorem C10_directed_agrees_with_bruteForce_witness :
    GDALTriangulationFindFacetDirected squareMeshComputed 0 (2 / 3) (2 / 3) = some (true, 1) ∧
    GDALTriangulationFindFacetBruteForce squareMeshComputed (2 / 3) (2 / 3)
      = some (true, 1) := by
  obtain ⟨b, T, hD, hImp⟩ :=
    C10_directed_agrees_with_bruteForce squareMeshComputed squareCoeffs rfl rfl
      squareMesh_neighbors 0 (by decide) (by decide) (2 / 3) (2 / 3)
  have hD2 : GDALTriangulationFindFacetDirected squareMeshComputed 0 (2 / 3) (2 / 3)
      = some (true, 1) := by
    simp [GDALTriangulationFindFacetDirected, squareMeshComputed, squareCoeffs,
      squareCoeffs0, squareCoeffs1, directedLoop, directedBody, isDegenerate, BARYC_COORD_L1,
      BARYC_COORD_L2, BARYC_COORD_L3, EPS, readAt, squareFacet0, squareFacet1]
    norm_num
  rw [hD2] at hD
  cases hD
  refine ⟨hD2, hImp ?_ ?_⟩
  · intro j hj cj fj hcj hfj
    have hj0 : j = 0 := by omega
    subst hj0
    simp [squareCoeffs] at hcj
    simp [squareMeshComputed] at hfj
    subst hcj
    subst hfj
    norm_num [Decisive, InTolerance, HullExit, isDegenerate, BARYC_COORD_L1,
      BARYC_COORD_L2, BARYC_COORD_L3, EPS, squareFacet0, squareCoeffs0]
  · intro c hc
    simp [readAt, squareCoeffs] at hc
    subst hc
    norm_num [BARYC_COORD_L1, BARYC_COORD_L2, EPS, squareCoeffs1]

/-! ## What the answers of the scan and of the walk mean -/

theorem scanAt_none_not_decisive {pasFacets : List GDALTriFacet}
    {coeffs : List GDALTriBarycentricCoefficients} {dfX dfY : ℚ} {j : Nat}
    (h : scanAt pasFacets coeffs dfX dfY j = some none)
    (cj : GDALTriBarycentricCoefficients) (fj : GDALTriFacet)
    (hc : coeffs[j]? = some cj) (hf : pasFacets[j]? = some fj) :
    ¬ Decisive cj fj dfX dfY := by
  obtain ⟨c, f, hc2, hf2, hb⟩ := scanAt_eq_some h
  rw [hc] at hc2
  rw [hf] at hf2
  cases hc2
  cases hf2
  exact (bruteForceBody_eq_none_iff cj fj dfX dfY).1 hb

/-- The scan on a triangulation with one coefficient record per triangle returns, and its
result is either `FALSE` with the index `-1` when no triangle stops the scan, or the status
returned at the first triangle that stops it, with the index of that triangle. -/
theorem bruteForce_result (psDT : GDALTriangulation)
    (coeffs : List GDALTriBarycentricCoefficients)
    (hC : psDT.pasFacetCoefficients = some coeffs)
    (hLen : coeffs.length = psDT.pasFacets.length) (dfX dfY : ℚ) :
    ∃ (b : Bool) (T : Int),
      GDALTriangulationFindFacetBruteForce psDT dfX dfY = some (b, T) ∧
      ((b = false ∧ T = -1 ∧
          ∀ (j : Nat) cj fj, coeffs[j]? = some cj → psDT.pasFacets[j]? = some fj →
            ¬ Decisive cj fj dfX dfY) ∨
        (∃ (t : Nat) (c : GDALTriBarycentricCoefficients) (f : GDALTriFacet),
          T = (t : Int) ∧ coeffs[t]? = some c ∧ psDT.pasFacets[t]? = some f ∧
          bruteForceBody c f dfX dfY = some b ∧
          ∀ j, j < t → ∀ cj fj, coeffs[j]? = some cj → psDT.pasFacets[j]? = some fj →
            ¬ Decisive cj fj dfX dfY)) := by
  have hRun : GDALTriangulationFindFacetBruteForce psDT dfX dfY
      = bruteForceLoop psDT.pasFacets coeffs dfX dfY psDT.pasFacets.length 0 := by
    unfold GDALTriangulationFindFacetBruteForce
    rw [hC]
  obtain ⟨⟨b, T⟩, hr⟩ :=
    bruteForceLoop_isSome psDT.pasFacets coeffs hLen dfX dfY psDT.pasFacets.length 0 (by omega)
  refine ⟨b, T, by rw [hRun, hr], ?_⟩
  rcases bruteForceLoop_inv _ _ _ _ _ _ _ _ hr with ⟨h1, h2, h3⟩ | ⟨t, h1, _, _, h4, h5⟩
  · refine Or.inl ⟨h1, h2, fun j cj fj hc hf => ?_⟩
    have hj : j < psDT.pasFacets.length := (List.getElem?_eq_some.1 hf).1
    exact scanAt_none_not_decisive (h3 j (Nat.zero_le _) (by omega)) cj fj hc hf
  · obtain ⟨c, f, hc, hf, hb⟩ := scanAt_eq_some h4
    exact Or.inr ⟨t, c, f, h1, hc, hf, hb, fun j hj cj fj hcj hfj =>
      scanAt_none_not_decisive (h5 j (Nat.zero_le _) hj) cj fj hcj hfj⟩

theorem hullExit_some_edge {psCoeffs : GDALTriBarycentricCoefficients}
    {psFacet : GDALTriFacet} {dfX dfY : ℚ} (h : WalkHullExit psCoeffs psFacet dfX dfY) :
    (BARYC_COORD_L1 psCoeffs dfX dfY < -EPS ∧ psFacet.anNeighborIdx 0 < 0) ∨
    (BARYC_COORD_L2 psCoeffs dfX dfY < -EPS ∧ psFacet.anNeighborIdx 1 < 0) ∨
    (BARYC_COORD_L3 (BARYC_COORD_L1 psCoeffs dfX dfY) (BARYC_COORD_L2 psCoeffs dfX dfY) < -EPS ∧
      psFacet.anNeighborIdx 2 < 0) := by
  rcases h with g | g | g
  · exact Or.inl g
  · exact Or.inr (Or.inl g.2)
  · exact Or.inr (Or.inr g.2.2)

/-- A negative answer of the scan with a non-negative index, read off the arrays. -/
theorem bruteForce_false_sound (psDT : GDALTriangulation)
    (coeffs : List GDALTriBarycentricCoefficients)
    (hC : psDT.pasFacetCoefficients = some coeffs) (dfX dfY : ℚ) (T : Int) (h0 : 0 ≤ T)
    (h : GDALTriangulationFindFacetBruteForce psDT dfX dfY = some (false, T)) :
    ∃ (t : Nat) (c : GDALTriBarycentricCoefficients) (f : GDALTriFacet),
      T = (t : Int) ∧ coeffs[t]? = some c ∧ psDT.pasFacets[t]? = some f ∧
      ¬ isDegenerate c ∧ HullExit c f dfX dfY := by
  unfold GDALTriangulationFindFacetBruteForce at h
  rw [hC] at h
  rcases bruteForceLoop_inv _ _ _ _ _ _ _ _ h with ⟨_, h2, _⟩ | ⟨t, h1, _, _, h4, _⟩
  · omega
  · obtain ⟨c, f, hc, hf, hb⟩ := scanAt_eq_some h4
    exact ⟨t, c, f, h1, hc, hf, (bruteForceBody_eq_false_iff c f dfX dfY).1 hb⟩

/-! ## Points outside the hull -/

/-- The answers of the two locators for a point that no triangle contains within the
tolerance. -/
theorem far_point_result (psDT : GDALTriangulation)
    (coeffs : List GDALTriBarycentricCoefficients)
    (hC : psDT.pasFacetCoefficients = some coeffs)
    (hLen : coeffs.length = psDT.pasFacets.length) (hNb : NeighborIndicesInRange psDT)
    (dfX dfY : ℚ)
    (hFar : ∀ (j : Nat) cj, coeffs[j]? = some cj → ¬ isDegenerate cj →
      ¬ InTolerance cj dfX dfY) :
    (∃ T : Int, GDALTriangulationFindFacetBruteForce psDT dfX dfY = some (false, T) ∧
      (0 ≤ T ↔ ∃ (j : Nat) (cj : GDALTriBarycentricCoefficients) (fj : GDALTriFacet),
        coeffs[j]? = some cj ∧ psDT.pasFacets[j]? = some fj ∧ ¬ isDegenerate cj ∧
        HullExit cj fj dfX dfY)) ∧
    (∀ nFacetIdx : Int, 0 ≤ nFacetIdx → nFacetIdx < psDT.nFacets →
      ∃ T : Int, GDALTriangulationFindFacetDirected psDT nFacetIdx dfX dfY = some (false, T) ∧
        ((∃ (j : Nat) (cj : GDALTriBarycentricCoefficients) (fj : GDALTriFacet),
          coeffs[j]? = some cj ∧ psDT.pasFacets[j]? = some fj ∧ ¬ isDegenerate cj ∧
          HullExit cj fj dfX dfY) → 0 ≤ T)) := by
  have hBF : ∃ T : Int, GDALTriangulationFindFacetBruteForce psDT dfX dfY = some (false, T) ∧
      (0 ≤ T ↔ ∃ (j : Nat) (cj : GDALTriBarycentricCoefficients) (fj : GDALTriFacet),
        coeffs[j]? = some cj ∧ psDT.pasFacets[j]? = some fj ∧ ¬ isDegenerate cj ∧
        HullExit cj fj dfX dfY) := by
    obtain ⟨b, T, hr, hcase⟩ := bruteForce_result psDT coeffs hC hLen dfX dfY
    rcases hcase with ⟨h1, h2, h3⟩ | ⟨t, c, f, h1, hc, hf, hb, _⟩
    · subst h1
      subst h2
      refine ⟨-1, hr, ?_⟩
      constructor
      · intro h
        omega
      · rintro ⟨j, cj, fj, hcj, hfj, hd, hEx⟩
        exact absurd ⟨hd, Or.inr hEx⟩ (h3 j cj fj hcj hfj)
    · cases b with
      | true =>
          have hIn := (bruteForceBody_eq_true_iff c f dfX dfY).1 hb
          exact absurd hIn.2 (hFar t c hc hIn.1)
      | false =>
          have hEx := (bruteForceBody_eq_false_iff c f dfX dfY).1 hb
          refine ⟨T, hr, ?_⟩
          constructor
          · intro _
            exact ⟨t, c, f, hc, hf, hEx.1, hEx.2⟩
          · intro _
            omega
  refine ⟨hBF, ?_⟩
  intro nFacetIdx h0 h1
  obtain ⟨⟨b, T⟩, hr⟩ := directed_isSome psDT coeffs hC hLen hNb nFacetIdx h0 h1 dfX dfY
  rcases directed_cases psDT coeffs hC nFacetIdx dfX dfY _ hr with hw | ⟨_, hb⟩
  · obtain ⟨t, c, f, hT, hc, _, hd, hTrue, _⟩ := directedLoop_ret_spec _ _ _ _ _ _ _ _ hw
    cases b with
    | true => exact absurd (hTrue rfl) (hFar t c hc hd)
    | false => exact ⟨T, hr, fun _ => by omega⟩
  · obtain ⟨T2, hr2, hiff⟩ := hBF
    rw [hb] at hr2
    cases hr2
    exact ⟨T, hr, hiff.2⟩

/-- C12: whenever the brute-force scan, or the directed search from any start index, returns
`FALSE` with an index `i >= 0`, triangle `i` is not flagged degenerate and one of the three
barycentric coordinates of the query point with respect to triangle `i`, as the evaluation
returns them, is below `-EPS` across an edge of triangle `i` that has no neighbor (the
neighbor index there is negative): the point is beyond a hull edge of triangle `i`. -/
theorem C12_negative_answer_meaning (psDT : GDALTriangulation)
    (coeffs : List GDALTriBarycentricCoefficients)
    (hC : psDT.pasFacetCoefficients = some coeffs) (nFacetIdx : Int) (dfX dfY : ℚ)
    (i : Int) (h0 : 0 ≤ i)
    (h : GDALTriangulationFindFacetBruteForce psDT dfX dfY = some (false, i) ∨
      GDALTriangulationFindFacetDirected psDT nFacetIdx dfX dfY = some (false, i)) :
    ∃ (psCoeffs : GDALTriBarycentricCoefficients) (psFacet : GDALTriFacet),
      readAt coeffs i = some psCoeffs ∧ readAt psDT.pasFacets i = some psFacet ∧
      ¬ isDegenerate psCoeffs ∧
      ∃ L1 L2 L3 : ℚ,
        GDALTriangulationComputeBarycentricCoordinates psDT i dfX dfY
          = some (true, some (L1, L2, L3)) ∧
        ((L1 < -EPS ∧ psFacet.anNeighborIdx 0 < 0) ∨
          (L2 < -EPS ∧ psFacet.anNeighborIdx 1 < 0) ∨
          (L3 < -EPS ∧ psFacet.anNeighborIdx 2 < 0)) := by
  have key : ∃ (t : Nat) (c : GDALTriBarycentricCoefficients) (f : GDALTriFacet),
      i = (t : Int) ∧ coeffs[t]? = some c ∧ psDT.pasFacets[t]? = some f ∧
      ¬ isDegenerate c ∧ WalkHullExit c f dfX dfY := by
    have hScan : GDALTriangulationFindFacetBruteForce psDT dfX dfY = some (false, i) →
        ∃ (t : Nat) (c : GDALTriBarycentricCoefficients) (f : GDALTriFacet),
          i = (t : Int) ∧ coeffs[t]? = some c ∧ psDT.pasFacets[t]? = some f ∧
          ¬ isDegenerate c ∧ WalkHullExit c f dfX dfY := by
      intro hb
      obtain ⟨t, c, f, h1, hc, hf, hd, hEx⟩ := bruteForce_false_sound psDT coeffs hC dfX dfY i h0 hb
      exact ⟨t, c, f, h1, hc, hf, hd, hullExit_walkHullExit hEx⟩
    rcases h with h | h
    · exact hScan h
    · rcases directed_cases psDT coeffs hC nFacetIdx dfX dfY _ h with hw | ⟨_, hb⟩
      · obtain ⟨t, c, f, hT, hc, hf, hd, _, hFalse⟩ := directedLoop_ret_spec _ _ _ _ _ _ _ _ hw
        exact ⟨t, c, f, hT, hc, hf, hd, hFalse rfl⟩
      · exact hScan hb
  obtain ⟨t, c, f, hT, hc, hf, hd, hEx⟩ := key
  subst hT
  have hlt : t < psDT.pasFacets.length := (List.getElem?_eq_some.1 hf).1
  refine ⟨c, f, by rw [readAt_natCast]; exact hc, by rw [readAt_natCast]; exact hf, hd, _, _, _,
    coordinates_eq psDT coeffs hC t hlt c hc dfX dfY, hullExit_some_edge hEx⟩

theorem square_directed_outside :
    GDALTriangulationFindFacetDirected squareMeshComputed 0 2 2 = some (false, 1) := by
  simp [GDALTriangulationFindFacetDirected, squareMeshComputed, squareCoeffs,
    squareCoeffs0, squareCoeffs1, directedLoop, directedBody, isDegenerate, BARYC_COORD_L1,
    BARYC_COORD_L2, BARYC_COORD_L3, EPS, readAt, squareFacet0, squareFacet1]
  norm_num

/-- C12, on the unit square: the directed search started at triangle 0 answers `(2, 2)` with
`FALSE` and the index 1, and `(2, 2)` is beyond a hull edge of triangle 1. -/
theorem C12_negative_answer_meaning_witness :
    ∃ (psCoeffs : GDALTriBarycentricCoefficients) (psFacet : GDALTriFacet),
      readAt squareCoeffs 1 = some psCoeffs ∧
      readAt squareMeshComputed.pasFacets 1 = some psFacet ∧
      ¬ isDegenerate psCoeffs ∧
      ∃ L1 L2 L3 : ℚ,
        GDALTriangulationComputeBarycentricCoordinates squareMeshComputed 1 2 2
          = some (true, some (L1, L2, L3)) ∧
        ((L1 < -EPS ∧ psFacet.anNeighborIdx 0 < 0) ∨
          (L2 < -EPS ∧ psFacet.anNeighborIdx 1 < 0) ∨
          (L3 < -EPS ∧ psFacet.anNeighborIdx 2 < 0)) :=
  C12_negative_answer_meaning squareMeshComputed squareCoeffs rfl 0 2 2 1 (by decide)
    (Or.inr square_directed_outside)

/-! ## Degenerate triangles and centroids -/

/-- C13: after the coefficients are computed (the coefficient array being allocated, the
vertex indices being indices of points), a triangle `i` whose stored vertices give
`|denom| < 1e-5` is never returned with `TRUE`, neither by the brute-force scan nor by the
directed search, for any query point and any start index. -/
theorem C13_degenerate_exclusion (psDT : GDALTriangulation) (padfX padfY : List ℚ)
    (hNone : psDT.pasFacetCoefficients = none)
    (hIdx : VertexIndicesInRange psDT padfX padfY)
    (i : Nat) (psFacet : GDALTriFacet) (x1 y1 x2 y2 x3 y3 : ℚ)
    (hF : psDT.pasFacets[i]? = some psFacet)
    (h1 : readAt padfX (psFacet.anVertexIdx 0) = some x1)
    (h2 : readAt padfY (psFacet.anVertexIdx 0) = some y1)
    (h3 : readAt padfX (psFacet.anVertexIdx 1) = some x2)
    (h4 : readAt padfY (psFacet.anVertexIdx 1) = some y2)
    (h5 : readAt padfX (psFacet.anVertexIdx 2) = some x3)
    (h6 : readAt padfY (psFacet.anVertexIdx 2) = some y3)
    (hDen : |denom x1 y1 x2 y2 x3 y3| < 1 / 100000) :
    ∃ psDT2,
      GDALTriangulationComputeBarycentricCoefficients true psDT padfX padfY
        = some (true, psDT2) ∧
      ∀ (nFacetIdx : Int) (dfX dfY : ℚ),
        GDALTriangulationFindFacetBruteForce psDT2 dfX dfY ≠ some (true, (i : Int)) ∧
        GDALTriangulationFindFacetDirected psDT2 nFacetIdx dfX dfY ≠ some (true, (i : Int)) := by
  obtain ⟨coeffs, hRun, _, hGet⟩ := compute_spec psDT padfX padfY hNone hIdx
  obtain ⟨c, hc, hci⟩ := hGet i psFacet hF
  obtain ⟨a1, b1, a2, b2, a3, b3, g1, g2, g3, g4, g5, g6, hEq⟩ :=
    computeFacetCoefficients_eq_some hc
  rw [h1] at g1; rw [h2] at g2; rw [h3] at g3; rw [h4] at g4; rw [h5] at g5; rw [h6] at g6
  cases g1; cases g2; cases g3; cases g4; cases g5; cases g6
  rw [computeCoefficients_of_lt hDen] at hEq
  have hDeg : isDegenerate c := by
    rw [hEq]
    exact ⟨rfl, rfl, rfl, rfl⟩
  have hNot : ∀ c2, readAt coeffs (i : Int) = some c2 → ¬ isDegenerate c2 → False := by
    intro c2 hc2 hd2
    rw [readAt_natCast, hci] at hc2
    cases hc2
    exact hd2 hDeg
  refine ⟨_, hRun, fun nFacetIdx dfX dfY => ⟨?_, ?_⟩⟩
  · intro hb
    obtain ⟨_, _, c2, hc2, hd2, _⟩ :=
      bruteForce_true_sound { psDT with pasFacetCoefficients := some coeffs } coeffs rfl
        dfX dfY i hb
    exact hNot c2 hc2 hd2
  · intro hd
    rcases directed_cases { psDT with pasFacetCoefficients := some coeffs } coeffs rfl
        nFacetIdx dfX dfY _ hd with hw | ⟨_, hb⟩
    · obtain ⟨_, _, c2, hc2, hd2, _⟩ :=
        directedLoop_true_sound { psDT with pasFacetCoefficients := some coeffs } coeffs
          dfX dfY i _ _ hw
      exact hNot c2 hc2 hd2
    · obtain ⟨_, _, c2, hc2, hd2, _⟩ :=
        bruteForce_true_sound { psDT with pasFacetCoefficients := some coeffs } coeffs rfl
          dfX dfY i hb
      exact hNot c2 hc2 hd2

/-- C13, on three collinear points: the only triangle, whose `denom` is 0, is not returned with
`TRUE` for the query point `(1, 0)`, which lies on it. -/
theorem C13_degenerate_exclusion_witness :
    ∃ psDT2,
      GDALTriangulationComputeBarycentricCoefficients true collinearMesh collinearX collinearY
        = some (true, psDT2) ∧
      GDALTriangulationFindFacetBruteForce psDT2 1 0 ≠ some (true, ((0 : Nat) : Int)) ∧
      GDALTriangulationFindFacetDirected psDT2 0 1 0 ≠ some (true, ((0 : Nat) : Int)) := by
  obtain ⟨psDT2, hRun, hAll⟩ :=
    C13_degenerate_exclusion collinearMesh collinearX collinearY rfl
      (by unfold VertexIndicesInRange collinearMesh collinearX collinearY; decide)
      0 _ 0 0 1 0 2 0 rfl rfl rfl rfl rfl rfl rfl (by norm_num [denom])
  exact ⟨psDT2, hRun, hAll 0 1 0⟩

/-- C14: after the coefficients are computed, the evaluation at the centroid
`((x1+x2+x3)/3, (y1+y2+y3)/3)` of a triangle with `|denom| >= 1e-5` returns three coordinates
that are each equal to `1/3`, hence strictly between 0 and 1. -/
theorem C14_centroid (psDT : GDALTriangulation) (padfX padfY : List ℚ)
    (hNone : psDT.pasFacetCoefficients = none)
    (hIdx : VertexIndicesInRange psDT padfX padfY)
    (i : Nat) (psFacet : GDALTriFacet) (x1 y1 x2 y2 x3 y3 : ℚ)
    (hF : psDT.pasFacets[i]? = some psFacet)
    (h1 : readAt padfX (psFacet.anVertexIdx 0) = some x1)
    (h2 : readAt padfY (psFacet.anVertexIdx 0) = some y1)
    (h3 : readAt padfX (psFacet.anVertexIdx 1) = some x2)
    (h4 : readAt padfY (psFacet.anVertexIdx 1) = some y2)
    (h5 : readAt padfX (psFacet.anVertexIdx 2) = some x3)
    (h6 : readAt padfY (psFacet.anVertexIdx 2) = some y3)
    (hDen : 1 / 100000 ≤ |denom x1 y1 x2 y2 x3 y3|) :
    ∃ (psDT2 : GDALTriangulation) (L1 L2 L3 : ℚ),
      GDALTriangulationComputeBarycentricCoefficients true psDT padfX padfY
        = some (true, psDT2) ∧
      GDALTriangulationComputeBarycentricCoordinates psDT2 (i : Int)
        ((x1 + x2 + x3) / 3) ((y1 + y2 + y3) / 3) = some (true, some (L1, L2, L3)) ∧
      L1 = 1 / 3 ∧ L2 = 1 / 3 ∧ L3 = 1 / 3 ∧
      0 < L1 ∧ L1 < 1 ∧ 0 < L2 ∧ L2 < 1 ∧ 0 < L3 ∧ L3 < 1 := by
  obtain ⟨coeffs, hRun, _, hGet⟩ := compute_spec psDT padfX padfY hNone hIdx
  obtain ⟨c, hc, hci⟩ := hGet i psFacet hF
  obtain ⟨a1, b1, a2, b2, a3, b3, g1, g2, g3, g4, g5, g6, hEq⟩ :=
    computeFacetCoefficients_eq_some hc
  rw [h1] at g1; rw [h2] at g2; rw [h3] at g3; rw [h4] at g4; rw [h5] at g5; rw [h6] at g6
  cases g1; cases g2; cases g3; cases g4; cases g5; cases g6
  rw [computeCoefficients_of_le hDen] at hEq
  have hi : i < psDT.pasFacets.length := (List.getElem?_eq_some.1 hF).1
  have hd : denom x1 y1 x2 y2 x3 y3 ≠ 0 := by
    intro h0
    rw [h0] at hDen
    norm_num at hDen
  have hEval := coordinates_eq { psDT with pasFacetCoefficients := some coeffs } coeffs rfl i hi
    c hci ((x1 + x2 + x3) / 3) ((y1 + y2 + y3) / 3)
  have e1 : BARYC_COORD_L1 c ((x1 + x2 + x3) / 3) ((y1 + y2 + y3) / 3) = 1 / 3 := by
    subst hEq
    simp only [BARYC_COORD_L1]
    field_simp
    unfold denom
    ring
  have e2 : BARYC_COORD_L2 c ((x1 + x2 + x3) / 3) ((y1 + y2 + y3) / 3) = 1 / 3 := by
    subst hEq
    simp only [BARYC_COORD_L2]
    field_simp
    unfold denom
    ring
  rw [e1, e2] at hEval
  have e3 : BARYC_COORD_L3 (1 / 3) (1 / 3) = 1 / 3 := by
    norm_num [BARYC_COORD_L3]
  rw [e3] at hEval
  exact ⟨_, 1 / 3, 1 / 3, 1 / 3, hRun, hEval, rfl, rfl, rfl, by norm_num, by norm_num,
    by norm_num, by norm_num, by norm_num, by norm_num⟩

/-- C14, on the upper right triangle `(1,1), (0,1), (1,0)` of the unit square, whose centroid
is `(2/3, 2/3)`. -/
theorem C14_centroid_witness :
    ∃ (psDT2 : GDALTriangulation) (L1 L2 L3 : ℚ),
      GDALTriangulationComputeBarycentricCoefficients true squareMesh squareX squareY
        = some (true, psDT2) ∧
      GDALTriangulationComputeBarycentricCoordinates psDT2 ((1 : Nat) : Int)
        ((1 + 0 + 1) / 3) ((1 + 1 + 0) / 3) = some (true, some (L1, L2, L3)) ∧
      L1 = 1 / 3 ∧ L2 = 1 / 3 ∧ L3 = 1 / 3 ∧
      0 < L1 ∧ L1 < 1 ∧ 0 < L2 ∧ L2 < 1 ∧ 0 < L3 ∧ L3 < 1 :=
  C14_centroid squareMesh squareX squareY rfl squareMesh_indices 1 squareFacet1
    1 1 0 1 1 0 rfl rfl rfl rfl rfl rfl rfl (by norm_num [denom])

/-! ## The unit square and the point (2, 2) -/

/-- No triangle with its three vertices among the corners of the unit square both passes the
degeneracy test of `ComputeCoefficients` and contains `(2, 2)` within the tolerance. -/
theorem corners_not_inTolerance (x1 y1 x2 y2 x3 y3 : ℚ)
    (hx1 : x1 = 0 ∨ x1 = 1) (hy1 : y1 = 0 ∨ y1 = 1) (hx2 : x2 = 0 ∨ x2 = 1)
    (hy2 : y2 = 0 ∨ y2 = 1) (hx3 : x3 = 0 ∨ x3 = 1) (hy3 : y3 = 0 ∨ y3 = 1)
    (hd : ¬ isDegenerate (computeCoefficients x1 y1 x2 y2 x3 y3)) :
    ¬ InTolerance (computeCoefficients x1 y1 x2 y2 x3 y3) 2 2 := by
  rcases hx1 with rfl | rfl <;> rcases hy1 with rfl | rfl <;> rcases hx2 with rfl | rfl <;>
    rcases hy2 with rfl | rfl <;> rcases hx3 with rfl | rfl <;> rcases hy3 with rfl | rfl <;>
    revert hd <;>
    norm_num [computeCoefficients, isDegenerate, InTolerance, BARYC_COORD_L1, BARYC_COORD_L2,
      BARYC_COORD_L3, EPS]

theorem readAt_mem {α : Type} {xs : List α} {i : Int} {a : α} (h : readAt xs i = some a) :
    a ∈ xs :=
  List.getElem?_mem (readAt_eq_some h).2.2

/-- C15: take any triangulation whose triangles have their three vertices among the corners
`(0,0), (1,0), (0,1), (1,1)` of the unit square (every point of the arrays is such a corner)
and whose neighbor indices are below `J`. After its coefficients are computed from those
points, the query `(2, 2)` is answered `FALSE` by the brute-force scan and by the directed
search from every start index in `[0, J)`. -/
theorem C15_square_query_outside (psDT : GDALTriangulation) (padfX padfY : List ℚ)
    (hNone : psDT.pasFacetCoefficients = none)
    (hIdx : VertexIndicesInRange psDT padfX padfY)
    (hNb : NeighborIndicesInRange psDT)
    (hX : ∀ v ∈ padfX, v = 0 ∨ v = 1) (hY : ∀ v ∈ padfY, v = 0 ∨ v = 1) :
    ∃ psDT2,
      GDALTriangulationComputeBarycentricCoefficients true psDT padfX padfY
        = some (true, psDT2) ∧
      (∃ T : Int, GDALTriangulationFindFacetBruteForce psDT2 2 2 = some (false, T)) ∧
      ∀ nFacetIdx : Int, 0 ≤ nFacetIdx → nFacetIdx < psDT2.nFacets →
        ∃ T : Int, GDALTriangulationFindFacetDirected psDT2 nFacetIdx 2 2 = some (false, T) := by
  obtain ⟨coeffs, hRun, hLen, hGet⟩ := compute_spec psDT padfX padfY hNone hIdx
  have hFar : ∀ (j : Nat) cj, coeffs[j]? = some cj → ¬ isDegenerate cj →
      ¬ InTolerance cj 2 2 := by
    intro j cj hcj hd
    have hj : j < psDT.pasFacets.length := by
      rw [← hLen]
      exact (List.getElem?_eq_some.1 hcj).1
    obtain ⟨c, hc, hci⟩ := hGet j psDT.pasFacets[j] (List.getElem?_eq_getElem hj)
    rw [hcj] at hci
    cases hci
    obtain ⟨x1, y1, x2, y2, x3, y3, g1, g2, g3, g4, g5, g6, hEq⟩ :=
      computeFacetCoefficients_eq_some hc
    subst hEq
    exact corners_not_inTolerance x1 y1 x2 y2 x3 y3 (hX _ (readAt_mem g1)) (hY _ (readAt_mem g2))
      (hX _ (readAt_mem g3)) (hY _ (readAt_mem g4)) (hX _ (readAt_mem g5))
      (hY _ (readAt_mem g6)) hd
  obtain ⟨⟨T, hB, _⟩, hD⟩ :=
    far_point_result { psDT with pasFacetCoefficients := some coeffs } coeffs rfl hLen hNb 2 2
      hFar
  refine ⟨_, hRun, ⟨T, hB⟩, fun nFacetIdx h0 h1 => ?_⟩
  obtain ⟨T2, hD2, _⟩ := hD nFacetIdx h0 h1
  exact ⟨T2, hD2⟩

/-- C15, on the Delaunay triangulation of the unit square: the scan and the directed search
started at triangle 1 answer `(2, 2)` with `FALSE`. -/
theorem C15_square_query_outside_witness :
    ∃ psDT2,
      GDALTriangulationComputeBarycentricCoefficients true squareMesh squareX squareY
        = some (true, psDT2) ∧
      (∃ T : Int, GDALTriangulationFindFacetBruteForce psDT2 2 2 = some (false, T)) ∧
      ∃ T : Int, GDALTriangulationFindFacetDirected psDT2 1 2 2 = some (false, T) := by
  obtain ⟨psDT2, hRun, hB, hD⟩ :=
    C15_square_query_outside squareMesh squareX squareY rfl squareMesh_indices
      squareMesh_neighbors (by simp [squareX]) (by simp [squareY])
  have h2 : psDT2 = squareMeshComputed := by
    rw [squareMesh_compute] at hRun
    cases hRun
    rfl
  subst h2
  exact ⟨_, squareMesh_compute, hB, hD 1 (by decide) (by decide)⟩

/-! ## The loops of GDALTriangulationCreateDelaunay -/

theorem mapLoop_filter (qh : qhT) :
    ∀ (facets : List facetT) (panMap : List Int) (j : Nat),
      mapLoop qh facets panMap j
        = mapLoop qh (facets.filter (fun facet => facet.upperdelaunay = qh.UPPERdelaunay))
            panMap j
  | [], _, _ => rfl
  | facet :: rest, panMap, j => by
      by_cases hflag : facet.upperdelaunay = qh.UPPERdelaunay
      · rw [List.filter_cons_of_pos (by simpa using hflag)]
        unfold mapLoop
        rw [if_neg (not_not.2 hflag), if_neg (not_not.2 hflag)]
        split_ifs
        · rfl
        · exact mapLoop_filter qh rest _ _
        · rfl
      · rw [List.filter_cons_of_neg (by simpa using hflag)]
        rw [mapLoop, if_pos hflag]
        exact mapLoop_filter qh rest panMap j

theorem facetLoop_filter (qh : qhT) (panMap : List Int) :
    ∀ (facets : List facetT) (pasFacets : List (Option GDALTriFacet)),
      facetLoop qh panMap facets pasFacets
        = facetLoop qh panMap
            (facets.filter (fun facet => facet.upperdelaunay = qh.UPPERdelaunay)) pasFacets
  | [], _ => rfl
  | facet :: rest, pasFacets => by
      by_cases hflag : facet.upperdelaunay = qh.UPPERdelaunay
      · rw [List.filter_cons_of_pos (by simpa using hflag)]
        unfold facetLoop
        rw [if_neg (not_not.2 hflag), if_neg (not_not.2 hflag)]
        split
        · split_ifs
          · exact facetLoop_filter qh panMap rest _
          · rfl
        · rfl
      · rw [List.filter_cons_of_neg (by simpa using hflag)]
        rw [facetLoop, if_pos hflag]
        exact facetLoop_filter qh panMap rest pasFacets

/-- The first loop stops with `NULL` when a facet on the retained envelope is not a triangle,
the identifiers being below the length of the map. -/
theorem mapLoop_not_triangular (qh : qhT) :
    ∀ (facets : List facetT) (panMap : List Int) (j : Nat),
      (∀ facet ∈ facets, facet.upperdelaunay = qh.UPPERdelaunay) →
      (∀ facet ∈ facets, facet.id < panMap.length) →
      (∃ facet ∈ facets, ¬ (facet.vertices.length = 3 ∧ facet.neighbors.length = 3)) →
      mapLoop qh facets panMap j = some none
  | [], _, _, _, _, h => by
      obtain ⟨f, hf, _⟩ := h
      cases hf
  | facet :: rest, panMap, j, hflag, hid, h => by
      have h1 := hflag facet (List.mem_cons_self _ _)
      have h2 := hid facet (List.mem_cons_self _ _)
      unfold mapLoop
      rw [if_neg (not_not.2 h1)]
      by_cases htri : facet.vertices.length = 3 ∧ facet.neighbors.length = 3
      · rw [if_neg (by
          intro hor
          rcases hor with hor | hor
          · exact hor htri.1
          · exact hor htri.2), if_pos h2]
        apply mapLoop_not_triangular qh rest
        · exact fun f hf => hflag f (List.mem_cons_of_mem _ hf)
        · intro f hf
          rw [List.length_set]
          exact hid f (List.mem_cons_of_mem _ hf)
        · obtain ⟨f, hf, hnt⟩ := h
          rcases List.mem_cons.1 hf with rfl | hf2
          · exact absurd htri hnt
          · exact ⟨f, hf2, hnt⟩
      · rw [if_pos (by
          by_contra hcon
          push_neg at hcon
          exact htri hcon)]

/-- The first loop on triangles with valid, pairwise distinct identifiers: it counts them and
maps the identifier of each to its position. -/
theorem mapLoop_triangular (qh : qhT) :
    ∀ (facets : List facetT) (panMap : List Int) (j : Nat),
      (∀ facet ∈ facets, facet.upperdelaunay = qh.UPPERdelaunay) →
      (∀ facet ∈ facets, facet.id < panMap.length) →
      (∀ facet ∈ facets, facet.vertices.length = 3 ∧ facet.neighbors.length = 3) →
      (facets.map facetT.id).Nodup →
      ∃ panMap2 : List Int,
        mapLoop qh facets panMap j = some (some (panMap2, j + facets.length)) ∧
        panMap2.length = panMap.length ∧
        (∀ (q : Nat) (facet : facetT), facets[q]? = some facet →
          panMap2[facet.id]? = some (((j + q : Nat)) : Int)) ∧
        (∀ id : Nat, id ∉ facets.map facetT.id → panMap2[id]? = panMap[id]?)
  | [], panMap, j, _, _, _, _ => ⟨panMap, rfl, rfl, fun q f h => by simp at h, fun _ _ => rfl⟩
  | facet :: rest, panMap, j, hflag, hid, htri, hnd => by
      have h1 := hflag facet (List.mem_cons_self _ _)
      have h2 := hid facet (List.mem_cons_self _ _)
      have h3 := htri facet (List.mem_cons_self _ _)
      rw [List.map_cons, List.nodup_cons] at hnd
      obtain ⟨m2, hrun, hlen, hpos, hother⟩ :=
        mapLoop_triangular qh rest (panMap.set facet.id (j : Int)) (j + 1)
          (fun f hf => hflag f (List.mem_cons_of_mem _ hf))
          (fun f hf => by
            rw [List.length_set]
            exact hid f (List.mem_cons_of_mem _ hf))
          (fun f hf => htri f (List.mem_cons_of_mem _ hf)) hnd.2
      refine ⟨m2, ?_, ?_, ?_, ?_⟩
      · unfold mapLoop
        rw [if_neg (not_not.2 h1), if_neg (by
          intro hor
          rcases hor with hor | hor
          · exact hor h3.1
          · exact hor h3.2), if_pos h2, hrun]
        simp only [List.length_cons]
        have : j + 1 + rest.length = j + (rest.length + 1) := by omega
        rw [this]
      · rw [hlen, List.length_set]
      · intro q f hq
        cases q with
        | zero =>
            simp at hq
            subst hq
            rw [hother facet.id hnd.1]
            simp [List.getElem?_set, h2]
        | succ q2 =>
            simp at hq
            rw [hpos q2 f hq]
            congr 2
            omega
      · intro id hid2
        rw [List.map_cons, List.mem_cons, not_or] at hid2
        rw [hother id hid2.2]
        rw [List.getElem?_set_ne (fun h => hid2.1 h.symm)]

/-- The entries of the map after the first loop, in terms of the dense index. -/
theorem denseIndex_of_map (retained : List facetT) (panMap panMap2 : List Int)
    (hnd : (retained.map facetT.id).Nodup)
    (hpos : ∀ (q : Nat) (facet : facetT), retained[q]? = some facet →
      panMap2[facet.id]? = some (((0 + q : Nat)) : Int))
    (hother : ∀ id : Nat, id ∉ retained.map facetT.id → panMap2[id]? = panMap[id]?)
    (id : Nat) (hinit : panMap[id]? = some (-1)) :
    panMap2[id]? = some (denseIndex retained id) := by
  unfold denseIndex
  by_cases hmem : id ∈ retained.map facetT.id
  · rw [if_pos hmem]
    obtain ⟨q, hq, hqe⟩ := List.getElem_of_mem hmem
    have hq2 : q < retained.length := by simpa using hq
    have hfacet : retained[q]? = some retained[q] := List.getElem?_eq_getElem hq2
    have hid : retained[q].id = id := by
      rw [← hqe]
      simp
    have hidx : (retained.map facetT.id).indexOf id = q := by
      rw [← hqe]
      exact List.indexOf_getElem hnd q hq
    rw [hidx, ← hid, hpos q _ hfacet]
    simp
  · rw [if_neg hmem, hother id hmem, hinit]

theorem buildFacet_isSome (panMap : List Int) (facet : facetT)
    (htri : facet.vertices.length = 3 ∧ facet.neighbors.length = 3)
    (hnb : ∀ n ∈ facet.neighbors, n < panMap.length) :
    ∃ psFacet, buildFacet panMap facet = some psFacet ∧
      (∀ i : Fin 3, facet.vertices[(i : Nat)]? = some (psFacet.anVertexIdx i)) ∧
      (∀ i : Fin 3, ∃ n, facet.neighbors[(i : Nat)]? = some n ∧
        panMap[n]? = some (psFacet.anNeighborIdx i)) := by
  obtain ⟨id, up, vertices, neighbors⟩ := facet
  dsimp only at htri hnb ⊢
  obtain ⟨hv, hn⟩ := htri
  match vertices, neighbors, hv, hn, hnb with
  | [v0, v1, v2], [n0, n1, n2], _, _, hnb =>
      have g0 : n0 < panMap.length := hnb n0 (by simp)
      have g1 : n1 < panMap.length := hnb n1 (by simp)
      have g2 : n2 < panMap.length := hnb n2 (by simp)
      refine ⟨{ anVertexIdx := ![v0, v1, v2],
                anNeighborIdx := ![panMap[n0], panMap[n1], panMap[n2]] }, ?_, ?_, ?_⟩
      · simp [buildFacet, List.getElem?_eq_getElem g0, List.getElem?_eq_getElem g1,
          List.getElem?_eq_getElem g2]
      · intro i
        fin_cases i <;> simp
      · intro i
        fin_cases i
        · exact ⟨n0, by simp, by simp [List.getElem?_eq_getElem g0]⟩
        · exact ⟨n1, by simp, by simp [List.getElem?_eq_getElem g1]⟩
        · exact ⟨n2, by simp, by simp [List.getElem?_eq_getElem g2]⟩

/-- The second loop on facets that the map sends to consecutive positions from `p` on: it
writes the triangle of each facet at its position and leaves the other entries as they are. -/
theorem facetLoop_spec (qh : qhT) (panMap : List Int) :
    ∀ (facets : List facetT) (p : Nat) (pasFacets : List (Option GDALTriFacet)),
      (∀ facet ∈ facets, facet.upperdelaunay = qh.UPPERdelaunay) →
      (∀ (q : Nat) (facet : facetT), facets[q]? = some facet →
        panMap[facet.id]? = some (((p + q : Nat)) : Int)) →
      (∀ facet ∈ facets, ∃ psFacet, buildFacet panMap facet = some psFacet) →
      p + facets.length ≤ pasFacets.length →
      ∃ pasFacets2 : List (Option GDALTriFacet),
        facetLoop qh panMap facets pasFacets = some pasFacets2 ∧
        pasFacets2.length = pasFacets.length ∧
        (∀ (q : Nat) (facet : facetT), facets[q]? = some facet →
          pasFacets2[p + q]? = some (buildFacet panMap facet)) ∧
        (∀ i : Nat, i < p ∨ p + facets.length ≤ i → pasFacets2[i]? = pasFacets[i]?)
  | [], _, pasFacets, _, _, _, _ =>
      ⟨pasFacets, rfl, rfl, fun q f h => by simp at h, fun _ _ => rfl⟩
  | facet :: rest, p, pasFacets, hflag, hmap, hbuild, hlen => by
      have h1 := hflag facet (List.mem_cons_self _ _)
      have h2 := hmap 0 facet (by simp)
      obtain ⟨tri, htri⟩ := hbuild facet (List.mem_cons_self _ _)
      simp only [List.length_cons] at hlen
      obtain ⟨pas2, hrun, hlen2, hpos, hother⟩ :=
        facetLoop_spec qh panMap rest (p + 1) (pasFacets.set p (some tri))
          (fun f hf => hflag f (List.mem_cons_of_mem _ hf))
          (fun q f hq => by
            have := hmap (q + 1) f (by simpa using hq)
            rw [this]
            congr 2
            omega)
          (fun f hf => hbuild f (List.mem_cons_of_mem _ hf))
          (by rw [List.length_set]; omega)
      refine ⟨pas2, ?_, ?_, ?_, ?_⟩
      · unfold facetLoop
        rw [if_neg (not_not.2 h1), h2, htri]
        have hk : (0 : Int) ≤ ((p + 0 : Nat) : Int) ∧ ((p + 0 : Nat) : Int) < pasFacets.length := by
          constructor
          · exact Int.natCast_nonneg _
          · exact_mod_cast (by omega : p + 0 < pasFacets.length)
        simp only [hk, and_self, if_true]
        simpa using hrun
      · rw [hlen2, List.length_set]
      · intro q f hq
        cases q with
        | zero =>
            simp at hq
            subst hq
            rw [Nat.add_zero, hother p (Or.inl (by omega)), htri]
            simp [List.getElem?_set]
            omega
        | succ q2 =>
            simp at hq
            have := hpos q2 f hq
            rw [← this]
            congr 1
            omega
      · intro i hi
        simp only [List.length_cons] at hi
        rw [hother i (by omega)]
        rw [List.getElem?_set_ne (by omega)]

theorem writtenFacets_spec :
    ∀ (pasFacets : List (Option GDALTriFacet)),
      (∀ q : Nat, q < pasFacets.length → ∃ psFacet, pasFacets[q]? = some (some psFacet)) →
      ∃ facets : List GDALTriFacet,
        writtenFacets pasFacets = some facets ∧ facets.length = pasFacets.length ∧
        ∀ (q : Nat) (psFacet : GDALTriFacet), pasFacets[q]? = some (some psFacet) →
          facets[q]? = some psFacet
  | [], _ => ⟨[], rfl, rfl, fun q f h => by simp at h⟩
  | none :: rest, h => by
      obtain ⟨f, hf⟩ := h 0 (by simp)
      simp at hf
  | some psFacet :: rest, h => by
      obtain ⟨facets, hrun, hlen, hget⟩ := writtenFacets_spec rest (fun q hq => by
        have := h (q + 1) (by simpa using hq)
        simpa using this)
      refine ⟨psFacet :: facets, by simp [writtenFacets, hrun], by simp [hlen], ?_⟩
      intro q f hq
      cases q with
      | zero =>
          simp at hq
          simp [hq]
      | succ q2 =>
          simp at hq
          simpa using hget q2 f hq

theorem retainedFacets_flag (qh : qhT) :
    ∀ facet ∈ (visitedFacets qh).filter (fun facet => facet.upperdelaunay = qh.UPPERdelaunay),
      facet.upperdelaunay = qh.UPPERdelaunay := by
  intro facet hf
  simpa using (List.mem_filter.1 hf).2

/-- The construction succeeds when the backend does, the three buffers are allocated and every
retained facet is a triangle: the triangulation has no coefficients and one triangle per
retained facet, in the order of the backend, with the vertices of the facet and the dense
indices of its neighbors. -/
theorem create_success (qh : qhT) (hIds : BackendIdsValid qh) (hTri : RetainedTriangular qh) :
    ∃ psDT : GDALTriangulation,
      GDALTriangulationCreateDelaunay true 0 qh true true = some (some psDT) ∧
      psDT.pasFacetCoefficients = none ∧
      psDT.pasFacets.length = (retainedFacets qh).length ∧
      ∀ (q : Nat) (facet : facetT), (retainedFacets qh)[q]? = some facet →
        ∃ psFacet : GDALTriFacet, psDT.pasFacets[q]? = some psFacet ∧
          (∀ i : Fin 3, facet.vertices[(i : Nat)]? = some (psFacet.anVertexIdx i)) ∧
          (∀ i : Fin 3, ∃ n, facet.neighbors[(i : Nat)]? = some n ∧
            psFacet.anNeighborIdx i = denseIndex (retainedFacets qh) n) := by
  obtain ⟨hId, hNd, hNb⟩ := hIds
  unfold RetainedTriangular at hTri
  unfold retainedFacets at hId hNd hNb hTri ⊢
  obtain ⟨panMap, hMap, hMapLen, hMapPos, hMapOther⟩ :=
    mapLoop_triangular qh _ (List.replicate qh.facet_id (-1)) 0 (retainedFacets_flag qh)
      (fun f hf => by simpa using hId f hf) hTri hNd
  rw [List.length_replicate] at hMapLen
  have hDense : ∀ id : Nat, id < qh.facet_id →
      panMap[id]? =
        some (denseIndex
          ((visitedFacets qh).filter (fun facet => facet.upperdelaunay = qh.UPPERdelaunay))
          id) := by
    intro id hid
    exact denseIndex_of_map _ (List.replicate qh.facet_id (-1)) panMap hNd hMapPos hMapOther id
      (by simp [List.getElem?_replicate, hid])
  have hBuild : ∀ facet ∈
      (visitedFacets qh).filter (fun facet => facet.upperdelaunay = qh.UPPERdelaunay),
      ∃ psFacet, buildFacet panMap facet = some psFacet := by
    intro f hf
    obtain ⟨tri, htri, _⟩ := buildFacet_isSome panMap f (hTri f hf)
      (fun n hn => by rw [hMapLen]; exact hNb f hf n hn)
    exact ⟨tri, htri⟩
  obtain ⟨pas, hFac, hPasLen, hPasPos, _⟩ :=
    facetLoop_spec qh panMap _ 0 (List.replicate (0 + List.length
        ((visitedFacets qh).filter (fun facet => facet.upperdelaunay = qh.UPPERdelaunay))) none)
      (retainedFacets_flag qh) hMapPos hBuild (by simp)
  rw [List.length_replicate] at hPasLen
  have hAll : ∀ q : Nat, q < pas.length → ∃ psFacet, pas[q]? = some (some psFacet) := by
    intro q hq
    rw [hPasLen, Nat.zero_add] at hq
    have hget : ((visitedFacets qh).filter
        (fun facet => facet.upperdelaunay = qh.UPPERdelaunay))[q]? = some _ :=
      List.getElem?_eq_getElem hq
    obtain ⟨tri, htri⟩ := hBuild _ (List.getElem?_mem hget)
    have := hPasPos q _ hget
    rw [Nat.zero_add, htri] at this
    exact ⟨tri, this⟩
  obtain ⟨facets, hW, hWLen, hWGet⟩ := writtenFacets_spec pas hAll
  refine ⟨{ pasFacets := facets, pasFacetCoefficients := none }, ?_, rfl, ?_, ?_⟩
  · unfold GDALTriangulationCreateDelaunay
    rw [mapLoop_filter, hMap]
    simp only [Bool.true_eq_false, if_false, ne_eq, not_true_eq_false]
    rw [facetLoop_filter, hFac]
    simp only [hW]
  · simp [hWLen, hPasLen]
  · intro q facet hq
    obtain ⟨tri, htri, hv, hn⟩ := buildFacet_isSome panMap facet (hTri facet (List.getElem?_mem hq))
      (fun n hn => by rw [hMapLen]; exact hNb facet (List.getElem?_mem hq) n hn)
    have hp := hPasPos q facet hq
    rw [Nat.zero_add, htri] at hp
    refine ⟨tri, hWGet q tri hp, hv, fun i => ?_⟩
    obtain ⟨n, hn1, hn2⟩ := hn i
    have hnlt : n < qh.facet_id := hNb facet (List.getElem?_mem hq) n (List.getElem?_mem hn1)
    rw [hDense n hnlt] at hn2
    exact ⟨n, hn1, (Option.some.inj hn2).symm⟩

/-- The construction returns `NULL` when a retained facet is not a triangle. -/
theorem create_not_triangular (qh : qhT) (hId : ∀ facet ∈ retainedFacets qh, facet.id < qh.facet_id)
    (hTri : ¬ RetainedTriangular qh) (bPointsAllocated : Bool) (ret : Int)
    (bMapAllocated bFacetsAllocated : Bool) :
    GDALTriangulationCreateDelaunay bPointsAllocated ret qh bMapAllocated bFacetsAllocated
      = some none := by
  unfold RetainedTriangular at hTri
  push_neg at hTri
  obtain ⟨f, hf, hnt⟩ := hTri
  unfold retainedFacets at hId hf
  have hMap := mapLoop_not_triangular qh _ (List.replicate qh.facet_id (-1)) 0
    (retainedFacets_flag qh) (fun g hg => by simpa using hId g hg)
    ⟨f, hf, fun h => hnt h.1 h.2⟩
  unfold GDALTriangulationCreateDelaunay
  rw [mapLoop_filter, hMap]
  split_ifs <;> rfl

/-- A triangulation is returned only when the backend succeeded, the three buffers were
allocated and every retained facet is a triangle. -/
theorem create_returns (qh : qhT) (hId : ∀ facet ∈ retainedFacets qh, facet.id < qh.facet_id)
    (bPointsAllocated : Bool) (ret : Int) (bMapAllocated bFacetsAllocated : Bool)
    (psDT : GDALTriangulation)
    (h : GDALTriangulationCreateDelaunay bPointsAllocated ret qh bMapAllocated bFacetsAllocated
      = some (some psDT)) :
    bPointsAllocated = true ∧ ret = 0 ∧ bMapAllocated = true ∧ bFacetsAllocated = true ∧
      RetainedTriangular qh := by
  have hTri : RetainedTriangular qh := by
    by_contra hnt
    rw [create_not_triangular qh hId hnt] at h
    cases h
  cases bPointsAllocated with
  | false => simp [GDALTriangulationCreateDelaunay] at h
  | true =>
      by_cases hret : ret = 0
      · cases bMapAllocated with
        | false => simp [GDALTriangulationCreateDelaunay, hret] at h
        | true =>
            cases bFacetsAllocated with
            | true => exact ⟨rfl, hret, rfl, rfl, hTri⟩
            | false =>
                exfalso
                unfold GDALTriangulationCreateDelaunay at h
                simp only [Bool.true_eq_false, if_false, hret, ne_eq, not_true_eq_false,
                  if_true] at h
                split at h <;> simp at h
      · simp [GDALTriangulationCreateDelaunay, hret] at h

theorem denseIndex_cases (retained : List facetT) (n : Nat) :
    (∃ (k : Nat) (facet : facetT), retained[k]? = some facet ∧ facet.id = n ∧
        denseIndex retained n = (k : Int)) ∨
    ((∀ facet ∈ retained, facet.id ≠ n) ∧ denseIndex retained n = -1) := by
  unfold denseIndex
  by_cases hmem : n ∈ retained.map facetT.id
  · rw [if_pos hmem]
    left
    have hlt : (retained.map facetT.id).indexOf n < (retained.map facetT.id).length :=
      List.indexOf_lt_length.2 hmem
    have hlt2 : (retained.map facetT.id).indexOf n < retained.length := by simpa using hlt
    refine ⟨(retained.map facetT.id).indexOf n, retained[(retained.map facetT.id).indexOf n],
      List.getElem?_eq_getElem hlt2, ?_, rfl⟩
    have hget := List.getElem_indexOf hlt
    rw [List.getElem_map] at hget
    exact hget
  · rw [if_neg hmem]
    right
    refine ⟨fun facet hf heq => hmem ?_, rfl⟩
    rw [← heq]
    exact List.mem_map_of_mem _ hf

theorem squareBackend_ids : BackendIdsValid squareBackend := by
  unfold BackendIdsValid retainedFacets visitedFacets squareBackend
  decide

theorem squareBackend_triangular : RetainedTriangular squareBackend := by
  unfold RetainedTriangular retainedFacets visitedFacets squareBackend
  decide

/-! ## Claims on GDALTriangulationCreateDelaunay -/

/-- C17: when the backend succeeds (status 0, valid identifiers), the buffers are allocated and
every retained facet is a triangle, the construction returns a triangulation whose number of
triangles `J` is the number of retained facets, and the `k`-th retained facet in the order of
the backend is triangle `k`, with the point identifiers of the three vertices of that facet in
their positional order. -/
theorem C17_facet_remapping (qh : qhT) (hIds : BackendIdsValid qh)
    (hTri : RetainedTriangular qh) :
    ∃ psDT : GDALTriangulation,
      GDALTriangulationCreateDelaunay true 0 qh true true = some (some psDT) ∧
      psDT.nFacets = ((retainedFacets qh).length : Int) ∧
      ∀ (k : Nat) (facet : facetT), (retainedFacets qh)[k]? = some facet →
        ∃ psFacet : GDALTriFacet, psDT.pasFacets[k]? = some psFacet ∧
          ∀ i : Fin 3, facet.vertices[(i : Nat)]? = some (psFacet.anVertexIdx i) := by
  obtain ⟨psDT, hRun, _, hLen, hGet⟩ := create_success qh hIds hTri
  refine ⟨psDT, hRun, by simp [GDALTriangulation.nFacets, hLen], fun k facet hk => ?_⟩
  obtain ⟨tri, h1, h2, _⟩ := hGet k facet hk
  exact ⟨tri, h1, h2⟩

/-- C17, on the backend state of the unit square: the retained facets 1 and 3 become the
triangles 0 and 1. -/
theorem C17_facet_remapping_witness :
    ∃ psDT : GDALTriangulation,
      GDALTriangulationCreateDelaunay true 0 squareBackend true true = some (some psDT) ∧
      psDT.nFacets = ((retainedFacets squareBackend).length : Int) ∧
      ∀ (k : Nat) (facet : facetT), (retainedFacets squareBackend)[k]? = some facet →
        ∃ psFacet : GDALTriFacet, psDT.pasFacets[k]? = some psFacet ∧
          ∀ i : Fin 3, facet.vertices[(i : Nat)]? = some (psFacet.anVertexIdx i) :=
  C17_facet_remapping squareBackend squareBackend_ids squareBackend_triangular

/-- C18: the construction returns `NULL`, and no triangulation, when the backend reports a
nonzero status and when some retained facet does not have exactly 3 vertices and exactly 3
neighbors (the identifiers of the retained facets being below `facet_id`); when every retained
facet is a triangle it returns a triangulation, whatever the facets that are not retained
look like. -/
theorem C18_rejects_non_triangular (qh : qhT)
    (hId : ∀ facet ∈ retainedFacets qh, facet.id < qh.facet_id)
    (bPointsAllocated : Bool) (ret : Int) (bMapAllocated bFacetsAllocated : Bool) :
    (ret ≠ 0 →
      GDALTriangulationCreateDelaunay bPointsAllocated ret qh bMapAllocated bFacetsAllocated
        = some none) ∧
    (¬ RetainedTriangular qh →
      GDALTriangulationCreateDelaunay bPointsAllocated ret qh bMapAllocated bFacetsAllocated
        = some none) ∧
    (BackendIdsValid qh → RetainedTriangular qh →
      ∃ psDT : GDALTriangulation,
        GDALTriangulationCreateDelaunay true 0 qh true true = some (some psDT)) := by
  refine ⟨fun hret => ?_, fun hnt => ?_, fun hIds hTri => ?_⟩
  · unfold GDALTriangulationCreateDelaunay
    rw [if_pos hret]
    split_ifs <;> rfl
  · exact create_not_triangular qh hId hnt bPointsAllocated ret bMapAllocated bFacetsAllocated
  · obtain ⟨psDT, hRun, _⟩ := create_success qh hIds hTri
    exact ⟨psDT, hRun⟩

/-- C18, on the backend state of the unit square: the facet 2, which is visited but not
retained, has four vertices and two neighbors, and the construction returns a triangulation;
with a nonzero status it returns `NULL`. -/
theorem C18_rejects_non_triangular_witness :
    (∃ facet ∈ visitedFacets squareBackend,
      facet.upperdelaunay ≠ squareBackend.UPPERdelaunay ∧ facet.vertices.length = 4 ∧
      facet.neighbors.length = 2) ∧
    (∃ psDT : GDALTriangulation,
      GDALTriangulationCreateDelaunay true 0 squareBackend true true = some (some psDT)) ∧
    GDALTriangulationCreateDelaunay true 1 squareBackend true true = some none :=
  ⟨by unfold visitedFacets squareBackend; decide,
    (C18_rejects_non_triangular squareBackend squareBackend_ids.1 true 1 true true).2.2
      squareBackend_ids squareBackend_triangular,
    (C18_rejects_non_triangular squareBackend squareBackend_ids.1 true 1 true true).1
      (by decide)⟩

/-- C19: in every triangulation that the construction returns (the identifiers of the backend
being valid), triangle `k` comes from the `k`-th retained facet, and each of its three neighbor
indices is the index of the retained facet whose identifier is that of the corresponding
neighbor of the facet, when there is one, and `-1` when no retained facet has that
identifier; hence every neighbor index is `-1` or lies in `[0, J)`. -/
theorem C19_neighbor_remapping (qh : qhT) (hIds : BackendIdsValid qh)
    (bPointsAllocated : Bool) (ret : Int) (bMapAllocated bFacetsAllocated : Bool)
    (psDT : GDALTriangulation)
    (h : GDALTriangulationCreateDelaunay bPointsAllocated ret qh bMapAllocated bFacetsAllocated
      = some (some psDT)) :
    ∀ (k : Nat) (psFacet : GDALTriFacet), psDT.pasFacets[k]? = some psFacet →
      ∃ facet : facetT, (retainedFacets qh)[k]? = some facet ∧
        ∀ i : Fin 3, ∃ n : Nat, facet.neighbors[(i : Nat)]? = some n ∧
          ((∃ (k2 : Nat) (facet2 : facetT), (retainedFacets qh)[k2]? = some facet2 ∧
              facet2.id = n ∧ psFacet.anNeighborIdx i = (k2 : Int)) ∨
            ((∀ facet2 ∈ retainedFacets qh, facet2.id ≠ n) ∧ psFacet.anNeighborIdx i = -1)) ∧
          (psFacet.anNeighborIdx i = -1 ∨
            (0 ≤ psFacet.anNeighborIdx i ∧ psFacet.anNeighborIdx i < psDT.nFacets)) := by
  obtain ⟨rfl, rfl, rfl, rfl, hTri⟩ :=
    create_returns qh hIds.1 bPointsAllocated ret bMapAllocated bFacetsAllocated psDT h
  obtain ⟨psDT2, hRun, _, hLen, hGet⟩ := create_success qh hIds hTri
  rw [h] at hRun
  cases hRun
  intro k psFacet hk
  have hklt : k < (retainedFacets qh).length := by
    rw [← hLen]
    exact (List.getElem?_eq_some.1 hk).1
  have hfacet : (retainedFacets qh)[k]? = some (retainedFacets qh)[k] :=
    List.getElem?_eq_getElem hklt
  obtain ⟨tri, h1, _, h3⟩ := hGet k _ hfacet
  rw [hk] at h1
  cases h1
  refine ⟨_, hfacet, fun i => ?_⟩
  obtain ⟨n, hn1, hn2⟩ := h3 i
  refine ⟨n, hn1, ?_, ?_⟩
  · rcases denseIndex_cases (retainedFacets qh) n with ⟨k2, f2, g1, g2, g3⟩ | ⟨g1, g2⟩
    · exact Or.inl ⟨k2, f2, g1, g2, by rw [hn2, g3]⟩
    · exact Or.inr ⟨g1, by rw [hn2, g2]⟩
  · rcases denseIndex_cases (retainedFacets qh) n with ⟨k2, f2, g1, _, g3⟩ | ⟨_, g2⟩
    · right
      have hk2 : k2 < (retainedFacets qh).length := (List.getElem?_eq_some.1 g1).1
      rw [hn2, g3]
      unfold GDALTriangulation.nFacets
      rw [hLen]
      exact ⟨Int.natCast_nonneg _, by exact_mod_cast hk2⟩
    · exact Or.inl (by rw [hn2, g2])

theorem squareBackend_create :
    GDALTriangulationCreateDelaunay true 0 squareBackend true true = some (some squareMesh) := by
  simp [GDALTriangulationCreateDelaunay, squareBackend, visitedFacets, mapLoop, facetLoop,
    buildFacet, writtenFacets, squareMesh, squareFacet0, squareFacet1, List.replicate]

/-- C19, on the backend state of the unit square: the triangulation returned is `squareMesh`;
the neighbors 3, 2, 2 of the facet 1 become 1, -1, -1 and the neighbors 1, 2, 2 of the facet 3
become 0, -1, -1. -/
theorem C19_neighbor_remapping_witness :
    GDALTriangulationCreateDelaunay true 0 squareBackend true true = some (some squareMesh) ∧
    ∀ (k : Nat) (psFacet : GDALTriFacet), squareMesh.pasFacets[k]? = some psFacet →
      ∃ facet : facetT, (retainedFacets squareBackend)[k]? = some facet ∧
        ∀ i : Fin 3, ∃ n : Nat, facet.neighbors[(i : Nat)]? = some n ∧
          ((∃ (k2 : Nat) (facet2 : facetT), (retainedFacets squareBackend)[k2]? = some facet2 ∧
              facet2.id = n ∧ psFacet.anNeighborIdx i = (k2 : Int)) ∨
            ((∀ facet2 ∈ retainedFacets squareBackend, facet2.id ≠ n) ∧
              psFacet.anNeighborIdx i = -1)) ∧
          (psFacet.anNeighborIdx i = -1 ∨
            (0 ≤ psFacet.anNeighborIdx i ∧ psFacet.anNeighborIdx i < squareMesh.nFacets)) :=
  ⟨squareBackend_create,
    C19_neighbor_remapping squareBackend squareBackend_ids true 0 true true squareMesh
      squareBackend_create⟩

/-! ## The reference linear scan and the brute-force scan -/

/-- On one triangle, the body of the scan loop gives the verdict of the reference. -/
theorem bruteForceBody_eq_referenceVerdict (psCoeffs : GDALTriBarycentricCoefficients)
    (psFacet : GDALTriFacet) (dfX dfY : ℚ) :
    bruteForceBody psCoeffs psFacet dfX dfY = referenceVerdict psCoeffs psFacet dfX dfY := by
  unfold bruteForceBody referenceVerdict firstOutOfRange
  by_cases hd : isDegenerate psCoeffs
  · rw [if_pos hd, if_pos hd]
  · rw [if_neg hd, if_neg hd]
    simp only [List.find?, barycentric, OutOfRange]
    by_cases h1 : BARYC_COORD_L1 psCoeffs dfX dfY < -EPS
    · simp [h1]
    · by_cases h1b : BARYC_COORD_L1 psCoeffs dfX dfY > 1 + EPS
      · have : ¬ (BARYC_COORD_L1 psCoeffs dfX dfY < -EPS ∧ psFacet.anNeighborIdx 0 < 0) :=
          fun h => h1 h.1
        simp [h1, h1b, this]
      · by_cases h2 : BARYC_COORD_L2 psCoeffs dfX dfY < -EPS
        · simp [h1, h1b, h2]
        · by_cases h2b : BARYC_COORD_L2 psCoeffs dfX dfY > 1 + EPS
          · have : ¬ (BARYC_COORD_L2 psCoeffs dfX dfY < -EPS ∧ psFacet.anNeighborIdx 1 < 0) :=
              fun h => h2 h.1
            simp [h1, h1b, h2, h2b, this]
          · by_cases h3 : BARYC_COORD_L3 (BARYC_COORD_L1 psCoeffs dfX dfY)
                (BARYC_COORD_L2 psCoeffs dfX dfY) < -EPS
            · simp [h1, h1b, h2, h2b, h3]
            · by_cases h3b : BARYC_COORD_L3 (BARYC_COORD_L1 psCoeffs dfX dfY)
                  (BARYC_COORD_L2 psCoeffs dfX dfY) > 1 + EPS
              · have : ¬ (BARYC_COORD_L3 (BARYC_COORD_L1 psCoeffs dfX dfY)
                    (BARYC_COORD_L2 psCoeffs dfX dfY) < -EPS ∧ psFacet.anNeighborIdx 2 < 0) :=
                  fun h => h3 h.1
                simp [h1, h1b, h2, h2b, h3, h3b, this]
              · simp [h1, h1b, h2, h2b, h3, h3b]

theorem range_find?_none (p : Nat → Bool) (n : Nat) (h : ∀ j, j < n → p j = false) :
    (List.range n).find? p = none := by
  rw [List.find?_eq_none]
  intro j hj
  rw [h j (List.mem_range.1 hj)]
  simp

theorem range_find?_some (p : Nat → Bool) (t : Nat) (hp : p t = true)
    (hlt : ∀ j, j < t → p j = false) :
    ∀ n : Nat, t < n → (List.range n).find? p = some t
  | 0, h => by omega
  | n + 1, h => by
      rw [List.range_succ, List.find?_append]
      rcases Nat.eq_or_lt_of_le (Nat.lt_succ_iff.1 h) with heq | hlt2
      · subst heq
        rw [range_find?_none p t hlt]
        simp [hp]
      · rw [range_find?_some p t hp hlt n hlt2]
        rfl

theorem scanAt_referenceVerdictAt {pasFacets : List GDALTriFacet}
    {coeffs : List GDALTriBarycentricCoefficients} {dfX dfY : ℚ} {j : Nat} {r : Option Bool}
    (h : scanAt pasFacets coeffs dfX dfY j = some r) :
    referenceVerdictAt pasFacets coeffs dfX dfY j = r := by
  obtain ⟨c, f, hc, hf, hb⟩ := scanAt_eq_some h
  unfold referenceVerdictAt
  rw [hc, hf]
  dsimp only
  rw [← bruteForceBody_eq_referenceVerdict, hb]

/-- C20: on a triangulation with computed coefficients (one per triangle), the brute-force scan
returns what the reference linear scan returns: the lowest-index decisive triangle, with
`found = true` when it is an inside case and `found = false` when it is a hull exit, and
`(found = false, index -1)` when no triangle is decisive, in particular for an empty mesh. -/
theorem C20_bruteForce_eq_referenceScan (psDT : GDALTriangulation)
    (coeffs : List GDALTriBarycentricCoefficients)
    (hC : psDT.pasFacetCoefficients = some coeffs)
    (hLen : coeffs.length = psDT.pasFacets.length) (dfX dfY : ℚ) :
    GDALTriangulationFindFacetBruteForce psDT dfX dfY
      = some (referenceScan psDT.pasFacets coeffs dfX dfY) ∧
    (psDT.pasFacets = [] →
      GDALTriangulationFindFacetBruteForce psDT dfX dfY = some (false, -1)) := by
  have hRun : GDALTriangulationFindFacetBruteForce psDT dfX dfY
      = bruteForceLoop psDT.pasFacets coeffs dfX dfY psDT.pasFacets.length 0 := by
    unfold GDALTriangulationFindFacetBruteForce
    rw [hC]
  constructor
  · obtain ⟨⟨b, T⟩, hr⟩ :=
      bruteForceLoop_isSome psDT.pasFacets coeffs hLen dfX dfY psDT.pasFacets.length 0
        (by omega)
    rw [hRun, hr]
    congr 1
    unfold referenceScan
    rcases bruteForceLoop_inv _ _ _ _ _ _ _ _ hr with ⟨h1, h2, h3⟩ | ⟨t, h1, _, h3, h4, h5⟩
    · rw [range_find?_none _ _ (fun j hj => by
        rw [scanAt_referenceVerdictAt (h3 j (Nat.zero_le _) (by omega))]
        rfl)]
      rw [h1, h2]
    · rw [range_find?_some _ t (by rw [scanAt_referenceVerdictAt h4]; rfl)
        (fun j hj => by
          rw [scanAt_referenceVerdictAt (h5 j (Nat.zero_le _) hj)]
          rfl) _ (by omega)]
      dsimp only
      rw [scanAt_referenceVerdictAt h4, h1]
  · intro hEmpty
    rw [hRun, hEmpty]
    rfl

/-- C20, on the unit square at the centre, where both triangles are decisive and the lowest
index is 0, and on the empty mesh. -/
theorem C20_bruteForce_eq_referenceScan_witness :
    (GDALTriangulationFindFacetBruteForce squareMeshComputed (1 / 2) (1 / 2)
        = some (referenceScan squareMeshComputed.pasFacets squareCoeffs (1 / 2) (1 / 2)) ∧
      GDALTriangulationFindFacetBruteForce squareMeshComputed (1 / 2) (1 / 2)
        = some (true, 0)) ∧
    GDALTriangulationFindFacetBruteForce emptyMeshComputed 0 0 = some (false, -1) :=
  ⟨⟨(C20_bruteForce_eq_referenceScan squareMeshComputed squareCoeffs rfl rfl (1 / 2) (1 / 2)).1,
      square_bruteForce_centre⟩,
    (C20_bruteForce_eq_referenceScan emptyMeshComputed [] rfl rfl 0 0).2 rfl⟩

/-! ## The returned value of the brute-force scan -/

/-- The index that the scan outputs is `-1` or that of a triangle. -/
theorem bruteForce_index_range (psDT : GDALTriangulation)
    (coeffs : List GDALTriBarycentricCoefficients)
    (hC : psDT.pasFacetCoefficients = some coeffs) (dfX dfY : ℚ) (b : Bool) (T : Int)
    (h : GDALTriangulationFindFacetBruteForce psDT dfX dfY = some (b, T)) :
    T = -1 ∨ (0 ≤ T ∧ T < psDT.nFacets) := by
  unfold GDALTriangulationFindFacetBruteForce at h
  rw [hC] at h
  rcases bruteForceLoop_inv _ _ _ _ _ _ _ _ h with ⟨_, h2, _⟩ | ⟨t, h1, _, h3, _, _⟩
  · exact Or.inl h2
  · right
    unfold GDALTriangulation.nFacets
    omega

/-- On the unit square the scan finds the point `(1/4, 1/4)` in triangle 0. -/
theorem square_bruteForce_quarter :
    GDALTriangulationFindFacetBruteForce squareMeshComputed (1 / 4) (1 / 4)
      = some (true, 0) := by
  simp [GDALTriangulationFindFacetBruteForce, squareMeshComputed, squareCoeffs,
    squareCoeffs0, squareCoeffs1, bruteForceLoop, bruteForceBody, isDegenerate,
    BARYC_COORD_L1, BARYC_COORD_L2, BARYC_COORD_L3, EPS, squareFacet0, squareFacet1]
  norm_num

/-- On the unit square the scan finds the point `(2, 2)` in no triangle and leaves the
index `-1`. -/
theorem square_bruteForce_far :
    GDALTriangulationFindFacetBruteForce squareMeshComputed 2 2 = some (false, -1) := by
  simp [GDALTriangulationFindFacetBruteForce, squareMeshComputed, squareCoeffs,
    squareCoeffs0, squareCoeffs1, bruteForceLoop, bruteForceBody, isDegenerate,
    BARYC_COORD_L1, BARYC_COORD_L2, BARYC_COORD_L3, EPS, squareFacet0, squareFacet1]
  norm_num

/-- C16 as stated fails on the unit square: the scan answers the point `(1/4, 1/4)`, which
lies in triangle 0, by returning the `int` 1 (the status `TRUE`) and not the index 0, and
answers the point `(2, 2)`, which lies in no triangle, by returning the `int` 0 (the status
`FALSE`) and not `-1`; the index 0 and the value `-1` are written through
`panOutputFacetIdx`. -/
theorem C16_counterexample :
    GDALTriangulationFindFacetBruteForce squareMeshComputed (1 / 4) (1 / 4) = some (true, 0) ∧
    bruteForceReturnValue squareMeshComputed (1 / 4) (1 / 4) = some 1 ∧
    GDALTriangulationFindFacetBruteForce squareMeshComputed 2 2 = some (false, -1) ∧
    bruteForceReturnValue squareMeshComputed 2 2 = some 0 := by
  refine ⟨square_bruteForce_quarter, ?_, square_bruteForce_far, ?_⟩
  · unfold bruteForceReturnValue
    rw [square_bruteForce_quarter]
    rfl
  · unfold bruteForceReturnValue
    rw [square_bruteForce_far]
    rfl

/-- C16, as amended: whenever the scan returns, the `int` it returns is its status, 1 (`TRUE`)
or 0 (`FALSE`), never `-1`; the index is what it writes through `panOutputFacetIdx`: with the
status `TRUE` the index of a triangle, in `[0, J)`, and with the status `FALSE` either `-1` or
the index of a triangle. -/
theorem C16_return_value_is_status (psDT : GDALTriangulation) (dfX dfY : ℚ) (b : Bool)
    (T : Int) (h : GDALTriangulationFindFacetBruteForce psDT dfX dfY = some (b, T)) :
    bruteForceReturnValue psDT dfX dfY = some (statusValue b) ∧
    (statusValue b = 1 ∨ statusValue b = 0) ∧ statusValue b ≠ -1 ∧
    (statusValue b = 1 ↔ b = true) ∧
    (b = true → 0 ≤ T ∧ T < psDT.nFacets) ∧
    (b = false → T = -1 ∨ (0 ≤ T ∧ T < psDT.nFacets)) := by
  refine ⟨?_, ?_, ?_, ?_, ?_, ?_⟩
  · unfold bruteForceReturnValue
    rw [h]
  · cases b <;> simp [statusValue]
  · cases b <;> simp [statusValue]
  · cases b <;> simp [statusValue]
  · intro hb
    subst hb
    cases hC : psDT.pasFacetCoefficients with
    | none =>
      unfold GDALTriangulationFindFacetBruteForce at h
      rw [hC] at h
      simp at h
    | some coeffs =>
      obtain ⟨h1, h2, _⟩ := bruteForce_true_sound psDT coeffs hC dfX dfY T h
      exact ⟨h1, h2⟩
  · intro _
    cases hC : psDT.pasFacetCoefficients with
    | none =>
      unfold GDALTriangulationFindFacetBruteForce at h
      rw [hC] at h
      simp at h
      exact Or.inl h.2.symm
    | some coeffs => exact bruteForce_index_range psDT coeffs hC dfX dfY b T h

/-- C16 as amended, on the unit square at the point `(1/4, 1/4)`: the scan returns the `int`
1 and writes the index 0. -/
theorem C16_return_value_is_status_witness :
    GDALTriangulationFindFacetBruteForce squareMeshComputed (1 / 4) (1 / 4) = some (true, 0) ∧
    bruteForceReturnValue squareMeshComputed (1 / 4) (1 / 4) = some (statusValue true) ∧
    statusValue true = 1 :=
  ⟨square_bruteForce_quarter,
    (C16_return_value_is_status squareMeshComputed (1 / 4) (1 / 4) true 0
      square_bruteForce_quarter).1, rfl⟩

/-! ## The walk: cap, fallback, termination and indices -/

theorem directedVisits_length (pasFacets : List GDALTriFacet)
    (coeffs : List GDALTriBarycentricCoefficients) (dfX dfY : ℚ) :
    ∀ (n : Nat) (nFacetIdx : Int),
      (directedVisits pasFacets coeffs dfX dfY n nFacetIdx).length ≤ n
  | 0, _ => by simp [directedVisits]
  | n + 1, nFacetIdx => by
      unfold directedVisits
      simp only [List.length_cons]
      split
      · split
        · have := directedVisits_length pasFacets coeffs dfX dfY n ‹Int›
          omega
        · simp
      · simp

theorem directedVisits_range (pasFacets : List GDALTriFacet)
    (coeffs : List GDALTriBarycentricCoefficients)
    (hNb : ∀ psFacet ∈ pasFacets, ∀ k : Fin 3, psFacet.anNeighborIdx k < pasFacets.length)
    (dfX dfY : ℚ) :
    ∀ (n : Nat) (nFacetIdx : Int), 0 ≤ nFacetIdx → nFacetIdx < pasFacets.length →
      ∀ i ∈ directedVisits pasFacets coeffs dfX dfY n nFacetIdx,
        0 ≤ i ∧ i < pasFacets.length
  | 0, _, _, _, i, hi => by simp [directedVisits] at hi
  | n + 1, nFacetIdx, h0, h1, i, hi => by
      unfold directedVisits at hi
      rcases List.mem_cons.1 hi with rfl | hi2
      · exact ⟨h0, h1⟩
      · split at hi2
        · rename_i c f hc hf
          split at hi2
          · rename_i neighbor hb
            obtain ⟨g0, k, gk⟩ := directedBody_eq_move c f dfX dfY neighbor hb
            have hmem : f ∈ pasFacets := List.getElem?_mem (readAt_eq_some hf).2.2
            exact directedVisits_range pasFacets coeffs hNb dfX dfY n neighbor g0
              (by rw [← gk]; exact hNb f hmem k) i hi2
          · simp at hi2
        · simp at hi2

theorem directedBody_eq_brk_iff (psCoeffs : GDALTriBarycentricCoefficients)
    (psFacet : GDALTriFacet) (dfX dfY : ℚ) :
    directedBody psCoeffs psFacet dfX dfY = WalkStep.brk ↔
      isDegenerate psCoeffs ∨
      (-EPS ≤ BARYC_COORD_L1 psCoeffs dfX dfY ∧ -EPS ≤ BARYC_COORD_L2 psCoeffs dfX dfY ∧
        -EPS ≤ BARYC_COORD_L3 (BARYC_COORD_L1 psCoeffs dfX dfY)
          (BARYC_COORD_L2 psCoeffs dfX dfY) ∧
        (1 + EPS < BARYC_COORD_L1 psCoeffs dfX dfY ∨ 1 + EPS < BARYC_COORD_L2 psCoeffs dfX dfY ∨
          1 + EPS < BARYC_COORD_L3 (BARYC_COORD_L1 psCoeffs dfX dfY)
            (BARYC_COORD_L2 psCoeffs dfX dfY))) := by
  unfold directedBody
  dsimp only
  by_cases hd : isDegenerate psCoeffs
  · simp [hd]
  · by_cases h1 : BARYC_COORD_L1 psCoeffs dfX dfY < -EPS
    · have h1n : ¬ (-EPS ≤ BARYC_COORD_L1 psCoeffs dfX dfY) := not_le.2 h1
      simp only [hd, h1, h1n, if_true, if_false, false_and, or_false]
      split_ifs <;> simp
    · by_cases h2 : BARYC_COORD_L2 psCoeffs dfX dfY < -EPS
      · have h2n : ¬ (-EPS ≤ BARYC_COORD_L2 psCoeffs dfX dfY) := not_le.2 h2
        simp only [hd, h1, h2, h2n, if_true, if_false, false_and, and_false, or_false]
        split_ifs <;> simp
      · by_cases h3 : BARYC_COORD_L3 (BARYC_COORD_L1 psCoeffs dfX dfY)
            (BARYC_COORD_L2 psCoeffs dfX dfY) < -EPS
        · have h3n : ¬ (-EPS ≤ BARYC_COORD_L3 (BARYC_COORD_L1 psCoeffs dfX dfY)
              (BARYC_COORD_L2 psCoeffs dfX dfY)) := not_le.2 h3
          simp only [hd, h1, h2, h3, h3n, if_true, if_false, false_and, and_false, or_false]
          split_ifs <;> simp
        · simp only [hd, h1, h2, h3, if_false, false_or, not_lt.1 h1, not_lt.1 h2,
            not_lt.1 h3, true_and]
          by_cases g1 : BARYC_COORD_L1 psCoeffs dfX dfY > 1 + EPS <;>
            by_cases g2 : BARYC_COORD_L2 psCoeffs dfX dfY > 1 + EPS <;>
            by_cases g3 : BARYC_COORD_L3 (BARYC_COORD_L1 psCoeffs dfX dfY)
              (BARYC_COORD_L2 psCoeffs dfX dfY) > 1 + EPS <;>
            simp [g1, g2, g3]

/-- When the walk ends without returning, the directed search returns what the scan does. -/
theorem directed_fallback (psDT : GDALTriangulation)
    (coeffs : List GDALTriBarycentricCoefficients)
    (hC : psDT.pasFacetCoefficients = some coeffs) (nFacetIdx : Int) (dfX dfY : ℚ)
    (h : directedLoop psDT.pasFacets coeffs dfX dfY (2 + psDT.pasFacets.length / 4) nFacetIdx
      = some none) :
    GDALTriangulationFindFacetDirected psDT nFacetIdx dfX dfY
      = GDALTriangulationFindFacetBruteForce psDT dfX dfY := by
  unfold GDALTriangulationFindFacetDirected
  rw [hC]
  dsimp only
  rw [h]

theorem cyclic_directed_outside :
    GDALTriangulationFindFacetDirected cyclicMeshComputed 0 2 2 = some (false, -1) := by
  simp [GDALTriangulationFindFacetDirected, GDALTriangulationFindFacetBruteForce,
    cyclicMeshComputed, squareCoeffs0, directedLoop, directedBody, bruteForceLoop,
    bruteForceBody, isDegenerate, BARYC_COORD_L1, BARYC_COORD_L2, BARYC_COORD_L3, EPS, readAt,
    squareFacet0]
  norm_num

theorem cyclic_visits :
    directedVisits cyclicMeshComputed.pasFacets [squareCoeffs0, squareCoeffs0] 2 2
      (2 + cyclicMeshComputed.pasFacets.length / 4) 0 = [0, 1] := by
  simp [cyclicMeshComputed, squareCoeffs0, directedVisits, directedBody, isDegenerate,
    BARYC_COORD_L1, BARYC_COORD_L2, BARYC_COORD_L3, EPS, readAt, squareFacet0]
  norm_num

/-- C21: on a triangulation with computed coefficients, from every start index, the walk
inspects at most `2 + J/4` triangles; when the walk ends without returning, the directed search
returns exactly what the brute-force scan returns for the same point; the walk ends without
returning when no iteration is left (cap reached), and does at a triangle that is flagged
degenerate or that has no coordinate below `-EPS` and some coordinate above `1+EPS`. -/
theorem C21_cap_and_fallback (psDT : GDALTriangulation)
    (coeffs : List GDALTriBarycentricCoefficients)
    (hC : psDT.pasFacetCoefficients = some coeffs) (nFacetIdx : Int) (dfX dfY : ℚ) :
    (((directedVisits psDT.pasFacets coeffs dfX dfY (2 + psDT.pasFacets.length / 4)
        nFacetIdx).length : Int) ≤ 2 + psDT.nFacets / 4) ∧
    (directedLoop psDT.pasFacets coeffs dfX dfY (2 + psDT.pasFacets.length / 4) nFacetIdx
        = some none →
      GDALTriangulationFindFacetDirected psDT nFacetIdx dfX dfY
        = GDALTriangulationFindFacetBruteForce psDT dfX dfY) ∧
    (∀ i : Int, directedLoop psDT.pasFacets coeffs dfX dfY 0 i = some none) ∧
    (∀ (n : Nat) (i : Int) (psCoeffs : GDALTriBarycentricCoefficients) (psFacet : GDALTriFacet),
      readAt coeffs i = some psCoeffs → readAt psDT.pasFacets i = some psFacet →
      (isDegenerate psCoeffs ∨
        (-EPS ≤ BARYC_COORD_L1 psCoeffs dfX dfY ∧ -EPS ≤ BARYC_COORD_L2 psCoeffs dfX dfY ∧
          -EPS ≤ BARYC_COORD_L3 (BARYC_COORD_L1 psCoeffs dfX dfY)
            (BARYC_COORD_L2 psCoeffs dfX dfY) ∧
          (1 + EPS < BARYC_COORD_L1 psCoeffs dfX dfY ∨
            1 + EPS < BARYC_COORD_L2 psCoeffs dfX dfY ∨
            1 + EPS < BARYC_COORD_L3 (BARYC_COORD_L1 psCoeffs dfX dfY)
              (BARYC_COORD_L2 psCoeffs dfX dfY)))) →
      directedLoop psDT.pasFacets coeffs dfX dfY (n + 1) i = some none) := by
  refine ⟨?_, directed_fallback psDT coeffs hC nFacetIdx dfX dfY, fun _ => rfl, ?_⟩
  · have := directedVisits_length psDT.pasFacets coeffs dfX dfY
      (2 + psDT.pasFacets.length / 4) nFacetIdx
    unfold GDALTriangulation.nFacets
    omega
  · intro n i c f hc hf hbrk
    rw [directedLoop_succ]
    unfold walkAt
    rw [hc, hf]
    dsimp only
    rw [(directedBody_eq_brk_iff c f dfX dfY).2 hbrk]

/-- C21, on the mesh with inconsistent links at the point `(2, 2)`: the walk inspects the
triangles 0 and 1, the cap `2 + 2/4 = 2` is reached, and the directed search returns what the
scan returns. -/
theorem C21_cap_and_fallback_witness :
    (((directedVisits cyclicMeshComputed.pasFacets [squareCoeffs0, squareCoeffs0] 2 2
        (2 + cyclicMeshComputed.pasFacets.length / 4) 0).length : Int)
      ≤ 2 + cyclicMeshComputed.nFacets / 4) ∧
    GDALTriangulationFindFacetDirected cyclicMeshComputed 0 2 2
      = GDALTriangulationFindFacetBruteForce cyclicMeshComputed 2 2 :=
  ⟨(C21_cap_and_fallback cyclicMeshComputed [squareCoeffs0, squareCoeffs0] rfl 0 2 2).1,
    (C21_cap_and_fallback cyclicMeshComputed [squareCoeffs0, squareCoeffs0] rfl 0 2 2).2.1
      (by
        simp [cyclicMeshComputed, squareCoeffs0, directedLoop, directedBody, isDegenerate,
          BARYC_COORD_L1, BARYC_COORD_L2, BARYC_COORD_L3, EPS, readAt, squareFacet0]
        norm_num)⟩

theorem cyclicMesh_neighbors : NeighborIndicesInRange cyclicMeshComputed := by
  unfold NeighborIndicesInRange cyclicMeshComputed squareFacet0 GDALTriangulation.nFacets
  decide

/-- C22: on a triangulation with computed coefficients (one per triangle) whose neighbor
indices are all below `J`, from every start index in `[0, J)` and for every query point, the
directed search returns a result, whatever the links between the triangles. -/
theorem C22_directed_terminates (psDT : GDALTriangulation)
    (coeffs : List GDALTriBarycentricCoefficients)
    (hC : psDT.pasFacetCoefficients = some coeffs)
    (hLen : coeffs.length = psDT.pasFacets.length) (hNb : NeighborIndicesInRange psDT)
    (nFacetIdx : Int) (h0 : 0 ≤ nFacetIdx) (h1 : nFacetIdx < psDT.nFacets) (dfX dfY : ℚ) :
    ∃ (b : Bool) (T : Int),
      GDALTriangulationFindFacetDirected psDT nFacetIdx dfX dfY = some (b, T) := by
  obtain ⟨⟨b, T⟩, hr⟩ := directed_isSome psDT coeffs hC hLen hNb nFacetIdx h0 h1 dfX dfY
  exact ⟨b, T, hr⟩

/-- C22, on the mesh with inconsistent links, whose two triangles send the point `(2, 2)` to
each other for ever. -/
theorem C22_directed_terminates_witness :
    (∃ (b : Bool) (T : Int),
      GDALTriangulationFindFacetDirected cyclicMeshComputed 0 2 2 = some (b, T)) ∧
    directedVisits cyclicMeshComputed.pasFacets [squareCoeffs0, squareCoeffs0] 2 2
      (2 + cyclicMeshComputed.pasFacets.length / 4) 0 = [0, 1] ∧
    walkAt cyclicMeshComputed.pasFacets [squareCoeffs0, squareCoeffs0] 2 2 0
      = some (WalkStep.move 1) ∧
    walkAt cyclicMeshComputed.pasFacets [squareCoeffs0, squareCoeffs0] 2 2 1
      = some (WalkStep.move 0) :=
  ⟨C22_directed_terminates cyclicMeshComputed [squareCoeffs0, squareCoeffs0] rfl rfl
      cyclicMesh_neighbors 0 (by decide) (by decide) 2 2,
    cyclic_visits,
    by
      simp [cyclicMeshComputed, squareCoeffs0, walkAt, directedBody, isDegenerate,
        BARYC_COORD_L1, BARYC_COORD_L2, BARYC_COORD_L3, EPS, readAt, squareFacet0]
      norm_num,
    by
      simp [cyclicMeshComputed, squareCoeffs0, walkAt, directedBody, isDegenerate,
        BARYC_COORD_L1, BARYC_COORD_L2, BARYC_COORD_L3, EPS, readAt, squareFacet0]
      norm_num⟩

/-! ## The steps of the walk -/

theorem directedBody_l2 (psCoeffs : GDALTriBarycentricCoefficients) (psFacet : GDALTriFacet)
    (dfX dfY : ℚ) (hd : ¬ isDegenerate psCoeffs)
    (h1 : -EPS ≤ BARYC_COORD_L1 psCoeffs dfX dfY)
    (h2 : BARYC_COORD_L2 psCoeffs dfX dfY < -EPS) :
    directedBody psCoeffs psFacet dfX dfY =
      if psFacet.anNeighborIdx 1 < 0 then WalkStep.ret false
      else WalkStep.move (psFacet.anNeighborIdx 1) := by
  unfold directedBody
  dsimp only
  rw [if_neg hd, if_neg (not_lt.2 h1), if_pos h2]

/-- C23, as amended: at a step of the walk at which `L1` does not trigger a move (the triangle
is not flagged degenerate and `L1 >= -EPS`) and `L2 < -EPS`, the walk moves to the neighbor
across edge 1 when the triangle has one, and when it has none the walk returns at once
`FALSE` with the current triangle as output index, without calling the brute-force scan; so
does the directed search started at such a triangle. -/
theorem C23_l2_step (psDT : GDALTriangulation)
    (coeffs : List GDALTriBarycentricCoefficients)
    (hC : psDT.pasFacetCoefficients = some coeffs) (dfX dfY : ℚ) (nFacetIdx : Int)
    (psCoeffs : GDALTriBarycentricCoefficients) (psFacet : GDALTriFacet)
    (hc : readAt coeffs nFacetIdx = some psCoeffs)
    (hf : readAt psDT.pasFacets nFacetIdx = some psFacet)
    (hd : ¬ isDegenerate psCoeffs)
    (h1 : -EPS ≤ BARYC_COORD_L1 psCoeffs dfX dfY)
    (h2 : BARYC_COORD_L2 psCoeffs dfX dfY < -EPS) :
    (0 ≤ psFacet.anNeighborIdx 1 → ∀ n : Nat,
      directedLoop psDT.pasFacets coeffs dfX dfY (n + 1) nFacetIdx
        = directedLoop psDT.pasFacets coeffs dfX dfY n (psFacet.anNeighborIdx 1)) ∧
    (psFacet.anNeighborIdx 1 < 0 → ∀ n : Nat,
      directedLoop psDT.pasFacets coeffs dfX dfY (n + 1) nFacetIdx
        = some (some (false, nFacetIdx))) ∧
    (psFacet.anNeighborIdx 1 < 0 →
      GDALTriangulationFindFacetDirected psDT nFacetIdx dfX dfY = some (false, nFacetIdx)) := by
  have hw : walkAt psDT.pasFacets coeffs dfX dfY nFacetIdx
      = some (if psFacet.anNeighborIdx 1 < 0 then WalkStep.ret false
          else WalkStep.move (psFacet.anNeighborIdx 1)) := by
    unfold walkAt
    rw [hc, hf]
    dsimp only
    rw [directedBody_l2 psCoeffs psFacet dfX dfY hd h1 h2]
  refine ⟨fun hnb n => ?_, fun hnb n => ?_, fun hnb => ?_⟩
  · rw [directedLoop_succ, hw, if_neg (not_lt.2 hnb)]
  · rw [directedLoop_succ, hw, if_pos hnb]
  · unfold GDALTriangulationFindFacetDirected
    rw [hC]
    dsimp only
    have hfuel : 2 + psDT.pasFacets.length / 4 = (1 + psDT.pasFacets.length / 4) + 1 := by
      omega
    rw [hfuel, directedLoop_succ, hw, if_pos hnb]

theorem cornerMesh_compute :
    GDALTriangulationComputeBarycentricCoefficients true cornerMesh squareX squareY
      = some (true, cornerMeshComputed) := by
  simp [GDALTriangulationComputeBarycentricCoefficients, cornerMesh, computeCoefficientsLoop,
    computeFacetCoefficients, readAt, squareX, squareY, computeCoefficients,
    cornerMeshComputed, squareCoeffs0]
  norm_num

/-- C23 as stated fails on the unit square listed with its upper right triangle first. For
the point `(-1/2, 3/2)` and the walk started at triangle 1, `L1 = 0` is in range, `L2 = -1/2`
is below `-EPS` and there is no neighbor across edge 1: the directed search returns `FALSE`
with the index 1, and the brute-force scan returns `FALSE` with the index 0. -/
theorem C23_counterexample :
    GDALTriangulationComputeBarycentricCoefficients true cornerMesh squareX squareY
      = some (true, cornerMeshComputed) ∧
    BARYC_COORD_L1 squareCoeffs0 (-1 / 2) (3 / 2) = 0 ∧
    BARYC_COORD_L2 squareCoeffs0 (-1 / 2) (3 / 2) < -EPS ∧
    readAt cornerMeshComputed.pasFacets 1
      = some { anVertexIdx := ![0, 1, 2], anNeighborIdx := ![0, -1, -1] } ∧
    GDALTriangulationFindFacetDirected cornerMeshComputed 1 (-1 / 2) (3 / 2)
      = some (false, 1) ∧
    GDALTriangulationFindFacetBruteForce cornerMeshComputed (-1 / 2) (3 / 2)
      = some (false, 0) := by
  refine ⟨cornerMesh_compute, ?_, ?_, rfl, ?_, ?_⟩
  · norm_num [BARYC_COORD_L1, squareCoeffs0]
  · norm_num [BARYC_COORD_L2, squareCoeffs0, EPS]
  · simp [GDALTriangulationFindFacetDirected, cornerMeshComputed, squareCoeffs0, directedLoop,
      directedBody, isDegenerate, BARYC_COORD_L1, BARYC_COORD_L2, BARYC_COORD_L3, EPS, readAt]
    norm_num
  · simp [GDALTriangulationFindFacetBruteForce, cornerMeshComputed, squareCoeffs0,
      bruteForceLoop, bruteForceBody, isDegenerate, BARYC_COORD_L1, BARYC_COORD_L2,
      BARYC_COORD_L3, EPS]
    norm_num

/-- C23 as amended, on the same mesh and point: the directed search started at triangle 1
returns `FALSE` with the index 1. -/
theorem C23_l2_step_witness :
    GDALTriangulationFindFacetDirected cornerMeshComputed 1 (-1 / 2) (3 / 2)
      = some (false, 1) :=
  (C23_l2_step cornerMeshComputed _ rfl (-1 / 2) (3 / 2) 1 squareCoeffs0
    { anVertexIdx := ![0, 1, 2], anNeighborIdx := ![0, -1, -1] } rfl rfl
    (by norm_num [isDegenerate, squareCoeffs0])
    (by norm_num [BARYC_COORD_L1, squareCoeffs0, EPS])
    (by norm_num [BARYC_COORD_L2, squareCoeffs0, EPS])).2.2 (by decide)

/-- C24, as amended: the walk moves to a neighbor exactly when the triangle is not flagged
degenerate and, for the first `k` in the order 0, 1, 2 whose coordinate `Lk` is below `-EPS`
(every coordinate before it is at least `-EPS`), the triangle has a neighbor across edge `k`;
it moves to that neighbor, whatever the values of the later coordinates. -/
theorem C24_first_negative_edge (psCoeffs : GDALTriBarycentricCoefficients)
    (psFacet : GDALTriFacet) (dfX dfY : ℚ) (neighbor : Int) :
    directedBody psCoeffs psFacet dfX dfY = WalkStep.move neighbor ↔
      ¬ isDegenerate psCoeffs ∧
      ∃ k : Fin 3, barycentric psCoeffs dfX dfY k < -EPS ∧
        (∀ j : Fin 3, j < k → -EPS ≤ barycentric psCoeffs dfX dfY j) ∧
        psFacet.anNeighborIdx k = neighbor ∧ 0 ≤ neighbor := by
  unfold directedBody
  dsimp only
  constructor
  · intro h
    by_cases hd : isDegenerate psCoeffs
    · simp [hd] at h
    · refine ⟨hd, ?_⟩
      rw [if_neg hd] at h
      by_cases h1 : BARYC_COORD_L1 psCoeffs dfX dfY < -EPS
      · rw [if_pos h1] at h
        split_ifs at h with g
        cases h
        exact ⟨0, h1, fun j hj => absurd hj (by omega), rfl, not_lt.1 g⟩
      · rw [if_neg h1] at h
        by_cases h2 : BARYC_COORD_L2 psCoeffs dfX dfY < -EPS
        · rw [if_pos h2] at h
          split_ifs at h with g
          cases h
          refine ⟨1, h2, fun j hj => ?_, rfl, not_lt.1 g⟩
          have hj0 : j = 0 := by omega
          subst hj0
          exact not_lt.1 h1
        · rw [if_neg h2] at h
          by_cases h3 : BARYC_COORD_L3 (BARYC_COORD_L1 psCoeffs dfX dfY)
              (BARYC_COORD_L2 psCoeffs dfX dfY) < -EPS
          · rw [if_pos h3] at h
            split_ifs at h with g
            cases h
            refine ⟨2, h3, fun j hj => ?_, rfl, not_lt.1 g⟩
            have hj01 : j = 0 ∨ j = 1 := by omega
            rcases hj01 with rfl | rfl
            · exact not_lt.1 h1
            · exact not_lt.1 h2
          · rw [if_neg h3] at h
            split_ifs at h
  · rintro ⟨hd, k, hk, hbefore, hnb, h0⟩
    subst hnb
    rw [if_neg hd]
    fin_cases k
    · have h1 : BARYC_COORD_L1 psCoeffs dfX dfY < -EPS := hk
      have g : ¬ psFacet.anNeighborIdx 0 < 0 := not_lt.2 h0
      rw [if_pos h1, if_neg g]
      rfl
    · have h1 : -EPS ≤ BARYC_COORD_L1 psCoeffs dfX dfY := hbefore 0 (by decide)
      have h2 : BARYC_COORD_L2 psCoeffs dfX dfY < -EPS := hk
      have g : ¬ psFacet.anNeighborIdx 1 < 0 := not_lt.2 h0
      rw [if_neg (not_lt.2 h1), if_pos h2, if_neg g]
      rfl
    · have h1 : -EPS ≤ BARYC_COORD_L1 psCoeffs dfX dfY := hbefore 0 (by decide)
      have h2 : -EPS ≤ BARYC_COORD_L2 psCoeffs dfX dfY := hbefore 1 (by decide)
      have h3 : BARYC_COORD_L3 (BARYC_COORD_L1 psCoeffs dfX dfY)
          (BARYC_COORD_L2 psCoeffs dfX dfY) < -EPS := hk
      have g : ¬ psFacet.anNeighborIdx 2 < 0 := not_lt.2 h0
      rw [if_neg (not_lt.2 h1), if_neg (not_lt.2 h2), if_pos h3, if_neg g]
      rfl

/-- C24 as stated fails on the lower left triangle of the unit square with the neighbor 1
across its first edge and the neighbor 2 across its second edge. For the point `(-2, 7/2)` the
coordinates are `L1 = -1/2`, `L2 = -2`, `L3 = 7/2`: the most negative one is `L2`, and the walk
moves across edge 0, to the neighbor 1. -/
theorem C24_counterexample :
    barycentric squareCoeffs0 (-2) (7 / 2) 0 = -1 / 2 ∧
    barycentric squareCoeffs0 (-2) (7 / 2) 1 = -2 ∧
    barycentric squareCoeffs0 (-2) (7 / 2) 2 = 7 / 2 ∧
    barycentric squareCoeffs0 (-2) (7 / 2) 1 < barycentric squareCoeffs0 (-2) (7 / 2) 0 ∧
    barycentric squareCoeffs0 (-2) (7 / 2) 0 < -EPS ∧
    fanFacet.anNeighborIdx 0 = 1 ∧ fanFacet.anNeighborIdx 1 = 2 ∧
    directedBody squareCoeffs0 fanFacet (-2) (7 / 2) = WalkStep.move 1 := by
  refine ⟨?_, ?_, ?_, ?_, ?_, rfl, rfl, ?_⟩
  · norm_num [barycentric, BARYC_COORD_L1, squareCoeffs0]
  · norm_num [barycentric, BARYC_COORD_L2, squareCoeffs0]
  · norm_num [barycentric, BARYC_COORD_L1, BARYC_COORD_L2, BARYC_COORD_L3, squareCoeffs0]
  · norm_num [barycentric, BARYC_COORD_L1, BARYC_COORD_L2, squareCoeffs0]
  · norm_num [barycentric, BARYC_COORD_L1, squareCoeffs0, EPS]
  · simp [directedBody, isDegenerate, BARYC_COORD_L1, BARYC_COORD_L2, BARYC_COORD_L3, EPS,
      squareCoeffs0, fanFacet]
    norm_num

/-- C25: on a triangulation with computed coefficients, one per triangle, in which every
neighbor index is below `J`, from every start index in `[0, J)` and for every query point,
every triangle index at which the walk addresses a facet and its coefficients lies in
`[0, J)`, the directed search returns without a read outside the arrays (the scan it may fall
back to reads the triangles `0 .. J-1` only), and the index it outputs is `-1` or lies in
`[0, J)`. -/
theorem C25_index_safety (psDT : GDALTriangulation)
    (coeffs : List GDALTriBarycentricCoefficients)
    (hC : psDT.pasFacetCoefficients = some coeffs)
    (hLen : coeffs.length = psDT.pasFacets.length) (hNb : NeighborIndicesInRange psDT)
    (nFacetIdx : Int) (h0 : 0 ≤ nFacetIdx) (h1 : nFacetIdx < psDT.nFacets) (dfX dfY : ℚ) :
    (∀ i ∈ directedVisits psDT.pasFacets coeffs dfX dfY (2 + psDT.pasFacets.length / 4)
        nFacetIdx, 0 ≤ i ∧ i < psDT.nFacets) ∧
    ∃ (b : Bool) (T : Int),
      GDALTriangulationFindFacetDirected psDT nFacetIdx dfX dfY = some (b, T) ∧
      (T = -1 ∨ (0 ≤ T ∧ T < psDT.nFacets)) := by
  constructor
  · exact directedVisits_range psDT.pasFacets coeffs hNb dfX dfY _ nFacetIdx h0 h1
  · obtain ⟨⟨b, T⟩, hr⟩ := directed_isSome psDT coeffs hC hLen hNb nFacetIdx h0 h1 dfX dfY
    refine ⟨b, T, hr, ?_⟩
    rcases directed_cases psDT coeffs hC nFacetIdx dfX dfY _ hr with hw | ⟨_, hb⟩
    · obtain ⟨t, c, f, hT, _, hf, _⟩ := directedLoop_ret_spec _ _ _ _ _ _ _ _ hw
      have hlt : t < psDT.pasFacets.length := (List.getElem?_eq_some.1 hf).1
      right
      unfold GDALTriangulation.nFacets
      omega
    · exact bruteForce_index_range psDT coeffs hC dfX dfY b T hb

/-- C25, on the unit square, for the walk started at triangle 0 towards the point `(2, 2)`. -/
theorem C25_index_safety_witness :
    (∀ i ∈ directedVisits squareMeshComputed.pasFacets squareCoeffs 2 2
        (2 + squareMeshComputed.pasFacets.length / 4) 0,
      0 ≤ i ∧ i < squareMeshComputed.nFacets) ∧
    ∃ (b : Bool) (T : Int),
      GDALTriangulationFindFacetDirected squareMeshComputed 0 2 2 = some (b, T) ∧
      (T = -1 ∨ (0 ≤ T ∧ T < squareMeshComputed.nFacets)) :=
  C25_index_safety squareMeshComputed squareCoeffs rfl rfl squareMesh_neighbors 0 (by decide)
    (by decide) 2 2

/-! ## The degeneracy test and the flag -/

theorem isDegenerate_computeCoefficients_iff (x1 y1 x2 y2 x3 y3 : ℚ) :
    isDegenerate (computeCoefficients x1 y1 x2 y2 x3 y3) ↔
      |denom x1 y1 x2 y2 x3 y3| < 1 / 100000 := by
  by_cases hlt : |denom x1 y1 x2 y2 x3 y3| < 1 / 100000
  · rw [computeCoefficients_of_lt hlt]
    exact ⟨fun _ => hlt, fun _ => ⟨rfl, rfl, rfl, rfl⟩⟩
  · have hle : 1 / 100000 ≤ |denom x1 y1 x2 y2 x3 y3| := not_lt.1 hlt
    rw [computeCoefficients_of_le hle]
    constructor
    · rintro ⟨g1, g2, g3, g4⟩
      exfalso
      have hd : denom x1 y1 x2 y2 x3 y3 ≠ 0 := by
        intro h0
        rw [h0] at hle
        norm_num at hle
      dsimp only at g1 g2 g3 g4
      have e1 : y2 - y3 = 0 := by
        rcases div_eq_zero_iff.1 g1 with h | h
        · exact h
        · exact absurd h hd
      have e2 : x1 - x3 = 0 := by
        rcases div_eq_zero_iff.1 g4 with h | h
        · exact h
        · exact absurd h hd
      have e3 : x3 - x2 = 0 := by
        rcases div_eq_zero_iff.1 g3 with h | h
        · exact h
        · exact absurd h hd
      apply hd
      unfold denom
      rw [e1, e3]
      ring
    · intro h
      exact absurd h hlt

/-- C26: for the coefficients that `ComputeCoefficients` produces (exact arithmetic), the
record of a triangle passes the degeneracy test of the locators, all four multipliers equal to
zero, if and only if the triangle has `|denom| < 1e-5`; so no triangle with `|denom| >= 1e-5`
has its four multipliers equal to zero. -/
theorem C26_degeneracy_test_agrees (psDT : GDALTriangulation) (padfX padfY : List ℚ)
    (hNone : psDT.pasFacetCoefficients = none)
    (hIdx : VertexIndicesInRange psDT padfX padfY) :
    ∃ coeffs,
      GDALTriangulationComputeBarycentricCoefficients true psDT padfX padfY
        = some (true, { psDT with pasFacetCoefficients := some coeffs }) ∧
      ∀ (i : Nat) (psFacet : GDALTriFacet) (x1 y1 x2 y2 x3 y3 : ℚ),
        psDT.pasFacets[i]? = some psFacet →
        readAt padfX (psFacet.anVertexIdx 0) = some x1 →
        readAt padfY (psFacet.anVertexIdx 0) = some y1 →
        readAt padfX (psFacet.anVertexIdx 1) = some x2 →
        readAt padfY (psFacet.anVertexIdx 1) = some y2 →
        readAt padfX (psFacet.anVertexIdx 2) = some x3 →
        readAt padfY (psFacet.anVertexIdx 2) = some y3 →
        ∃ psCoeffs, coeffs[i]? = some psCoeffs ∧
          ((psCoeffs.dfMul1X = 0 ∧ psCoeffs.dfMul2X = 0 ∧ psCoeffs.dfMul1Y = 0 ∧
              psCoeffs.dfMul2Y = 0) ↔ |denom x1 y1 x2 y2 x3 y3| < 1 / 100000) ∧
          (isDegenerate psCoeffs ↔ |denom x1 y1 x2 y2 x3 y3| < 1 / 100000) := by
  obtain ⟨coeffs, hRun, _, hGet⟩ := compute_spec psDT padfX padfY hNone hIdx
  refine ⟨coeffs, hRun, ?_⟩
  intro i psFacet x1 y1 x2 y2 x3 y3 hF h1 h2 h3 h4 h5 h6
  obtain ⟨c, hc, hci⟩ := hGet i psFacet hF
  obtain ⟨a1, b1, a2, b2, a3, b3, g1, g2, g3, g4, g5, g6, hEq⟩ :=
    computeFacetCoefficients_eq_some hc
  rw [h1] at g1; rw [h2] at g2; rw [h3] at g3; rw [h4] at g4; rw [h5] at g5; rw [h6] at g6
  cases g1; cases g2; cases g3; cases g4; cases g5; cases g6
  subst hEq
  exact ⟨_, hci, isDegenerate_computeCoefficients_iff x1 y1 x2 y2 x3 y3,
    isDegenerate_computeCoefficients_iff x1 y1 x2 y2 x3 y3⟩

/-- C26, on the unit square: the record of triangle 0, whose `denom` is 1, does not pass the
degeneracy test. -/
theorem C26_degeneracy_test_agrees_witness :
    ∃ coeffs,
      GDALTriangulationComputeBarycentricCoefficients true squareMesh squareX squareY
        = some (true, { squareMesh with pasFacetCoefficients := some coeffs }) ∧
      ∃ psCoeffs, coeffs[0]? = some psCoeffs ∧
        (isDegenerate psCoeffs ↔ |denom 0 0 1 0 0 1| < 1 / 100000) ∧
        ¬ isDegenerate psCoeffs := by
  obtain ⟨coeffs, hRun, hAll⟩ :=
    C26_degeneracy_test_agrees squareMesh squareX squareY rfl squareMesh_indices
  obtain ⟨c, hc, _, hiff⟩ := hAll 0 squareFacet0 0 0 1 0 0 1 rfl rfl rfl rfl rfl rfl rfl
  refine ⟨coeffs, hRun, c, hc, hiff, ?_⟩
  rw [hiff]
  norm_num [denom]

/-! ## The line string check of the DB2 geometry validator -/

/-- The loop of `ValidateLineString` entered with a first vertex already copied: it never
changes `poPoint0`, and it sets `bResult` exactly when a remaining vertex differs from it in
`x` or `y`. -/
theorem validateLineStringLoop_some (pts : List OGRPoint) (p0 : OGRPoint) :
    (validateLineStringLoop pts (some p0)).2 = some p0 ∧
    ((validateLineStringLoop pts (some p0)).1 = true ↔
      ∃ pt ∈ pts, pt.x ≠ p0.x ∨ pt.y ≠ p0.y) := by
  induction pts with
  | nil => simp [validateLineStringLoop]
  | cons pt rest ih =>
    unfold validateLineStringLoop
    by_cases h : p0.x = pt.x ∧ p0.y = pt.y
    · rw [if_pos h]
      refine ⟨ih.1, ?_⟩
      rw [ih.2]
      constructor
      · rintro ⟨q, hq, hne⟩
        exact ⟨q, List.mem_cons_of_mem _ hq, hne⟩
      · rintro ⟨q, hq, hne⟩
        rcases List.mem_cons.1 hq with rfl | hq
        · exfalso
          rcases hne with hne | hne
          · exact hne h.1.symm
          · exact hne h.2.symm
        · exact ⟨q, hq, hne⟩
    · rw [if_neg h]
      refine ⟨rfl, ?_⟩
      simp only [true_iff]
      refine ⟨pt, List.mem_cons_self _ _, ?_⟩
      by_contra hcon
      push_neg at hcon
      exact h ⟨hcon.1.symm, hcon.2.symm⟩

/-- C29: `ValidateLineString` returns TRUE exactly when some vertex of the line string differs
in `x` or in `y` from the first vertex; when it returns FALSE the member `poValidGeometry` is,
after the call, a point equal to the first vertex if the line string has one, and `NULL` if
the line string is empty; when it returns TRUE the member is unchanged. -/
theorem C29_validate_line_string (poValidGeometry : Option ValidGeometry)
    (poGeom : OGRLineString) :
    ((ValidateLineString poValidGeometry poGeom).1 = true ↔
      ∃ first, poGeom.head? = some first ∧ ∃ pt ∈ poGeom, pt.x ≠ first.x ∨ pt.y ≠ first.y) ∧
    ((ValidateLineString poValidGeometry poGeom).1 = false →
      (ValidateLineString poValidGeometry poGeom).2
        = (poGeom.head?).map ValidGeometry.point) ∧
    ((ValidateLineString poValidGeometry poGeom).1 = true →
      (ValidateLineString poValidGeometry poGeom).2 = poValidGeometry) := by
  cases poGeom with
  | nil => simp [ValidateLineString, validateLineStringLoop]
  | cons p0 rest =>
    have hs := validateLineStringLoop_some rest p0
    have hstep : validateLineStringLoop (p0 :: rest) none
        = validateLineStringLoop rest (some p0) := by
      simp [validateLineStringLoop]
    unfold ValidateLineString
    rw [hstep]
    rcases hres : validateLineStringLoop rest (some p0) with ⟨b, q⟩
    rw [hres] at hs
    obtain ⟨hq, hb⟩ := hs
    simp only at hq hb
    subst hq
    cases b with
    | false =>
      have hno : ¬ ∃ pt ∈ rest, pt.x ≠ p0.x ∨ pt.y ≠ p0.y := by
        intro hex
        have := hb.2 hex
        simp at this
      refine ⟨?_, ?_, ?_⟩
      · simp only [List.head?_cons, Option.some.injEq, exists_eq_left', Bool.false_eq_true,
          false_iff]
        rintro ⟨pt, hpt, hne⟩
        rcases List.mem_cons.1 hpt with rfl | hpt
        · rcases hne with hne | hne <;> exact hne rfl
        · exact hno ⟨pt, hpt, hne⟩
      · intro _
        simp
      · intro h
        simp at h
    | true =>
      obtain ⟨pt, hpt, hne⟩ := hb.1 rfl
      refine ⟨?_, ?_, ?_⟩
      · simp only [List.head?_cons, Option.some.injEq, exists_eq_left', true_iff]
        exact ⟨pt, List.mem_cons_of_mem _ hpt, hne⟩
      · intro h
        simp at h
      · intro _
        rfl


/-! ## Argument validation of `LayerFields::reorder` -/

/-- An integer in the range of the C `int` goes unchanged through the conversions of line 370. -/
theorem toInt_toInt64_intCast (k : Int) (h1 : -(2 : Int) ^ 31 ≤ k) (h2 : k < (2 : Int) ^ 31) :
    toInt (toInt64 (k : ℚ)) = k := by
  have e : toInt64 (k : ℚ) = k := by
    unfold toInt64
    rw [Rat.num_intCast, Rat.den_intCast]
    simp only [Nat.cast_one, Int.tdiv_one]
    omega
  rw [e]
  unfold toInt
  rw [Int.emod_eq_of_lt (by omega) (by omega)]
  omega

/-- On an array of integers in the range of the C `int`, the loop of `reorder` produces the
array itself when every entry lies in `[0, n - 1]` and throws otherwise. -/
theorem reorderLoop_intCast (n : Int) (ks : List Int)
    (hr : ∀ k ∈ ks, -(2 : Int) ^ 31 ≤ k ∧ k < (2 : Int) ^ 31) (acc : List Int) :
    reorderLoop n (ks.map fun k : Int => JSValue.number (k : ℚ)) acc
      = if ∀ k ∈ ks, 0 ≤ k ∧ k < n then Except.ok (acc ++ ks)
        else Except.error "Values must be between 0 and field count - 1" := by
  induction ks generalizing acc with
  | nil => simp [reorderLoop]
  | cons k rest ih =>
    have hk := hr k (List.mem_cons_self _ _)
    have hrest : ∀ j ∈ rest, -(2 : Int) ^ 31 ≤ j ∧ j < (2 : Int) ^ 31 :=
      fun j hj => hr j (List.mem_cons_of_mem _ hj)
    simp only [List.map_cons, reorderLoop, toInt_toInt64_intCast k hk.1 hk.2]
    by_cases hin : k < 0 ∨ k ≥ n
    · rw [if_pos hin, if_neg]
      intro hall
      have := hall k (List.mem_cons_self _ _)
      omega
    · rw [if_neg hin, ih hrest]
      have hk2 : 0 ≤ k ∧ k < n := by omega
      by_cases hall : ∀ j ∈ rest, 0 ≤ j ∧ j < n
      · rw [if_pos hall, if_pos]
        · simp
        · intro j hj
          rcases List.mem_cons.1 hj with rfl | hj
          · exact hk2
          · exact hall j hj
      · rw [if_neg hall, if_neg]
        intro h
        exact hall fun j hj => h j (List.mem_cons_of_mem _ hj)

/-- The loop of `reorder` throws on an array that holds an element that is not a number. -/
theorem reorderLoop_other (n : Int) (field_map : List JSValue) (h : JSValue.other ∈ field_map) :
    ∀ acc : List Int, ∃ message, reorderLoop n field_map acc = Except.error message := by
  induction field_map with
  | nil => simp at h
  | cons val rest ih =>
    intro acc
    cases val with
    | other => exact ⟨_, rfl⟩
    | number v =>
      have hrest : JSValue.other ∈ rest := by
        rcases List.mem_cons.1 h with h | h
        · exact JSValue.noConfusion h
        · exact h
      unfold reorderLoop
      simp only
      split_ifs
      · exact ⟨_, rfl⟩
      · exact ih hrest _

/-- The length of an array of the engine, below `2 ^ 32`, equals a field count as a C `int`
only if it is that count. -/
theorem toInt_length_eq (len n : Nat) (hlen : len < 2 ^ 32) (h : toInt (len : Int) = (n : Int)) :
    len = n := by
  unfold toInt at h
  omega

/-- C30 fails for a number outside the range of the C `int`: line 370 stores the `int64_t`
value of the element in an `int` before the test of line 371. For a layer with one field and
the map `[4294967296]`, whose entry is not below the field count, the stored key is 0, nothing
is thrown and `ReorderFields` is called with the array `[0]`. The rest of the validation is
the one described: with `n` fields, an array of another length throws, an array that holds an
element that is not a number throws, and for an array of integers within the range of `int`,
`ReorderFields` is called, with the array itself, exactly when the length is `n` and every
entry lies in `[0, n - 1]`, an error being thrown without the call otherwise. -/
theorem C30_reorder_narrowing :
    (∀ ReorderFields : List Int → Int,
      reorder true true (some [JSValue.number 4294967296]) 1 ReorderFields
        = ReorderOutcome.called [0] (ReorderFields [0])) ∧
    (∀ (n : Nat) (field_map : List JSValue) (ReorderFields : List Int → Int),
      field_map.length < 2 ^ 32 → field_map.length ≠ n →
      reorder true true (some field_map) n ReorderFields
        = ReorderOutcome.threw "Array length must match field count") ∧
    (∀ (n : Nat) (field_map : List JSValue) (ReorderFields : List Int → Int),
      field_map.length < 2 ^ 32 → JSValue.other ∈ field_map →
      ∃ message, reorder true true (some field_map) n ReorderFields
        = ReorderOutcome.threw message) ∧
    (∀ (n : Nat) (ks : List Int) (ReorderFields : List Int → Int),
      (n : Int) < 2 ^ 31 → ks.length < 2 ^ 31 →
      (∀ k ∈ ks, -(2 : Int) ^ 31 ≤ k ∧ k < (2 : Int) ^ 31) →
      (ks.length = n ∧ (∀ k ∈ ks, 0 ≤ k ∧ k < (n : Int)) →
        reorder true true (some (ks.map fun k : Int => JSValue.number (k : ℚ))) n ReorderFields
          = ReorderOutcome.called ks (ReorderFields ks)) ∧
      (¬ (ks.length = n ∧ ∀ k ∈ ks, 0 ≤ k ∧ k < (n : Int)) →
        ∃ message,
          reorder true true (some (ks.map fun k : Int => JSValue.number (k : ℚ))) n
              ReorderFields
            = ReorderOutcome.threw message)) := by
  refine ⟨?_, ?_, ?_, ?_⟩
  · intro ReorderFields
    simp [reorder, reorderLoop, toInt, toInt64]
  · intro n field_map ReorderFields hlen hne
    unfold reorder
    simp only [Bool.not_true, Bool.false_eq_true, if_false]
    rw [if_pos (fun h => hne (toInt_length_eq _ _ hlen h))]
  · intro n field_map ReorderFields hlen hmem
    unfold reorder
    simp only [Bool.not_true, Bool.false_eq_true, if_false]
    by_cases hl : toInt (field_map.length : Int) = (n : Int)
    · rw [if_neg (not_not.2 hl)]
      have hl2 := toInt_length_eq _ _ hlen hl
      have htake : field_map.take (n : Int).toNat = field_map := by
        rw [Int.toNat_natCast, ← hl2]
        exact List.take_of_length_le (le_refl _)
      rw [htake]
      obtain ⟨message, hm⟩ := reorderLoop_other n field_map hmem []
      rw [hm]
      exact ⟨_, rfl⟩
    · rw [if_pos hl]
      exact ⟨_, rfl⟩
  · intro n ks ReorderFields hn hlen hr
    have hlenInt : toInt ((ks.map fun k : Int => JSValue.number (k : ℚ)).length : Int)
        = (ks.length : Int) := by
      rw [List.length_map]
      unfold toInt
      rw [Int.emod_eq_of_lt (by omega) (by omega)]
      omega
    constructor
    · rintro ⟨hl, hall⟩
      unfold reorder
      simp only [Bool.not_true, Bool.false_eq_true, if_false]
      rw [hlenInt, if_neg (by simp [hl])]
      have htake : (ks.map fun k : Int => JSValue.number (k : ℚ)).take (n : Int).toNat
          = ks.map fun k : Int => JSValue.number (k : ℚ) := by
        rw [Int.toNat_natCast, ← hl]
        exact List.take_of_length_le (by simp)
      rw [htake, reorderLoop_intCast n ks hr [], if_pos hall]
      simp
    · intro hnot
      unfold reorder
      simp only [Bool.not_true, Bool.false_eq_true, if_false]
      rw [hlenInt]
      by_cases hl : ks.length = n
      · rw [if_neg (by simp [hl])]
        have htake : (ks.map fun k : Int => JSValue.number (k : ℚ)).take (n : Int).toNat
            = ks.map fun k : Int => JSValue.number (k : ℚ) := by
          rw [Int.toNat_natCast, ← hl]
          exact List.take_of_length_le (by simp)
        rw [htake, reorderLoop_intCast n ks hr [], if_neg (fun hall => hnot ⟨hl, hall⟩)]
        exact ⟨_, rfl⟩
      · rw [if_pos (by exact_mod_cast hl)]
        exact ⟨_, rfl⟩

/-! ## Splitting of a VFK record -/

/-- Behind a prefix, the first character of the rest is read. -/
theorem charAt_append_length (pre r : List Char) :
    charAt (pre ++ r) pre.length = r.headD NUL := by
  unfold charAt
  rw [List.getD_eq_getElem?_getD, List.getElem?_append_right (le_refl _)]
  cases r with
  | nil => simp
  | cons c r => simp

/-- The name of the data block is skipped up to the first `;`. -/
theorem skipName_append (name rest : List Char) (hn1 : ';' ∉ name) (hn0 : NUL ∉ name) :
    skipName (name ++ ';' :: rest) = name.length := by
  induction name with
  | nil => simp [skipName]
  | cons c cs ih =>
    have hc1 : c ≠ ';' := fun h => hn1 (h ▸ List.mem_cons_self _ _)
    have hc0 : c ≠ NUL := fun h => hn0 (h ▸ List.mem_cons_self _ _)
    have := ih (fun h => hn1 (List.mem_cons_of_mem _ h)) (fun h => hn0 (List.mem_cons_of_mem _ h))
    simp [skipName, hc1, hc0, this]

/-- In a line without `;` the skip of the name ends at the terminator. -/
theorem skipName_no_semicolon (s : List Char) (h : ';' ∉ s) :
    charAt s (skipName s) = NUL := by
  induction s with
  | nil => simp [skipName, charAt]
  | cons c cs ih =>
    have hc1 : c ≠ ';' := fun e => h (e ▸ List.mem_cons_self _ _)
    have ih2 := ih (fun e => h (List.mem_cons_of_mem _ e))
    unfold skipName
    by_cases hc : c = NUL ∨ c = ';'
    · rw [if_pos hc]
      rcases hc with hc | hc
      · simp [charAt, hc]
      · exact absurd hc hc1
    · rw [if_neg hc]
      simpa [charAt] using ih2

/-- A string without quotes and without terminator is copied as it is by the loop that drops
extra quotes. -/
theorem stripLoop_plain (r : List Char) (h0 : NUL ∉ r) (hq : QUOTE ∉ r) :
    ∀ (pre : List Char) (fuel : Nat) (acc : List Char), r.length < fuel →
      stripLoop (pre ++ r) fuel pre.length acc = some (acc ++ r) := by
  induction r with
  | nil =>
    intro pre fuel acc hf
    cases fuel with
    | zero => simp at hf
    | succ f =>
      unfold stripLoop
      rw [charAt_append_length]
      simp
  | cons c r ih =>
    intro pre fuel acc hf
    have hc0 : c ≠ NUL := fun e => h0 (e ▸ List.mem_cons_self _ _)
    have hcq : c ≠ QUOTE := fun e => hq (e ▸ List.mem_cons_self _ _)
    cases fuel with
    | zero => simp at hf
    | succ f =>
      unfold stripLoop
      rw [charAt_append_length]
      simp only [List.headD_cons]
      rw [if_neg hc0, if_neg hcq]
      have e : pre ++ c :: r = (pre ++ [c]) ++ r := by simp
      have := ih (fun e => h0 (List.mem_cons_of_mem _ e)) (fun e => hq (List.mem_cons_of_mem _ e))
        (pre ++ [c]) f (acc ++ [c]) (by simpa using hf)
      rw [e]
      simpa using this


/-- The copy of a property that holds no terminator is the property itself. -/
theorem copyProp_eq (pre cur r : List Char) (h : NUL ∉ cur) :
    copyProp (pre ++ cur ++ r) pre.length cur.length = cur := by
  unfold copyProp
  have e : ((pre ++ cur ++ r).drop pre.length).take cur.length = cur := by
    rw [List.append_assoc, List.drop_left, List.take_left]
  rw [e, List.takeWhile_eq_self_iff]
  intro x hx
  have : x ≠ NUL := fun e => h (e ▸ hx)
  simpa using this

/-- On a string without quotes and without terminator, the loop that reads the properties,
entered outside a string with the property `cur` being read behind the prefix `pre`, ends
outside a string, and the list it leaves, completed with the last property, is the list it
started with followed by the fields that the rest of the string is split into at `;`, the
first of them being appended to `cur`. -/
theorem parseLoop_plain (r : List Char) (h0 : NUL ∉ r) (hq : QUOTE ∉ r) :
    ∀ (pre cur : List Char) (fuel : Nat) (st : ParseState), r.length < fuel → NUL ∉ cur →
      st.poChar = pre.length + cur.length → st.poProp = pre.length →
      st.nLength = cur.length → st.inString = false →
      ∃ st1, parseLoop (pre ++ cur ++ r) fuel st = some st1 ∧ st1.inString = false ∧
        st1.oPropList ++ [copyProp (pre ++ cur ++ r) st1.poProp st1.nLength]
          = st.oPropList ++ List.splitOnP.go (fun c => c == ';') r cur.reverse := by
  induction r with
  | nil =>
    intro pre cur fuel st hf hcur hpc hpp hnl his
    cases fuel with
    | zero => simp at hf
    | succ f =>
      have hchar : charAt (pre ++ cur ++ []) st.poChar = NUL := by
        rw [hpc, ← List.length_append, charAt_append_length]
        rfl
      refine ⟨st, ?_, his, ?_⟩
      · unfold parseLoop
        rw [if_pos hchar]
      · rw [hpp, hnl, copyProp_eq pre cur [] hcur]
        simp [List.splitOnP.go]
  | cons c r ih =>
    intro pre cur fuel st hf hcur hpc hpp hnl his
    have hc0 : c ≠ NUL := fun e => h0 (e ▸ List.mem_cons_self _ _)
    have hcq : c ≠ QUOTE := fun e => hq (e ▸ List.mem_cons_self _ _)
    have h0r : NUL ∉ r := fun e => h0 (List.mem_cons_of_mem _ e)
    have hqr : QUOTE ∉ r := fun e => hq (List.mem_cons_of_mem _ e)
    cases fuel with
    | zero => simp at hf
    | succ f =>
      have hf2 : r.length < f := by simpa using hf
      have hchar : charAt (pre ++ cur ++ c :: r) st.poChar = c := by
        rw [hpc, ← List.length_append, charAt_append_length]
        rfl
      have hquote : parseQuote (pre ++ cur ++ c :: r) st = (false, st) := by
        unfold parseQuote
        rw [if_neg]
        rw [hchar]
        simp [hcq]
      unfold parseLoop
      rw [if_neg (by rw [hchar]; exact hc0), hquote]
      simp only
      by_cases hsemi : c = ';'
      · subst hsemi
        have hstep : parseChar (pre ++ cur ++ ';' :: r) st
            = { st with oPropList := st.oPropList ++ [cur],
                        poProp := st.poChar + 1, poChar := st.poChar + 1, nLength := 0,
                        nQuotes := 0 } := by
          unfold parseChar
          rw [if_pos ⟨hchar, his⟩, hpp, hnl, copyProp_eq pre cur _ hcur]
        rw [hstep]
        have e : pre ++ cur ++ ';' :: r = (pre ++ cur ++ [';']) ++ [] ++ r := by simp
        obtain ⟨st1, h1, h2, h3⟩ := ih h0r hqr (pre ++ cur ++ [';']) [] f
          { st with oPropList := st.oPropList ++ [cur],
                    poProp := st.poChar + 1, poChar := st.poChar + 1, nLength := 0,
                    nQuotes := 0 }
          hf2 (by simp) (by simp [hpc]; omega) (by simp [hpc]; omega) rfl his
        rw [e]
        refine ⟨st1, h1, h2, ?_⟩
        rw [h3]
        simp [List.splitOnP.go]
      · have hstep : parseChar (pre ++ cur ++ c :: r) st
            = { st with nQuotes := st.nQuotes,
                        poChar := st.poChar + 1, nLength := st.nLength + 1 } := by
          unfold parseChar
          rw [if_neg (by rw [hchar]; exact fun h => hsemi h.1)]
          rw [if_neg (by rw [hchar]; exact fun h => hcq h.1)]
        rw [hstep]
        have e : pre ++ cur ++ c :: r = pre ++ (cur ++ [c]) ++ r := by simp
        obtain ⟨st1, h1, h2, h3⟩ := ih h0r hqr pre (cur ++ [c]) f
          { st with nQuotes := st.nQuotes,
                    poChar := st.poChar + 1, nLength := st.nLength + 1 }
          hf2 (by simp [hcur, Ne.symm hc0]) (by simp [hpc]; omega) hpp (by simp [hnl]) his
        rw [e]
        refine ⟨st1, h1, h2, ?_⟩
        rw [h3]
        simp [List.splitOnP.go, hsemi]


/-- Splitting a string at every `;` gives one more field than the string has `;`. -/
theorem splitOn_length (r : List Char) : (r.splitOn ';').length = r.count ';' + 1 := by
  unfold List.splitOn
  induction r with
  | nil => simp
  | cons c r ih =>
    rw [List.splitOnP_cons]
    by_cases hc : c = ';'
    · subst hc
      simp [ih]
    · have hc2 : (';' == c) = false := by
        simpa using fun e : ';' = c => hc e.symm
      simp [hc, ih, List.count_cons, hc2]

/-- The list of property values read from a record whose part behind the name holds no
double quote. -/
theorem parse_plain (name rest : List Char) (hn1 : ';' ∉ name) (hn0 : NUL ∉ name)
    (hr0 : NUL ∉ rest) (hrq : QUOTE ∉ rest) :
    SetPropertiesParse (name ++ ';' :: rest) = some (some (rest.splitOn ';')) := by
  unfold SetPropertiesParse
  simp only
  rw [skipName_append name rest hn1 hn0]
  have hchar : charAt (name ++ ';' :: rest) name.length = ';' := by
    rw [charAt_append_length]
    rfl
  have hne : (';' : Char) ≠ NUL := by decide
  rw [if_neg (by rw [hchar]; exact hne)]
  have hstrip : stripLoop (name ++ ';' :: rest) ((name ++ ';' :: rest).length + 1)
      (name.length + 1) [] = some rest := by
    have := stripLoop_plain rest hr0 hrq (name ++ [';']) ((name ++ ';' :: rest).length + 1) []
      (by simp; omega)
    simpa using this
  rw [hstrip]
  simp only
  obtain ⟨st1, h1, h2, h3⟩ := parseLoop_plain rest hr0 hrq [] [] (rest.length + 1)
    { poChar := 0, poProp := 0, nLength := 0, nQuotes := 0, inString := false,
      oPropList := [] } (by omega) (by simp) rfl rfl rfl rfl
  simp only [List.nil_append, List.reverse_nil] at h1 h3
  rw [h1]
  simp only [h2, Bool.false_eq_true, false_and, if_false]
  rw [h3]
  rfl


/-- A character that is not the terminator is read at a position of the string. -/
theorem charAt_lt (s : List Char) (p : Nat) (h : charAt s p ≠ NUL) : p < s.length := by
  by_contra hge
  apply h
  unfold charAt
  rw [List.getD_eq_getElem?_getD, List.getElem?_eq_none (by omega)]
  rfl

theorem countQuotes_le (l : List Char) : countQuotes l ≤ l.length := by
  induction l with
  | nil => simp [countQuotes]
  | cons c cs ih =>
    unfold countQuotes
    split_ifs
    · simp only [List.length_cons]
      omega
    · omega

/-- The loop that drops extra quotes ends before its bound, on every line: each iteration
moves the pointer forward inside the line. -/
theorem stripLoop_isSome (s : List Char) :
    ∀ (fuel poChar : Nat) (osLine : List Char), poChar ≤ s.length → s.length - poChar < fuel →
      ∃ r, stripLoop s fuel poChar osLine = some r := by
  intro fuel
  induction fuel with
  | zero =>
    intro poChar osLine _ h
    exact absurd h (Nat.not_lt_zero _)
  | succ fuel ih =>
    intro poChar osLine hle hfuel
    have hq := countQuotes_le (s.drop (poChar + 1))
    rw [List.length_drop] at hq
    unfold stripLoop
    simp only
    split_ifs with a b c d e
    · exact ⟨_, rfl⟩
    · have := charAt_lt s poChar a
      exact ih _ _ (by omega) (by omega)
    · have := charAt_lt s poChar a
      exact ih _ _ (by omega) (by omega)
    · exact ⟨_, rfl⟩
    · have := charAt_lt s poChar a
      have := charAt_lt s _ e
      exact ih _ _ (by omega) (by omega)
    · have := charAt_lt s poChar a
      exact ih _ _ (by omega) (by omega)

theorem parseChar_poChar (o : List Char) (st : ParseState) :
    (parseChar o st).poChar = st.poChar + 1 := by
  unfold parseChar
  split_ifs <;> rfl

/-- When the quote branch does not leave the loop, the pointer has not moved back and is
still at a character of the string. -/
theorem parseQuote_poChar (o : List Char) (st st1 : ParseState)
    (h : parseQuote o st = (false, st1)) (hlt : st.poChar < o.length) :
    st.poChar ≤ st1.poChar ∧ st1.poChar < o.length := by
  unfold parseQuote at h
  simp only at h
  split_ifs at h with a b c
  all_goals
    simp only [Prod.mk.injEq, decide_eq_false_iff_not] at h
    obtain ⟨h1, h2⟩ := h
    subst h2
  · exact ⟨by simp only; omega, charAt_lt _ _ h1⟩
  · exact ⟨by simp only; omega, charAt_lt _ _ h1⟩
  · exact ⟨by simp only; omega, charAt_lt _ _ h1⟩
  · exact ⟨le_refl _, hlt⟩

/-- The loop that reads the properties ends before its bound, on every string: each
iteration moves the pointer forward inside the string. -/
theorem parseLoop_isSome (o : List Char) :
    ∀ (fuel : Nat) (st : ParseState), st.poChar ≤ o.length → o.length - st.poChar < fuel →
      ∃ r, parseLoop o fuel st = some r := by
  intro fuel
  induction fuel with
  | zero =>
    intro st _ h
    exact absurd h (Nat.not_lt_zero _)
  | succ fuel ih =>
    intro st hle hfuel
    unfold parseLoop
    by_cases a : charAt o st.poChar = NUL
    · rw [if_pos a]
      exact ⟨_, rfl⟩
    · rw [if_neg a]
      have hlt := charAt_lt o _ a
      rcases hq : parseQuote o st with ⟨b, st1⟩
      cases b with
      | true => exact ⟨_, rfl⟩
      | false =>
        simp only
        have := parseQuote_poChar o st st1 hq hlt
        have hp := parseChar_poChar o st1
        exact ih _ (by omega) (by omega)

/-- `SetProperties` returns on every line: the bounds given to its two loops are not
reached. -/
theorem SetProperties_returns (pszLine : List Char) (nPropertyCount : Int) :
    ∃ r, SetProperties pszLine nPropertyCount = some r := by
  have hparse : ∃ r, SetPropertiesParse pszLine = some r := by
    unfold SetPropertiesParse
    simp only
    by_cases a : charAt pszLine (skipName pszLine) = NUL
    · rw [if_pos a]
      exact ⟨_, rfl⟩
    · rw [if_neg a]
      have hlt := charAt_lt _ _ a
      obtain ⟨osLine, h1⟩ := stripLoop_isSome pszLine (pszLine.length + 1)
        (skipName pszLine + 1) [] (by omega) (by omega)
      rw [h1]
      simp only
      obtain ⟨st, h2⟩ := parseLoop_isSome osLine (osLine.length + 1)
        { poChar := 0, poProp := 0, nLength := 0, nQuotes := 0, inString := false,
          oPropList := [] } (Nat.zero_le _) (by simp)
      rw [h2]
      exact ⟨_, rfl⟩
  obtain ⟨r, hr⟩ := hparse
  unfold SetProperties
  rw [hr]
  cases r with
  | none => exact ⟨_, rfl⟩
  | some oPropList =>
    simp only
    split_ifs
    · exact ⟨_, rfl⟩
    · exact ⟨_, rfl⟩

/-- C28: for a record `NAME;rest` whose name holds no `;` and whose `rest` holds no double
quote (neither part holding the string terminator), `SetProperties` reads as property values
exactly the fields that `rest` is split into at every `;`, empty fields included, which are
one more than `rest` has `;`; it returns true, and sets the values in order, exactly when the
number of fields is the property count of the data block, and returns false without setting a
value otherwise. On every line without `;` it returns false. -/
theorem C28_record_splitting (name rest : List Char) (hn1 : ';' ∉ name) (hn0 : NUL ∉ name)
    (hr0 : NUL ∉ rest) (hrq : QUOTE ∉ rest) :
    SetPropertiesParse (name ++ ';' :: rest) = some (some (rest.splitOn ';')) ∧
    (rest.splitOn ';').length = rest.count ';' + 1 ∧
    (∀ nPropertyCount : Int,
      SetProperties (name ++ ';' :: rest) nPropertyCount
        = some (decide (((rest.splitOn ';').length : Int) = nPropertyCount),
            if ((rest.splitOn ';').length : Int) = nPropertyCount
            then (rest.splitOn ';').enum else [])) ∧
    (∀ (line : List Char) (nPropertyCount : Int), ';' ∉ line →
      SetProperties line nPropertyCount = some (false, [])) := by
  have hp := parse_plain name rest hn1 hn0 hr0 hrq
  refine ⟨hp, splitOn_length rest, ?_, ?_⟩
  · intro n
    unfold SetProperties
    rw [hp]
    by_cases h : ((rest.splitOn ';').length : Int) = n
    · simp [h]
    · simp [h]
  · intro line n hline
    unfold SetProperties SetPropertiesParse
    simp only
    rw [if_pos (skipName_no_semicolon line hline)]

/-- C28, on the record `B;1;;ab` of a data block with three properties, and on the line `B`. -/
theorem C28_record_splitting_witness :
    SetPropertiesParse ['B', ';', '1', ';', ';', 'a', 'b']
      = some (some [['1'], [], ['a', 'b']]) ∧
    SetProperties ['B', ';', '1', ';', ';', 'a', 'b'] 3
      = some (true, [(0, ['1']), (1, []), (2, ['a', 'b'])]) ∧
    SetProperties ['B', ';', '1', ';', ';', 'a', 'b'] 2 = some (false, []) ∧
    SetProperties ['B'] 1 = some (false, []) :=
  have h := C28_record_splitting ['B'] ['1', ';', ';', 'a', 'b']
    (by decide) (by decide) (by decide) (by decide)
  ⟨h.1, h.2.2.1 3, h.2.2.1 2, h.2.2.2 ['B'] 1 (by decide)⟩


/-! ## The Geomedia blob decoder -/

/-- An event inside a slice is inside every larger slice. -/
theorem EventOK_mono {lo hi size lo1 hi1 size1 : Int} {e : Event}
    (h : EventOK lo hi size e) (h1 : lo1 ≤ lo) (h2 : hi ≤ hi1) (h3 : size ≤ size1) :
    EventOK lo1 hi1 size1 e := by
  cases e with
  | read o =>
    simp only [EventOK] at h ⊢
    omega
  | call o s =>
    simp only [EventOK] at h ⊢
    omega

/-- The reads of `n` bytes from `off` are inside every slice that holds those bytes. -/
theorem readEvents_ok (off : Int) (n : Nat) (lo hi size : Int) (h1 : lo ≤ off)
    (h2 : off + n ≤ hi) : ∀ e ∈ readEvents off n, EventOK lo hi size e := by
  intro e he
  unfold readEvents at he
  rw [List.mem_map] at he
  obtain ⟨i, hi1, rfl⟩ := he
  rw [List.mem_range] at hi1
  simp only [EventOK]
  omega

/-- Bytes inside the buffer are read. -/
theorem readLE_isSome (buf : List GByte) (n : Nat) :
    ∀ off : Int, 0 ≤ off → off + n ≤ buf.length → ∃ v, readLE buf off n = some v := by
  induction n with
  | zero =>
    intro off _ _
    exact ⟨0, rfl⟩
  | succ n ih =>
    intro off h0 h1
    obtain ⟨b, hb⟩ := readAt_isSome buf h0 (by push_cast at h1; omega)
    obtain ⟨v, hv⟩ := ih (off + 1) (by omega) (by push_cast at h1 ⊢; omega)
    exact ⟨b.val + 256 * v, by simp [readLE, hb, hv]⟩

theorem readInt32_isSome (buf : List GByte) (off : Int) (h0 : 0 ≤ off)
    (h1 : off + 4 ≤ buf.length) : ∃ v, readInt32 buf off = some v := by
  obtain ⟨u, hu⟩ := readLE_isSome buf 4 off h0 (by simpa using h1)
  exact ⟨_, by rw [readInt32, hu]; rfl⟩

theorem readPoint_isSome (buf : List GByte) (off : Int) (h0 : 0 ≤ off)
    (h1 : off + 24 ≤ buf.length) : ∃ pt, readPoint buf off = some pt := by
  obtain ⟨x, hx⟩ := readLE_isSome buf 8 off h0 (by push_cast; omega)
  obtain ⟨y, hy⟩ := readLE_isSome buf 8 (off + 8) (by omega) (by push_cast; omega)
  obtain ⟨z, hz⟩ := readLE_isSome buf 8 (off + 16) (by omega) (by push_cast; omega)
  exact ⟨_, by rw [readPoint, hx, hy, hz]⟩

theorem readPoints_isSome (buf : List GByte) (n : Nat) :
    ∀ off : Int, 0 ≤ off → off + 24 * n ≤ buf.length →
      ∃ pts, readPoints buf n off = some pts := by
  induction n with
  | zero =>
    intro off _ _
    exact ⟨[], rfl⟩
  | succ n ih =>
    intro off h0 h1
    obtain ⟨pt, hpt⟩ := readPoint_isSome buf off h0 (by push_cast at h1; omega)
    obtain ⟨pts, hpts⟩ := ih (off + 24) (by omega) (by push_cast at h1 ⊢; omega)
    exact ⟨pt :: pts, by simp [readPoints, hpt, hpts]⟩

/-- The signature test on four bytes of the buffer: it returns, it reads only the bytes 1 to 3
behind the pointer, and it holds exactly when these are `FF D2 0F`. -/
theorem checkSignature_spec (buf : List GByte) (p : Int) (h0 : 0 ≤ p)
    (h1 : p + 4 ≤ buf.length) :
    ∃ b ev, checkSignature buf p = some (b, ev) ∧
      (∀ lo hi size : Int, lo ≤ p → p + 4 ≤ hi → ∀ e ∈ ev, EventOK lo hi size e) ∧
      (b = true ↔ readAt buf (p + 1) = some 0xFF ∧ readAt buf (p + 2) = some 0xD2 ∧
        readAt buf (p + 3) = some 0x0F) := by
  obtain ⟨b1, hb1⟩ := readAt_isSome buf (i := p + 1) (by omega) (by omega)
  obtain ⟨b2, hb2⟩ := readAt_isSome buf (i := p + 2) (by omega) (by omega)
  obtain ⟨b3, hb3⟩ := readAt_isSome buf (i := p + 3) (by omega) (by omega)
  unfold checkSignature
  rw [hb1, hb2, hb3]
  simp only
  by_cases e1 : b1 = 0xFF
  · by_cases e2 : b2 = 0xD2
    · rw [if_neg (not_not.2 e1), if_neg (not_not.2 e2)]
      refine ⟨_, _, rfl, ?_, ?_⟩
      · intro lo hi size hlo hhi e he
        simp only [List.mem_cons, List.mem_singleton, List.not_mem_nil, or_false] at he
        rcases he with rfl | rfl | rfl <;> simp only [EventOK] <;> omega
      · simp [e1, e2]
    · rw [if_neg (not_not.2 e1), if_pos e2]
      refine ⟨_, _, rfl, ?_, ?_⟩
      · intro lo hi size hlo hhi e he
        simp only [List.mem_cons, List.mem_singleton, List.not_mem_nil, or_false] at he
        rcases he with rfl | rfl <;> simp only [EventOK] <;> omega
      · simp [e2]
  · rw [if_pos e1]
    refine ⟨_, _, rfl, ?_, ?_⟩
    · intro lo hi size hlo hhi e he
      simp only [List.mem_singleton] at he
      subst he
      simp only [EventOK]
      omega
    · simp [e1]

/-- The point list of a polyline or of a polygon ring: the decoding returns and reads only
bytes of the slice. -/
theorem decodePointList_spec (buf : List GByte) (p n : Int) (h0 : 0 ≤ p)
    (h1 : p + n ≤ buf.length) :
    ∃ ev r, decodePointList buf p n = some (ev, r) ∧
      ∀ lo hi size : Int, lo ≤ p → p + n ≤ hi → ∀ e ∈ ev, EventOK lo hi size e := by
  unfold decodePointList
  by_cases hn : n < 4
  · rw [if_pos hn]
    exact ⟨_, _, rfl, by simp⟩
  · rw [if_neg hn]
    obtain ⟨nPoints, hP⟩ := readInt32_isSome buf p h0 (by omega)
    rw [hP]
    simp only
    by_cases hc : nPoints < 0 ∨ nPoints > INT_MAX / 24 ∨ n - 4 < nPoints * 24
    · rw [if_pos hc]
      refine ⟨_, _, rfl, ?_⟩
      intro lo hi size hlo hhi
      exact readEvents_ok p 4 lo hi size hlo (by push_cast; omega)
    · rw [if_neg hc]
      push_neg at hc
      obtain ⟨hc1, _, hc3⟩ := hc
      have hcast : ((nPoints.toNat : Nat) : Int) = nPoints := Int.toNat_of_nonneg hc1
      obtain ⟨pts, hpts⟩ := readPoints_isSome buf nPoints.toNat (p + 4) (by omega)
        (by rw [hcast]; omega)
      rw [hpts]
      refine ⟨_, _, rfl, ?_⟩
      intro lo hi size hlo hhi e he
      rcases List.mem_append.1 he with he | he
      · exact readEvents_ok p 4 lo hi size hlo (by push_cast; omega) e he
      · exact readEvents_ok (p + 4) _ lo hi size (by omega)
          (by push_cast; rw [hcast]; omega) e he


/-- The scan of the headers of the parts of a collection returns and reads only bytes of the
slice it is given. -/
theorem scanParts_spec (buf : List GByte) (k : Nat) :
    ∀ (p n : Int) (bAllPolyline bAllPolygon : Bool), 0 ≤ p → p + n ≤ buf.length →
      ∃ ev r, scanParts buf k p n bAllPolyline bAllPolygon = some (ev, r) ∧
        ∀ lo hi size : Int, lo ≤ p → p + n ≤ hi → ∀ e ∈ ev, EventOK lo hi size e := by
  induction k with
  | zero =>
    intro p n bl bg _ _
    exact ⟨_, _, rfl, by simp⟩
  | succ k ih =>
    intro p n bl bg h0 h1
    unfold scanParts
    by_cases hn : n < 4
    · rw [if_pos hn]
      exact ⟨_, _, rfl, by simp⟩
    · rw [if_neg hn]
      obtain ⟨nSubBytes, hS⟩ := readInt32_isSome buf p h0 (by omega)
      rw [hS]
      simp only
      have hsize : ∀ lo hi size : Int, lo ≤ p → p + n ≤ hi →
          ∀ e ∈ readEvents p 4, EventOK lo hi size e := fun lo hi size hlo hhi =>
        readEvents_ok p 4 lo hi size hlo (by push_cast; omega)
      by_cases c1 : nSubBytes < 0
      · rw [if_pos c1]
        exact ⟨_, _, rfl, hsize⟩
      · rw [if_neg c1]
        by_cases c2 : n - 4 < nSubBytes
        · rw [if_pos c2]
          exact ⟨_, _, rfl, hsize⟩
        · rw [if_neg c2]
          by_cases c3 : nSubBytes < 16
          · rw [if_pos c3]
            exact ⟨_, _, rfl, hsize⟩
          · rw [if_neg c3]
            obtain ⟨b, ev, hsig, hev, _⟩ := checkSignature_spec buf (p + 4) (by omega) (by omega)
            rw [hsig]
            cases b with
            | false =>
              simp only
              refine ⟨_, _, rfl, ?_⟩
              intro lo hi size hlo hhi e he
              rcases List.mem_append.1 he with he | he
              · exact hsize lo hi size hlo hhi e he
              · exact hev lo hi size (by omega) (by omega) e he
            | true =>
              simp only
              obtain ⟨t, ht⟩ := readAt_isSome buf (i := p + 4) (by omega) (by omega)
              rw [ht]
              simp only
              obtain ⟨ev2, r, h2, hev2⟩ := ih (p + 4 + nSubBytes) (n - 4 - nSubBytes)
                (bl && decide (((t.val : Nat) : Int) = GEOMEDIA_POLYLINE))
                (bg && decide (((t.val : Nat) : Int) = GEOMEDIA_POLYGON)) (by omega) (by omega)
              rw [h2]
              simp only
              refine ⟨_, _, rfl, ?_⟩
              intro lo hi size hlo hhi e he
              simp only [List.mem_append, List.mem_singleton] at he
              rcases he with ((he | he) | he) | he
              · exact hsize lo hi size hlo hhi e he
              · exact hev lo hi size (by omega) (by omega) e he
              · subst he
                simp only [EventOK]
                omega
              · exact hev2 lo hi size (by omega) (by omega) e he

/-- The loop that decodes the parts of a collection returns, and its events stay inside the
slice `[lo, hi)`, when the decoder it calls is safe on every slice inside `[lo, hi)` with fewer
than `size` bytes. -/
theorem partsLoop_spec (decodeSub : Int → Int → Option Decoded) (buf : List GByte)
    (nGeomType lo hi size : Int) (hlo : 0 ≤ lo) (hhi : hi ≤ buf.length)
    (hrec : ∀ p1 n1 : Int, lo ≤ p1 → p1 + n1 ≤ hi → n1 < size → DecodesSafely decodeSub p1 n1)
    (k : Nat) :
    ∀ (p n : Int) (parts : List OGRGeometry), lo ≤ p → p + n ≤ hi → n ≤ size →
      ∃ ev r, partsLoop decodeSub buf nGeomType k p n parts = some (ev, r) ∧
        ∀ e ∈ ev, EventOK lo hi size e := by
  induction k with
  | zero =>
    intro p n parts _ _ _
    exact ⟨_, _, rfl, by simp⟩
  | succ k ih =>
    intro p n parts h0 h1 h2
    unfold partsLoop
    by_cases hn : n < 4
    · rw [if_pos hn]
      exact ⟨_, _, rfl, by simp⟩
    · rw [if_neg hn]
      obtain ⟨nSubBytes, hS⟩ := readInt32_isSome buf p (by omega) (by omega)
      rw [hS]
      simp only
      have hsize : ∀ e ∈ readEvents p 4, EventOK lo hi size e :=
        readEvents_ok p 4 lo hi size h0 (by push_cast; omega)
      by_cases c1 : nSubBytes < 0
      · rw [if_pos c1]
        exact ⟨_, _, rfl, hsize⟩
      · rw [if_neg c1]
        by_cases c2 : n - 4 < nSubBytes
        · rw [if_pos c2]
          exact ⟨_, _, rfl, hsize⟩
        · rw [if_neg c2]
          obtain ⟨d, hd, htr, _⟩ := hrec (p + 4) nSubBytes (by omega) (by omega) (by omega)
          rw [hd]
          simp only
          obtain ⟨ev, r, hloop, hev⟩ := ih (p + 4 + nSubBytes) (n - 4 - nSubBytes)
            (match d.poGeom with
              | some poSubGeom => addPart nGeomType parts poSubGeom
              | none => parts) (by omega) (by omega) (by omega)
          rw [hloop]
          simp only
          refine ⟨_, _, rfl, ?_⟩
          intro e he
          simp only [List.mem_append, List.mem_cons] at he
          rcases he with (he | he | he) | he
          · exact hsize e he
          · subst he
            simp only [EventOK]
            omega
          · exact EventOK_mono (htr e he) (by omega) (by omega) (by omega)
          · exact hev e he


theorem ok_append {P : Event → Prop} {a b : List Event} (ha : ∀ e ∈ a, P e)
    (hb : ∀ e ∈ b, P e) : ∀ e ∈ a ++ b, P e := by
  intro e he
  rcases List.mem_append.1 he with he | he
  · exact ha e he
  · exact hb e he

theorem ok_cons {P : Event → Prop} {x : Event} {b : List Event} (hx : P x)
    (hb : ∀ e ∈ b, P e) : ∀ e ∈ x :: b, P e := by
  intro e he
  rcases List.mem_cons.1 he with he | he
  · exact he ▸ hx
  · exact hb e he

/-- The boundary branch returns, and its events stay inside the slice `[lo, hi)`, when the
decoder it calls is safe on every slice inside `[lo, hi)` with fewer than `size` bytes. -/
theorem decodeBoundary_spec (decodeSub : Int → Int → Option Decoded) (buf : List GByte)
    (hdr : List Event) (lo hi size : Int) (hlo : 0 ≤ lo) (hhi : hi ≤ buf.length)
    (hrec : ∀ p1 n1 : Int, lo ≤ p1 → p1 + n1 ≤ hi → n1 < size → DecodesSafely decodeSub p1 n1)
    (hhdr : ∀ e ∈ hdr, EventOK lo hi size e) (p n : Int) (h0 : lo ≤ p) (h1 : p + n ≤ hi)
    (h2 : n ≤ size) :
    ∃ d, decodeBoundary decodeSub buf hdr p n = some d ∧
      ∀ e ∈ d.trace, EventOK lo hi size e := by
  unfold decodeBoundary
  by_cases hn : n < 4
  · rw [if_pos hn]
    exact ⟨_, rfl, hhdr⟩
  · rw [if_neg hn]
    obtain ⟨nExteriorSize, hE⟩ := readInt32_isSome buf p (by omega) (by omega)
    rw [hE]
    simp only
    have t1 : ∀ e ∈ hdr ++ readEvents p 4, EventOK lo hi size e :=
      ok_append hhdr (readEvents_ok p 4 lo hi size h0 (by push_cast; omega))
    by_cases c1 : n - 4 < nExteriorSize
    · rw [if_pos c1]
      exact ⟨_, rfl, t1⟩
    · rw [if_neg c1]
      obtain ⟨d, hd, htr, hsmall⟩ := hrec (p + 4) nExteriorSize (by omega) (by omega) (by omega)
      rw [hd]
      simp only
      have t2 : ∀ e ∈ hdr ++ readEvents p 4 ++ Event.call (p + 4) nExteriorSize :: d.trace,
          EventOK lo hi size e :=
        ok_append t1 (ok_cons (by simp only [EventOK]; omega)
          (fun e he => EventOK_mono (htr e he) (by omega) (by omega) (by omega)))
      cases hg : d.poGeom with
      | none => exact ⟨_, rfl, t2⟩
      | some g =>
        have hbig : 16 ≤ nExteriorSize := by
          by_contra hlt
          have := hsmall (by omega)
          rw [hg] at this
          exact Option.noConfusion this
        cases g with
        | polygon rings =>
          simp only
          by_cases c2 : n - 4 - nExteriorSize < 4
          · rw [if_pos c2]
            exact ⟨_, rfl, t2⟩
          · rw [if_neg c2]
            obtain ⟨nInteriorSize, hI⟩ := readInt32_isSome buf (p + 4 + nExteriorSize)
              (by omega) (by omega)
            rw [hI]
            simp only
            have t3 : ∀ e ∈ hdr ++ readEvents p 4 ++
                Event.call (p + 4) nExteriorSize :: d.trace ++
                readEvents (p + 4 + nExteriorSize) 4, EventOK lo hi size e :=
              ok_append t2 (readEvents_ok _ 4 lo hi size (by omega) (by push_cast; omega))
            by_cases c3 : n - 4 - nExteriorSize - 4 < nInteriorSize
            · rw [if_pos c3]
              exact ⟨_, rfl, t3⟩
            · rw [if_neg c3]
              obtain ⟨d2, hd2, htr2, _⟩ := hrec (p + 4 + nExteriorSize + 4) nInteriorSize
                (by omega) (by omega) (by omega)
              rw [hd2]
              simp only
              have t4 : ∀ e ∈ hdr ++ readEvents p 4 ++
                  Event.call (p + 4) nExteriorSize :: d.trace ++
                  readEvents (p + 4 + nExteriorSize) 4 ++
                  Event.call (p + 4 + nExteriorSize + 4) nInteriorSize :: d2.trace,
                  EventOK lo hi size e :=
                ok_append t3 (ok_cons (by simp only [EventOK]; omega)
                  (fun e he => EventOK_mono (htr2 e he) (by omega) (by omega) (by omega)))
              cases hg2 : d2.poGeom with
              | none => exact ⟨_, rfl, t4⟩
              | some g2 =>
                cases g2 with
                | polygon interior => exact ⟨_, rfl, t4⟩
                | multiPolygon parts => exact ⟨_, rfl, t4⟩
                | point _ => exact ⟨_, rfl, t4⟩
                | lineString _ => exact ⟨_, rfl, t4⟩
                | multiLineString _ => exact ⟨_, rfl, t4⟩
                | geometryCollection _ => exact ⟨_, rfl, t4⟩
        | point _ => exact ⟨_, rfl, t2⟩
        | lineString _ => exact ⟨_, rfl, t2⟩
        | multiLineString _ => exact ⟨_, rfl, t2⟩
        | multiPolygon _ => exact ⟨_, rfl, t2⟩
        | geometryCollection _ => exact ⟨_, rfl, t2⟩


/-- The branch of the collections returns, and its events stay inside the slice `[lo, hi)`,
when the decoder it calls is safe on every slice inside `[lo, hi)` with fewer than `size`
bytes. -/
theorem decodeCollection_spec (decodeSub : Int → Int → Option Decoded) (buf : List GByte)
    (nGeomType : Int) (hdr : List Event) (lo hi size : Int) (hlo : 0 ≤ lo)
    (hhi : hi ≤ buf.length)
    (hrec : ∀ p1 n1 : Int, lo ≤ p1 → p1 + n1 ≤ hi → n1 < size → DecodesSafely decodeSub p1 n1)
    (hhdr : ∀ e ∈ hdr, EventOK lo hi size e) (p n : Int) (h0 : lo ≤ p) (h1 : p + n ≤ hi)
    (h2 : n ≤ size) :
    ∃ d, decodeCollection decodeSub buf nGeomType hdr p n = some d ∧
      ∀ e ∈ d.trace, EventOK lo hi size e := by
  unfold decodeCollection
  by_cases hn : n < 4
  · rw [if_pos hn]
    exact ⟨_, rfl, hhdr⟩
  · rw [if_neg hn]
    obtain ⟨nParts, hP⟩ := readInt32_isSome buf p (by omega) (by omega)
    rw [hP]
    simp only
    have t1 : ∀ e ∈ hdr ++ readEvents p 4, EventOK lo hi size e :=
      ok_append hhdr (readEvents_ok p 4 lo hi size h0 (by push_cast; omega))
    by_cases c1 : nParts < 0 ∨ nParts > INT_MAX / (4 + 16) ∨ n - 4 < nParts * (4 + 16)
    · rw [if_pos c1]
      exact ⟨_, rfl, t1⟩
    · rw [if_neg c1]
      have hfinish : ∀ (ev : List Event) (g1 : Int), (∀ e ∈ ev, EventOK lo hi size e) →
          ∃ d, (match partsLoop decodeSub buf g1 nParts.toNat (p + 4) (n - 4) [] with
            | none => none
            | some (ev2, none) =>
                some ({ trace := hdr ++ readEvents p 4 ++ ev ++ ev2, poGeom := none } : Decoded)
            | some (ev2, some parts) =>
                some { trace := hdr ++ readEvents p 4 ++ ev ++ ev2,
                       poGeom := some
                         (if g1 = GEOMEDIA_MULTILINE then OGRGeometry.multiLineString parts
                          else if g1 = GEOMEDIA_MULTIPOLYGON then OGRGeometry.multiPolygon parts
                          else OGRGeometry.geometryCollection parts) }) = some d ∧
            ∀ e ∈ d.trace, EventOK lo hi size e := by
        intro ev g1 hev
        obtain ⟨ev2, r, hloop, hev2⟩ := partsLoop_spec decodeSub buf g1 lo hi size hlo hhi hrec
          nParts.toNat (p + 4) (n - 4) [] (by omega) (by omega) (by omega)
        rw [hloop]
        cases r with
        | none => exact ⟨_, rfl, ok_append (ok_append t1 hev) hev2⟩
        | some parts => exact ⟨_, rfl, ok_append (ok_append t1 hev) hev2⟩
      by_cases hcoll : nGeomType = GEOMEDIA_COLLECTION
      · rw [if_pos hcoll]
        obtain ⟨ev, r, hscan, hev⟩ := scanParts_spec buf nParts.toNat (p + 4) (n - 4) true true
          (by omega) (by omega)
        rw [hscan]
        have hev1 : ∀ e ∈ ev, EventOK lo hi size e := hev lo hi size (by omega) (by omega)
        cases r with
        | none => exact ⟨_, rfl, ok_append t1 hev1⟩
        | some bb =>
          obtain ⟨bAllPolyline, bAllPolygon⟩ := bb
          exact hfinish ev _ hev1
      · rw [if_neg hcoll]
        exact hfinish [] nGeomType (by simp)

/-- The body of the decoder is safe on a slice of the buffer when its recursive calls go to a
decoder that is safe on the slices inside it with fewer bytes. -/
theorem decodeBody_spec (decodeSub : Int → Int → Option Decoded) (buf : List GByte)
    (p n : Int) (h0 : 0 ≤ p) (h1 : p + n ≤ buf.length)
    (hrec : 16 ≤ n → ∀ p1 n1 : Int, p ≤ p1 → p1 + n1 ≤ p + n → n1 < n →
      DecodesSafely decodeSub p1 n1) :
    DecodesSafely (decodeBody decodeSub buf) p n := by
  unfold DecodesSafely decodeBody
  by_cases hn : n < 16
  · rw [if_pos hn]
    exact ⟨_, rfl, by simp, fun _ => rfl⟩
  · rw [if_neg hn]
    have hrec1 := hrec (by omega)
    obtain ⟨b, ev, hsig, hev, _⟩ := checkSignature_spec buf p h0 (by omega)
    rw [hsig]
    have hev1 : ∀ e ∈ ev, EventOK p (p + n) n e := hev p (p + n) n (le_refl _) (by omega)
    cases b with
    | false => exact ⟨_, rfl, hev1, fun h => absurd h hn⟩
    | true =>
      simp only
      obtain ⟨t, ht⟩ := readAt_isSome buf (i := p) h0 (by omega)
      rw [ht]
      simp only
      have hhdr : ∀ e ∈ ev ++ [Event.read p], EventOK p (p + n) n e :=
        ok_append hev1 (ok_cons (by simp only [EventOK]; omega) (by simp))
      have hclose : ∀ r : Option Decoded,
          (∃ d, r = some d ∧ ∀ e ∈ d.trace, EventOK p (p + n) n e) →
          ∃ d, r = some d ∧ (∀ e ∈ d.trace, EventOK p (p + n) n e) ∧
            (n < 16 → d.poGeom = none) := by
        rintro r ⟨d, hd, htr⟩
        exact ⟨d, hd, htr, fun h => absurd h hn⟩
      apply hclose
      split_ifs with g1 g2 g3 g4 g5 g6
      · exact ⟨_, rfl, hhdr⟩
      · obtain ⟨pt, hpt⟩ := readPoint_isSome buf (p + 16) (by omega) (by omega)
        rw [hpt]
        exact ⟨_, rfl, ok_append hhdr (readEvents_ok _ 24 _ _ _ (by omega) (by push_cast; omega))⟩
      · obtain ⟨ev2, r, hpl, hev2⟩ := decodePointList_spec buf (p + 16) (n - 16) (by omega)
          (by omega)
        rw [hpl]
        have := hev2 p (p + n) n (by omega) (by omega)
        cases r with
        | none => exact ⟨_, rfl, ok_append hhdr this⟩
        | some pts => exact ⟨_, rfl, ok_append hhdr this⟩
      · obtain ⟨ev2, r, hpl, hev2⟩ := decodePointList_spec buf (p + 16) (n - 16) (by omega)
          (by omega)
        rw [hpl]
        have := hev2 p (p + n) n (by omega) (by omega)
        cases r with
        | none => exact ⟨_, rfl, ok_append hhdr this⟩
        | some pts => exact ⟨_, rfl, ok_append hhdr this⟩
      · exact decodeBoundary_spec decodeSub buf _ p (p + n) n h0 h1 hrec1 hhdr (p + 16) (n - 16)
          (by omega) (by omega) (by omega)
      · exact decodeCollection_spec decodeSub buf _ _ p (p + n) n h0 h1 hrec1 hhdr (p + 16)
          (n - 16) (by omega) (by omega) (by omega)
      · exact ⟨_, rfl, hhdr⟩


/-- A blob whose bytes 1 to 3 are not `FF D2 0F` gives a null geometry. -/
theorem decodeBody_signature (decodeSub : Int → Int → Option Decoded) (buf : List GByte)
    (p n : Int) (h0 : 0 ≤ p) (h1 : p + n ≤ buf.length) (d : Decoded)
    (hd : decodeBody decodeSub buf p n = some d)
    (hsig : ¬ (readAt buf (p + 1) = some 0xFF ∧ readAt buf (p + 2) = some 0xD2 ∧
      readAt buf (p + 3) = some 0x0F)) : d.poGeom = none := by
  unfold decodeBody at hd
  by_cases hn : n < 16
  · rw [if_pos hn] at hd
    cases hd
    rfl
  · rw [if_neg hn] at hd
    obtain ⟨b, ev, hcs, _, hb⟩ := checkSignature_spec buf p h0 (by omega)
    rw [hcs] at hd
    cases b with
    | false =>
      cases hd
      rfl
    | true => exact absurd (hb.1 rfl) hsig

/-- With a bound on the depth above `nBytes`, the decoder is safe on every slice of the
buffer. -/
theorem decodeDepth_safe (buf : List GByte) :
    ∀ (depth : Nat) (p n : Int), 0 ≤ p → p + n ≤ buf.length → n.toNat < depth →
      DecodesSafely (decodeDepth buf depth) p n := by
  intro depth
  induction depth with
  | zero =>
    intro p n _ _ h
    exact absurd h (Nat.not_lt_zero _)
  | succ depth ih =>
    intro p n h0 h1 h2
    have := decodeBody_spec (decodeDepth buf depth) buf p n h0 h1
      (fun h16 p1 n1 hp1 hp2 hn1 => ih p1 n1 (by omega) (by omega) (by omega))
    exact this

/-- The loop over the parts of a collection does not change when the decoder it calls is
replaced by one that agrees with it on the slices with fewer than `size` bytes. -/
theorem partsLoop_congr (f g : Int → Int → Option Decoded) (buf : List GByte)
    (nGeomType size : Int) (h : ∀ p1 n1 : Int, n1 < size → f p1 n1 = g p1 n1) (k : Nat) :
    ∀ (p n : Int) (parts : List OGRGeometry), n ≤ size →
      partsLoop f buf nGeomType k p n parts = partsLoop g buf nGeomType k p n parts := by
  induction k with
  | zero =>
    intro p n parts _
    rfl
  | succ k ih =>
    intro p n parts hn
    unfold partsLoop
    by_cases hn4 : n < 4
    · simp only [if_pos hn4]
    · simp only [if_neg hn4]
      cases hS : readInt32 buf p with
      | none => rfl
      | some nSubBytes =>
        simp only
        by_cases c1 : nSubBytes < 0
        · simp only [if_pos c1]
        · simp only [if_neg c1]
          by_cases c2 : n - 4 < nSubBytes
          · simp only [if_pos c2]
          · simp only [if_neg c2]
            rw [h (p + 4) nSubBytes (by omega)]
            cases hd : g (p + 4) nSubBytes with
            | none => rfl
            | some d =>
              simp only
              rw [ih _ _ _ (by omega)]

/-- The boundary branch does not change when the decoder it calls is replaced by one that
agrees with it on the slices with fewer than `size` bytes. -/
theorem decodeBoundary_congr (f g : Int → Int → Option Decoded) (buf : List GByte)
    (hdr : List Event) (size : Int) (h : ∀ p1 n1 : Int, n1 < size → f p1 n1 = g p1 n1)
    (hsmall : ∀ (p1 n1 : Int) (d : Decoded), g p1 n1 = some d → n1 < 16 → d.poGeom = none)
    (p n : Int) (hn : n ≤ size) :
    decodeBoundary f buf hdr p n = decodeBoundary g buf hdr p n := by
  unfold decodeBoundary
  by_cases hn4 : n < 4
  · simp only [if_pos hn4]
  · simp only [if_neg hn4]
    cases hE : readInt32 buf p with
    | none => rfl
    | some nExteriorSize =>
      simp only
      by_cases c1 : n - 4 < nExteriorSize
      · simp only [if_pos c1]
      · simp only [if_neg c1]
        rw [h (p + 4) nExteriorSize (by omega)]
        cases hd : g (p + 4) nExteriorSize with
        | none => rfl
        | some d =>
          simp only
          cases hg : d.poGeom with
          | none => rfl
          | some geom =>
            have hbig : 16 ≤ nExteriorSize := by
              by_contra hlt
              have := hsmall _ _ _ hd (by omega)
              rw [hg] at this
              exact Option.noConfusion this
            cases geom with
            | polygon rings =>
              simp only
              by_cases c2 : n - 4 - nExteriorSize < 4
              · simp only [if_pos c2]
              · simp only [if_neg c2]
                cases hI : readInt32 buf (p + 4 + nExteriorSize) with
                | none => rfl
                | some nInteriorSize =>
                  simp only
                  by_cases c3 : n - 4 - nExteriorSize - 4 < nInteriorSize
                  · simp only [if_pos c3]
                  · simp only [if_neg c3]
                    rw [h (p + 4 + nExteriorSize + 4) nInteriorSize (by omega)]
            | point _ => rfl
            | lineString _ => rfl
            | multiLineString _ => rfl
            | multiPolygon _ => rfl
            | geometryCollection _ => rfl

/-- The branch of the collections does not change when the decoder it calls is replaced by
one that agrees with it on the slices with fewer than `size` bytes. -/
theorem decodeCollection_congr (f g : Int → Int → Option Decoded) (buf : List GByte)
    (nGeomType : Int) (hdr : List Event) (size : Int)
    (h : ∀ p1 n1 : Int, n1 < size → f p1 n1 = g p1 n1) (p n : Int) (hn : n ≤ size) :
    decodeCollection f buf nGeomType hdr p n = decodeCollection g buf nGeomType hdr p n := by
  unfold decodeCollection
  by_cases hn4 : n < 4
  · simp only [if_pos hn4]
  · simp only [if_neg hn4]
    cases hP : readInt32 buf p with
    | none => rfl
    | some nParts =>
      have key : ∀ g1 : Int, partsLoop f buf g1 nParts.toNat (p + 4) (n - 4) []
          = partsLoop g buf g1 nParts.toNat (p + 4) (n - 4) [] := fun g1 =>
        partsLoop_congr f g buf g1 size h nParts.toNat (p + 4) (n - 4) [] (by omega)
      simp only [key]

/-- The body of the decoder on `nBytes` bytes does not change when the decoder that its
recursive calls go to is replaced by one that agrees with it on the slices with fewer than
`nBytes` bytes: it calls itself on such slices only. -/
theorem decodeBody_congr (f g : Int → Int → Option Decoded) (buf : List GByte) (p n : Int)
    (h : 16 ≤ n → ∀ p1 n1 : Int, n1 < n → f p1 n1 = g p1 n1)
    (hsmall : ∀ (p1 n1 : Int) (d : Decoded), g p1 n1 = some d → n1 < 16 → d.poGeom = none) :
    decodeBody f buf p n = decodeBody g buf p n := by
  unfold decodeBody
  by_cases hn : n < 16
  · simp only [if_pos hn]
  · simp only [if_neg hn]
    have h1 := h (by omega)
    have key1 : ∀ hdr : List Event, decodeBoundary f buf hdr (p + 16) (n - 16)
        = decodeBoundary g buf hdr (p + 16) (n - 16) := fun hdr =>
      decodeBoundary_congr f g buf hdr n h1 hsmall (p + 16) (n - 16) (by omega)
    have key2 : ∀ (t : Int) (hdr : List Event), decodeCollection f buf t hdr (p + 16) (n - 16)
        = decodeCollection g buf t hdr (p + 16) (n - 16) := fun t hdr =>
      decodeCollection_congr f g buf t hdr n h1 (p + 16) (n - 16) (by omega)
    simp only [key1, key2]

/-- On fewer than 16 bytes the decoder leaves a null geometry, whatever the bound on the
depth. -/
theorem decodeDepth_small (buf : List GByte) (depth : Nat) (p n : Int) (d : Decoded)
    (hd : decodeDepth buf depth p n = some d) (hn : n < 16) : d.poGeom = none := by
  cases depth with
  | zero => exact Option.noConfusion hd
  | succ depth =>
    unfold decodeDepth decodeBody at hd
    rw [if_pos hn] at hd
    cases hd
    rfl

/-- The result of the decoder does not depend on the bound on the depth, once the bound is
above `nBytes`. -/
theorem decodeDepth_eq (buf : List GByte) :
    ∀ (d1 d2 : Nat) (p n : Int), n.toNat < d1 → n.toNat < d2 →
      decodeDepth buf d1 p n = decodeDepth buf d2 p n := by
  intro d1
  induction d1 with
  | zero =>
    intro d2 p n h
    exact absurd h (Nat.not_lt_zero _)
  | succ a ih =>
    intro d2 p n h1 h2
    cases d2 with
    | zero => exact absurd h2 (Nat.not_lt_zero _)
    | succ b =>
      exact decodeBody_congr (decodeDepth buf a) (decodeDepth buf b) buf p n
        (fun h16 p1 n1 hn1 => ih b p1 n1 (by omega) (by omega))
        (fun p1 n1 d hd hn1 => decodeDepth_small buf b p1 n1 d hd hn1)

/-- C27: for every buffer and every slice of `nBytes` bytes of it (`nBytes` may be negative),
whatever the counts and sizes written in the blob, `OGRCreateFromGeomedia` returns, with the
same result for every bound on the depth of its recursive calls above `nBytes`; every byte it
reads, in the call and in the calls nested in it, is at an offset of the slice; every
recursive call is on a slice that lies inside the slice and has fewer than `nBytes` bytes;
and it fails, leaving a null geometry, when `nBytes < 16` and when the bytes 1 to 3 of the
slice are not `FF D2 0F`. -/
theorem C27_geomedia_bounds (buf : List GByte) (pabyGeom nBytes : Int) (h0 : 0 ≤ pabyGeom)
    (h1 : pabyGeom + nBytes ≤ buf.length) :
    ∃ d, OGRCreateFromGeomedia buf pabyGeom nBytes = some d ∧
      (∀ depth : Nat, nBytes.toNat < depth →
        decodeDepth buf depth pabyGeom nBytes = some d) ∧
      (∀ o, Event.read o ∈ d.trace → pabyGeom ≤ o ∧ o < pabyGeom + nBytes) ∧
      (∀ o s, Event.call o s ∈ d.trace →
        pabyGeom ≤ o ∧ o + s ≤ pabyGeom + nBytes ∧ s < nBytes) ∧
      (nBytes < 16 → d.poGeom = none) ∧
      (¬ (readAt buf (pabyGeom + 1) = some 0xFF ∧ readAt buf (pabyGeom + 2) = some 0xD2 ∧
          readAt buf (pabyGeom + 3) = some 0x0F) → d.poGeom = none) := by
  obtain ⟨d, hd, htr, hsmall⟩ := decodeDepth_safe buf (nBytes.toNat + 1) pabyGeom nBytes h0 h1
    (Nat.lt_succ_self _)
  refine ⟨d, hd, ?_, fun o ho => htr _ ho, fun o s ho => htr _ ho, hsmall, ?_⟩
  · intro depth hdepth
    rw [decodeDepth_eq buf depth (nBytes.toNat + 1) pabyGeom nBytes hdepth (Nat.lt_succ_self _)]
    exact hd
  · exact decodeBody_signature (decodeDepth buf nBytes.toNat) buf pabyGeom nBytes h0 h1 d hd

/-- The boundary blob decodes to a geometry, with 30 events, two of them recursive calls, on
the slices of 20 bytes at the offsets 20 and 44. -/
theorem boundaryBlob_decoded :
    (OGRCreateFromGeomedia boundaryBlob 0 64).map
        (fun d => (callsOf d.trace, d.trace.length, d.poGeom.isSome))
      = some ([(20, 20), (44, 20)], 30, true) := by
  decide

/-- C27, on the boundary blob of 64 bytes. -/
theorem C27_geomedia_bounds_witness :
    ∃ d, OGRCreateFromGeomedia boundaryBlob 0 64 = some d ∧
      (∀ depth : Nat, (64 : Int).toNat < depth → decodeDepth boundaryBlob depth 0 64 = some d) ∧
      (∀ o, Event.read o ∈ d.trace → (0 : Int) ≤ o ∧ o < 0 + 64) ∧
      (∀ o s, Event.call o s ∈ d.trace → (0 : Int) ≤ o ∧ o + s ≤ 0 + 64 ∧ s < 64) ∧
      ((64 : Int) < 16 → d.poGeom = none) ∧
      (¬ (readAt boundaryBlob (0 + 1) = some 0xFF ∧ readAt boundaryBlob (0 + 2) = some 0xD2 ∧
          readAt boundaryBlob (0 + 3) = some 0x0F) → d.poGeom = none) :=
  C27_geomedia_bounds boundaryBlob 0 64 (by decide) (by decide)


/-! ## The evaluation in double arithmetic -/

theorem roundHalfEven_intCast (k : Int) : roundHalfEven (k : ℚ) = k := by
  unfold roundHalfEven
  rw [Int.floor_intCast]
  simp

/-- A rational number less than one half away from an integer rounds to it. -/
theorem roundHalfEven_near (q : ℚ) (k : Int) (h1 : (k : ℚ) - 1 / 2 < q)
    (h2 : q < (k : ℚ) + 1 / 2) : roundHalfEven q = k := by
  unfold roundHalfEven
  by_cases hq : q < k
  · have hf : ⌊q⌋ = k - 1 := by
      rw [Int.floor_eq_iff]
      push_cast
      constructor <;> linarith
    rw [hf]
    push_cast
    rw [if_neg (by linarith), if_pos (by linarith)]
    omega
  · have hf : ⌊q⌋ = k := by
      rw [Int.floor_eq_iff]
      constructor <;> linarith
    rw [hf, if_pos (by linarith)]

/-- Half way between an even integer and the next one, the even one is taken. -/
theorem roundHalfEven_tie_even (k : Int) (hk : k % 2 = 0) :
    roundHalfEven ((k : ℚ) + 1 / 2) = k := by
  unfold roundHalfEven
  have hf : ⌊(k : ℚ) + 1 / 2⌋ = k := by
    rw [Int.floor_eq_iff]
    constructor <;> linarith
  rw [hf, if_neg (by linarith), if_neg (by linarith), if_pos hk]

/-- Rounding to an integer moves a number by at most one half. -/
theorem roundHalfEven_error (q : ℚ) : |(roundHalfEven q : ℚ) - q| ≤ 1 / 2 := by
  have h1 := Int.floor_le q
  have h2 := Int.lt_floor_add_one q
  unfold roundHalfEven
  rw [abs_le]
  split_ifs with a b c
  · constructor <;> linarith
  · push_cast
    constructor <;> linarith
  · constructor <;> linarith
  · push_cast
    constructor <;> linarith

/-- The spacing of the doubles around a number of binary exponent `e + 52`. -/
theorem ulpExponent_eq (q : ℚ) (e : Int) (h1 : (2 : ℚ) ^ (e + 52) ≤ |q|)
    (h2 : |q| < (2 : ℚ) ^ (e + 53)) (he : -1074 ≤ e) : ulpExponent q = e := by
  have hpos : (0 : ℚ) < |q| := lt_of_lt_of_le (zpow_pos (by norm_num) _) h1
  have hlog : Int.log 2 |q| = e + 52 := by
    apply le_antisymm
    · have := (Int.lt_zpow_iff_log_lt (b := 2) (by norm_num) (x := e + 53) hpos).1
        (by exact_mod_cast h2)
      omega
    · exact (Int.zpow_le_iff_le_log (b := 2) (by norm_num) (x := e + 52) hpos).1
        (by exact_mod_cast h1)
  unfold ulpExponent
  rw [hlog]
  omega

/-- The double nearest to a number, from the rounding of its quotient by the spacing. -/
theorem roundDouble_eq (q : ℚ) (e k : Int) (h1 : (2 : ℚ) ^ (e + 52) ≤ |q|)
    (h2 : |q| < (2 : ℚ) ^ (e + 53)) (he : -1074 ≤ e)
    (hk : roundHalfEven (q / 2 ^ e) = k) : roundDouble q = (k : ℚ) * 2 ^ e := by
  unfold roundDouble
  rw [ulpExponent_eq q e h1 h2 he, hk]

/-- The error of a rounding is at most half the spacing of the doubles. -/
theorem roundDouble_error (q : ℚ) : |roundDouble q - q| ≤ 2 ^ ulpExponent q / 2 := by
  have hu : (0 : ℚ) < 2 ^ ulpExponent q := zpow_pos (by norm_num) _
  have h := roundHalfEven_error (q / 2 ^ ulpExponent q)
  unfold roundDouble
  have e : (roundHalfEven (q / 2 ^ ulpExponent q) : ℚ) * 2 ^ ulpExponent q - q
      = ((roundHalfEven (q / 2 ^ ulpExponent q) : ℚ) - q / 2 ^ ulpExponent q)
        * 2 ^ ulpExponent q := by
    field_simp
  rw [e, abs_mul, abs_of_pos hu]
  calc |(roundHalfEven (q / 2 ^ ulpExponent q) : ℚ) - q / 2 ^ ulpExponent q| * 2 ^ ulpExponent q
      ≤ 1 / 2 * 2 ^ ulpExponent q := mul_le_mul_of_nonneg_right h hu.le
    _ = 2 ^ ulpExponent q / 2 := by ring


/-- A number with a significand of 53 bits is a double: it is not rounded. -/
theorem roundDouble_exact (k e : Int) (hk1 : (2 : Int) ^ 52 ≤ |k|) (hk2 : |k| < (2 : Int) ^ 53)
    (he : -1074 ≤ e) : roundDouble ((k : ℚ) * 2 ^ e) = (k : ℚ) * 2 ^ e := by
  have hu : (0 : ℚ) < 2 ^ e := zpow_pos (by norm_num) _
  have a1 : (2 : ℚ) ^ 52 ≤ |(k : ℚ)| := by exact_mod_cast hk1
  have a2 : |(k : ℚ)| < (2 : ℚ) ^ 53 := by exact_mod_cast hk2
  apply roundDouble_eq _ e k _ _ he
  · rw [mul_div_assoc, div_self hu.ne', mul_one]
    exact roundHalfEven_intCast k
  · rw [abs_mul, abs_of_pos hu, zpow_add₀ (by norm_num), mul_comm]
    exact mul_le_mul_of_nonneg_right (by exact_mod_cast a1) hu.le
  · rw [abs_mul, abs_of_pos hu, zpow_add₀ (by norm_num), mul_comm ((2 : ℚ) ^ e)]
    exact mul_lt_mul_of_pos_right (by exact_mod_cast a2) hu

/-- Half way between two doubles, the one with the even significand is taken. -/
theorem roundDouble_tie_even (k e : Int) (hk1 : (2 : Int) ^ 52 ≤ k) (hk2 : k < (2 : Int) ^ 53)
    (hev : k % 2 = 0) (he : -1074 ≤ e) :
    roundDouble (((k : ℚ) + 1 / 2) * 2 ^ e) = (k : ℚ) * 2 ^ e := by
  have hu : (0 : ℚ) < 2 ^ e := zpow_pos (by norm_num) _
  have a1 : (2 : ℚ) ^ 52 ≤ (k : ℚ) := by exact_mod_cast hk1
  have a2 : (k : ℚ) + 1 ≤ (2 : ℚ) ^ 53 := by exact_mod_cast Int.add_one_le_iff.2 hk2
  have hpos : (0 : ℚ) < (k : ℚ) + 1 / 2 := by
    have : (0 : ℚ) < 2 ^ 52 := by norm_num
    linarith
  apply roundDouble_eq _ e k _ _ he
  · rw [mul_div_assoc, div_self hu.ne', mul_one]
    exact roundHalfEven_tie_even k hev
  · rw [abs_mul, abs_of_pos hu, abs_of_pos hpos, zpow_add₀ (by norm_num), mul_comm]
    exact mul_le_mul_of_nonneg_right (by norm_num at a1 ⊢; linarith) hu.le
  · rw [abs_mul, abs_of_pos hu, abs_of_pos hpos, zpow_add₀ (by norm_num),
      mul_comm ((2 : ℚ) ^ e)]
    exact mul_lt_mul_of_pos_right (by norm_num at a2 ⊢; linarith) hu

theorem roundDouble_zero : roundDouble 0 = 0 := by
  unfold roundDouble
  rw [zero_div]
  have := roundHalfEven_intCast 0
  simp only [Int.cast_zero] at this
  rw [this]
  simp

/-- The first coordinate of the point `(0.31, 0.59)` in triangle 0 of the unit square, in
double arithmetic: no operation is rounded. -/
theorem square_double_l1 :
    BARYC_COORD_L1_double squareCoeffs0 double031 double059
      = 1801439850948199 / 18014398509481984 := by
  have f1 : roundDouble (double031 - 0) = double031 := by
    rw [show double031 - 0 = ((5584463537939415 : Int) : ℚ) * 2 ^ (-54 : Int) by
        norm_num [double031],
      roundDouble_exact 5584463537939415 (-54) (by norm_num) (by norm_num) (by norm_num)]
    norm_num [double031]
  have f2 : roundDouble (-1 * double031) = -double031 := by
    rw [show -double031 = ((-5584463537939415 : Int) : ℚ) * 2 ^ (-54 : Int) by
        norm_num [double031],
      show -1 * double031 = ((-5584463537939415 : Int) : ℚ) * 2 ^ (-54 : Int) by
        norm_num [double031]]
    exact roundDouble_exact _ _ (by norm_num) (by norm_num) (by norm_num)
  have f3 : roundDouble (double059 - 1) = -(3692951694443807 / 9007199254740992) := by
    rw [show -(3692951694443807 / 9007199254740992 : ℚ)
          = ((-7385903388887614 : Int) : ℚ) * 2 ^ (-54 : Int) by norm_num,
      show double059 - 1 = ((-7385903388887614 : Int) : ℚ) * 2 ^ (-54 : Int) by
        norm_num [double059]]
    exact roundDouble_exact _ _ (by norm_num) (by norm_num) (by norm_num)
  have f4 : roundDouble (-1 * -(3692951694443807 / 9007199254740992))
      = 3692951694443807 / 9007199254740992 := by
    rw [show (3692951694443807 / 9007199254740992 : ℚ)
          = ((7385903388887614 : Int) : ℚ) * 2 ^ (-54 : Int) by norm_num,
      show -1 * -(((7385903388887614 : Int) : ℚ) * 2 ^ (-54 : Int))
          = ((7385903388887614 : Int) : ℚ) * 2 ^ (-54 : Int) by ring]
    exact roundDouble_exact _ _ (by norm_num) (by norm_num) (by norm_num)
  have f5 : roundDouble (-double031 + 3692951694443807 / 9007199254740992)
      = 1801439850948199 / 18014398509481984 := by
    rw [show (1801439850948199 / 18014398509481984 : ℚ)
          = ((7205759403792796 : Int) : ℚ) * 2 ^ (-56 : Int) by norm_num,
      show -double031 + 3692951694443807 / 9007199254740992
          = ((7205759403792796 : Int) : ℚ) * 2 ^ (-56 : Int) by norm_num [double031]]
    exact roundDouble_exact _ _ (by norm_num) (by norm_num) (by norm_num)
  show roundDouble (roundDouble (-1 * roundDouble (double031 - 0)) +
    roundDouble (-1 * roundDouble (double059 - 1))) = _
  rw [f1, f2, f3, f4, f5]

/-- The second coordinate of the same point in double arithmetic: it is `x`. -/
theorem square_double_l2 :
    BARYC_COORD_L2_double squareCoeffs0 double031 double059 = double031 := by
  have f1 : roundDouble (double031 - 0) = double031 := by
    rw [show double031 - 0 = ((5584463537939415 : Int) : ℚ) * 2 ^ (-54 : Int) by
        norm_num [double031],
      roundDouble_exact 5584463537939415 (-54) (by norm_num) (by norm_num) (by norm_num)]
    norm_num [double031]
  have f2 : roundDouble (1 * double031) = double031 := by
    rw [one_mul]
    rw [sub_zero] at f1
    exact f1
  have f3 : roundDouble (0 * roundDouble (double059 - 1)) = 0 := by
    rw [zero_mul]
    exact roundDouble_zero
  have f4 : roundDouble (double031 + 0) = double031 := by
    rw [add_zero]
    rw [sub_zero] at f1
    exact f1
  show roundDouble (roundDouble (1 * roundDouble (double031 - 0)) +
    roundDouble (0 * roundDouble (double059 - 1))) = _
  rw [f1, f2, f3, f4]

/-- The third coordinate of the same point in double arithmetic: each of the two subtractions
falls half way between two doubles and is rounded down. -/
theorem square_double_l3 :
    BARYC_COORD_L3_double (1801439850948199 / 18014398509481984) double031
      = 5314247560297184 / 9007199254740992 := by
  have t1 : roundDouble (1 - 1801439850948199 / 18014398509481984)
      = 8106479329266892 / 9007199254740992 := by
    rw [show (8106479329266892 / 9007199254740992 : ℚ)
          = ((8106479329266892 : Int) : ℚ) * 2 ^ (-53 : Int) by norm_num,
      show (1 - 1801439850948199 / 18014398509481984 : ℚ)
          = (((8106479329266892 : Int) : ℚ) + 1 / 2) * 2 ^ (-53 : Int) by norm_num]
    exact roundDouble_tie_even _ _ (by norm_num) (by norm_num) (by norm_num) (by norm_num)
  have t2 : roundDouble (8106479329266892 / 9007199254740992 - double031)
      = 5314247560297184 / 9007199254740992 := by
    rw [show (5314247560297184 / 9007199254740992 : ℚ)
          = ((5314247560297184 : Int) : ℚ) * 2 ^ (-53 : Int) by norm_num,
      show (8106479329266892 / 9007199254740992 - double031 : ℚ)
          = (((5314247560297184 : Int) : ℚ) + 1 / 2) * 2 ^ (-53 : Int) by
        norm_num [double031]]
    exact roundDouble_tie_even _ _ (by norm_num) (by norm_num) (by norm_num) (by norm_num)
  unfold BARYC_COORD_L3_double
  rw [t1, t2]


/-- The decimal literals `0.31` and `0.59` are read as the doubles `double031` and
`double059`. -/
theorem double_literals :
    roundDouble (31 / 100) = double031 ∧ roundDouble (59 / 100) = double059 := by
  constructor
  · rw [roundDouble_eq (31 / 100) (-54) 5584463537939415 (by norm_num [abs_of_pos])
      (by norm_num [abs_of_pos]) (by norm_num)
      (roundHalfEven_near _ _ (by norm_num) (by norm_num))]
    norm_num [double031]
  · rw [roundDouble_eq (59 / 100) (-53) 5314247560297185 (by norm_num [abs_of_pos])
      (by norm_num [abs_of_pos]) (by norm_num)
      (roundHalfEven_near _ _ (by norm_num) (by norm_num))]
    norm_num [double059]

/-- The three coordinates of the point `(0.31, 0.59)` in triangle 0 of the unit square, as
the evaluation in double arithmetic returns them. -/
theorem square_double_coordinates :
    GDALTriangulationComputeBarycentricCoordinatesDouble squareMeshComputed 0 double031
        double059
      = some (true, some (1801439850948199 / 18014398509481984, double031,
          5314247560297184 / 9007199254740992)) := by
  have h : GDALTriangulationComputeBarycentricCoordinatesDouble squareMeshComputed 0 double031
        double059
      = some (true, some (BARYC_COORD_L1_double squareCoeffs0 double031 double059,
          BARYC_COORD_L2_double squareCoeffs0 double031 double059,
          BARYC_COORD_L3_double (BARYC_COORD_L1_double squareCoeffs0 double031 double059)
            (BARYC_COORD_L2_double squareCoeffs0 double031 double059))) := by
    simp [GDALTriangulationComputeBarycentricCoordinatesDouble, squareMeshComputed,
      squareCoeffs, readAt, GDALTriangulation.nFacets, squareMesh]
  rw [h, square_double_l1, square_double_l2, square_double_l3]

/-- The sum of the three returned doubles, formed in double arithmetic from the left, is the
double below 1. -/
theorem square_double_sum :
    roundDouble (roundDouble (1801439850948199 / 18014398509481984 + double031)
        + 5314247560297184 / 9007199254740992)
      = 1 - 1 / 9007199254740992 := by
  have s1 : roundDouble (1801439850948199 / 18014398509481984 + double031)
      = 7385903388887614 / 18014398509481984 := by
    rw [show (1801439850948199 / 18014398509481984 + double031 : ℚ)
          = ((7385903388887614 : Int) : ℚ) * 2 ^ (-54 : Int) by norm_num [double031],
      roundDouble_exact 7385903388887614 (-54) (by norm_num) (by norm_num) (by norm_num)]
    norm_num
  have s2 : roundDouble (7385903388887614 / 18014398509481984
        + 5314247560297184 / 9007199254740992)
      = 1 - 1 / 9007199254740992 := by
    rw [show (7385903388887614 / 18014398509481984 + 5314247560297184 / 9007199254740992 : ℚ)
          = ((9007199254740991 : Int) : ℚ) * 2 ^ (-53 : Int) by norm_num,
      roundDouble_exact 9007199254740991 (-53) (by norm_num) (by norm_num) (by norm_num)]
    norm_num
  rw [s1, s2]

/-- C4 as stated fails in the arithmetic of the code. On the unit square, whose coefficients
are the integers `-1`, `0` and `1` (the computation of the coefficients divides by
`denom = 1` and rounds nothing), the evaluation in triangle 0 at the doubles `0.31` and `0.59`
returns `L1 = 1801439850948199 / 2^54` (printed `0.10000000000000003`), `L2 = 0.31` and
`L3 = 5314247560297184 / 2^53` (printed `0.5899999999999999`): the two subtractions of
`1 - L1 - L2` each fall half way between two doubles and are rounded down. The three values
sum to `1 - 2^-53`, in exact arithmetic and also when the sum is formed in double arithmetic
from the left, and not to 1. -/
theorem C4_counterexample :
    roundDouble (31 / 100) = double031 ∧ roundDouble (59 / 100) = double059 ∧
    GDALTriangulationComputeBarycentricCoordinatesDouble squareMeshComputed 0 double031
        double059
      = some (true, some (1801439850948199 / 18014398509481984, double031,
          5314247560297184 / 9007199254740992)) ∧
    (1801439850948199 / 18014398509481984 + double031
        + 5314247560297184 / 9007199254740992 : ℚ) = 1 - 1 / 9007199254740992 ∧
    (1801439850948199 / 18014398509481984 + double031
        + 5314247560297184 / 9007199254740992 : ℚ) ≠ 1 ∧
    roundDouble (roundDouble (1801439850948199 / 18014398509481984 + double031)
        + 5314247560297184 / 9007199254740992) ≠ 1 := by
  refine ⟨double_literals.1, double_literals.2, square_double_coordinates, ?_, ?_, ?_⟩
  · norm_num [double031]
  · norm_num [double031]
  · rw [square_double_sum]
    norm_num

/-- C4, as amended: on a triangulation with computed coefficients (one per triangle), for
every triangle index in `[0, J)`, flagged degenerate or not, and every query point, the call
succeeds; in exact arithmetic the three coordinates it returns satisfy `L1 + L2 + L3 = 1`; in
the double arithmetic of the code the third coordinate is `1 - L1 - L2` computed by two rounded
subtractions, so the sum of the three returned doubles differs from 1 by the two rounding
errors, which is at most half the spacing of the doubles at `1 - L1` plus half the spacing at
`1 - L1 - L2`. -/
theorem C4_partition (psDT : GDALTriangulation)
    (coeffs : List GDALTriBarycentricCoefficients)
    (hC : psDT.pasFacetCoefficients = some coeffs)
    (hLen : (coeffs.length : Int) = psDT.nFacets)
    (nFacetIdx : Int) (h0 : 0 ≤ nFacetIdx) (h1 : nFacetIdx < psDT.nFacets) (dfX dfY : ℚ) :
    (∃ L1 L2 L3 : ℚ,
      GDALTriangulationComputeBarycentricCoordinates psDT nFacetIdx dfX dfY
        = some (true, some (L1, L2, L3)) ∧
      L1 + L2 + L3 = 1) ∧
    (∃ l1 l2 l3 : ℚ,
      GDALTriangulationComputeBarycentricCoordinatesDouble psDT nFacetIdx dfX dfY
        = some (true, some (l1, l2, l3)) ∧
      l3 = roundDouble (roundDouble (1 - l1) - l2) ∧
      l1 + l2 + l3 - 1
        = (roundDouble (1 - l1) - (1 - l1)) + (l3 - (roundDouble (1 - l1) - l2)) ∧
      |l1 + l2 + l3 - 1|
        ≤ (2 ^ ulpExponent (1 - l1) + 2 ^ ulpExponent (roundDouble (1 - l1) - l2)) / 2) := by
  obtain ⟨c, hc⟩ := readAt_isSome coeffs h0 (by rw [hLen]; exact h1)
  constructor
  · refine ⟨BARYC_COORD_L1 c dfX dfY, BARYC_COORD_L2 c dfX dfY,
      BARYC_COORD_L3 (BARYC_COORD_L1 c dfX dfY) (BARYC_COORD_L2 c dfX dfY), ?_, ?_⟩
    · simp [GDALTriangulationComputeBarycentricCoordinates, hC, h0, h1, hc]
    · unfold BARYC_COORD_L3
      ring
  · refine ⟨BARYC_COORD_L1_double c dfX dfY, BARYC_COORD_L2_double c dfX dfY,
      BARYC_COORD_L3_double (BARYC_COORD_L1_double c dfX dfY)
        (BARYC_COORD_L2_double c dfX dfY), ?_, rfl, ?_, ?_⟩
    · simp [GDALTriangulationComputeBarycentricCoordinatesDouble, hC, h0, h1, hc]
    · ring
    · have e1 := roundDouble_error (1 - BARYC_COORD_L1_double c dfX dfY)
      have e2 := roundDouble_error (roundDouble (1 - BARYC_COORD_L1_double c dfX dfY)
        - BARYC_COORD_L2_double c dfX dfY)
      have hsum : BARYC_COORD_L1_double c dfX dfY + BARYC_COORD_L2_double c dfX dfY
          + BARYC_COORD_L3_double (BARYC_COORD_L1_double c dfX dfY)
            (BARYC_COORD_L2_double c dfX dfY) - 1
          = (roundDouble (1 - BARYC_COORD_L1_double c dfX dfY)
              - (1 - BARYC_COORD_L1_double c dfX dfY))
            + (roundDouble (roundDouble (1 - BARYC_COORD_L1_double c dfX dfY)
                - BARYC_COORD_L2_double c dfX dfY)
              - (roundDouble (1 - BARYC_COORD_L1_double c dfX dfY)
                - BARYC_COORD_L2_double c dfX dfY)) := by
        unfold BARYC_COORD_L3_double
        ring
      rw [hsum]
      calc |(roundDouble (1 - BARYC_COORD_L1_double c dfX dfY)
              - (1 - BARYC_COORD_L1_double c dfX dfY))
            + (roundDouble (roundDouble (1 - BARYC_COORD_L1_double c dfX dfY)
                - BARYC_COORD_L2_double c dfX dfY)
              - (roundDouble (1 - BARYC_COORD_L1_double c dfX dfY)
                - BARYC_COORD_L2_double c dfX dfY))|
          ≤ _ := abs_add _ _
        _ ≤ _ := add_le_add e1 e2
        _ = _ := by ring

/-- C4 as amended, on the unit square: in exact arithmetic the coordinates of `(1/2, 1/2)`
in the upper right triangle sum to 1, and in double arithmetic the coordinates of
`(0.31, 0.59)` in triangle 0 are returned with `L3` the rounded `1 - L1 - L2`. -/
theorem C4_partition_witness :
    (∃ L1 L2 L3 : ℚ,
      GDALTriangulationComputeBarycentricCoordinates squareMeshComputed 1 (1 / 2) (1 / 2)
        = some (true, some (L1, L2, L3)) ∧
      L1 + L2 + L3 = 1) ∧
    (∃ l1 l2 l3 : ℚ,
      GDALTriangulationComputeBarycentricCoordinatesDouble squareMeshComputed 0 double031
          double059
        = some (true, some (l1, l2, l3)) ∧
      l3 = roundDouble (roundDouble (1 - l1) - l2) ∧
      l1 + l2 + l3 - 1
        = (roundDouble (1 - l1) - (1 - l1)) + (l3 - (roundDouble (1 - l1) - l2)) ∧
      |l1 + l2 + l3 - 1|
        ≤ (2 ^ ulpExponent (1 - l1) + 2 ^ ulpExponent (roundDouble (1 - l1) - l2)) / 2) :=
  ⟨(C4_partition squareMeshComputed squareCoeffs rfl rfl 1 (by decide) (by decide)
      (1 / 2) (1 / 2)).1,
    (C4_partition squareMeshComputed squareCoeffs rfl rfl 0 (by decide) (by decide)
      double031 double059).2⟩

end GDAL
